import Mathlib

/-!
# ptnet guest driver (`sys/dev/netmap/if_ptnet.c`): control plane

A shallow embedding of the control-plane part of the ptnet driver: the
register/unregister protocol (`ptnet_nm_register`, `ptnet_nm_ptctl`,
`ptnet_sync_from_csb`, `csb_notification_enable_all`) and the attach/detach
resource handling (`ptnet_attach`, `ptnet_detach`, `ptnet_irqs_init`,
`ptnet_irqs_fini`).

Conventions of the embedding.

* The driver state is a `World`: the softc plus the chronological list of
  observable events (device register accesses and resource operations).
* Arrays reached through a pointer (`sc->queues`, `sc->csb->rings`,
  `na->tx_rings`, `na->rx_rings`) are maps from the index; the pointers
  `sc->queues` and `sc->csb` themselves may be NULL (`none`), and a
  dereference of a NULL pointer aborts the run with a `Crash`.
* The host is a parameter: it decides what every register read returns and
  how the shared CSB changes while a register write is being served.
* `int backend_regifs` is a mathematical integer (signed overflow is
  undefined in C); 32-bit device registers are reduced modulo `2^32`.
-/

namespace Ptnet

/-! ## Declarations of the absent headers -/

/-- Modelled from the spec: the device registers `PTNET_IO_*` of
`netmap_virt.h`, a header that is not part of the sources.  The register table
of the spec (section 6) names them; their numeric offsets are not needed, only
that they are distinct registers.  `KICK off` is the register at
`PTNET_IO_KICK_BASE + off`. -/
inductive Reg
  | PTFEAT | PTCTL | PTSTS | CTRL | MAC_HI | MAC_LO | CSBBAH | CSBBAL | NIFP_OFS
  | NUM_TX_RINGS | NUM_RX_RINGS | NUM_TX_SLOTS | NUM_RX_SLOTS
  | KICK (off : Nat)
  deriving DecidableEq, Repr

/-- Constants and inline helpers that the driver takes from `netmap_virt.h` and
`netmap_kern.h`.  Neither header is part of the sources, so they are kept as
parameters: every result below holds for all values of them. -/
structure Hdr where
  NET_PTN_FEATURES_BASE : Nat
  NET_PARAVIRT_PTCTL_REGIF : Nat
  NET_PARAVIRT_PTCTL_UNREGIF : Nat
  PTNET_CTRL_IRQINIT : Nat
  PTNET_CTRL_IRQFINI : Nat
  NKR_NETMAP_OFF : Nat
  NKR_NETMAP_ON : Nat
  /-- `nm_kring_pending_on(kring)`, as a function of `nr_mode` and `nr_pending_mode`. -/
  nm_kring_pending_on : Nat → Nat → Bool
  /-- `nm_kring_pending_off(kring)`, as a function of `nr_mode` and `nr_pending_mode`. -/
  nm_kring_pending_off : Nat → Nat → Bool
  /-- The effect of `nm_set_native_flags(na)` on `na->na_flags`. -/
  nm_set_native_flags : Nat → Nat
  /-- The effect of `nm_clear_native_flags(na)` on `na->na_flags`. -/
  nm_clear_native_flags : Nat → Nat

/-- `enum txrx` of netmap. -/
inductive txrx
  | NR_RX | NR_TX
  deriving DecidableEq, Repr

/-! ## Data model -/

/-- One CSB entry, `struct ptnet_ring`. -/
structure ptnet_ring where
  head : Nat
  cur : Nat
  hwcur : Nat
  hwtail : Nat
  host_need_kick : Nat
  guest_need_kick : Nat
  deriving DecidableEq, Repr

/-- The user-visible `struct netmap_ring` a kring points to (`kring->ring`). -/
structure netmap_ring where
  head : Nat
  cur : Nat
  tail : Nat
  deriving DecidableEq, Repr

/-- The guest-local ring descriptor, `struct netmap_kring`. -/
structure netmap_kring where
  rhead : Nat
  rcur : Nat
  rtail : Nat
  nr_hwcur : Nat
  nr_hwtail : Nat
  nr_mode : Nat
  nr_pending_mode : Nat
  ring : netmap_ring
  deriving DecidableEq, Repr

/-- The fields of `struct netmap_adapter` the driver reads or writes.  The
kring arrays `tx_rings`/`rx_rings` are held once, in the softc model, since
`ptnet_nm_krings_create` makes both adapters point to the same arrays. -/
structure netmap_adapter where
  num_tx_rings : Nat
  num_rx_rings : Nat
  active_fds : Int
  na_flags : Nat
  deriving DecidableEq, Repr

/-- The interrupt handler installed for a queue. -/
inductive Handler
  | ptnet_tx_intr | ptnet_rx_intr
  deriving DecidableEq, Repr

/-- A queue, `struct ptnet_queue`.  `ptring` is the index of the CSB entry the
queue points to (`sc->csb->rings + ptring`); `irq` and `cookie` tell whether
the pointer is non-NULL. -/
structure ptnet_queue where
  irq : Bool
  cookie : Bool
  kring_id : Nat
  ptring : Nat
  kick : Reg
  deriving DecidableEq, Repr

/-- The driver's `struct ptnet_softc`.  Pointers to resources are `Bool`
(acquired or NULL) when nothing is read through them; `queues` and `csb` hold
the array they point to.  `rxqueues` is the offset of `sc->rxqueues` inside
`sc->queues`.  `core_mtx` tells whether the core lock is initialised. -/
structure ptnet_softc where
  ifp : Bool
  core_mtx : Bool
  hwaddr : List Nat
  ptfeatures : Nat
  backend_regifs : Int
  iomem : Bool
  msix_mem : Bool
  num_rings : Nat
  queues : Option (Nat → ptnet_queue)
  rxqueues : Nat
  csb : Option (Nat → ptnet_ring)
  ptna_nm : netmap_adapter
  ptna_dr : netmap_adapter
  tx_rings : Nat → netmap_kring
  rx_rings : Nat → netmap_kring

/-- The `na` argument of the netmap callbacks: a pointer to one of the two
adapters of the softc. -/
inductive na_ptr
  | ptna_nm | ptna_dr
  deriving DecidableEq, Repr

/-- Observable events, in the order they happen. -/
inductive Ev
  | bus_write_4 (r : Reg) (v : Nat)
  | bus_read_4 (r : Reg) (v : Nat)
  | alloc_iomem
  | alloc_csb
  | alloc_queues
  | free_csb
  | free_queues
  | release_iomem
  | alloc_msix_mem
  | release_msix_mem
  | alloc_msix (nvecs : Int)
  | release_msi
  | alloc_irq (i : Nat)
  | release_irq (i : Nat)
  | setup_intr (i : Nat) (h : Handler)
  | teardown_intr (i : Nat)
  | if_alloc
  | if_free
  | mtx_init
  | mtx_destroy (initialised : Bool)
  deriving DecidableEq, Repr

/-- The driver state together with the events so far. -/
structure World where
  sc : ptnet_softc
  trace : List Ev

/-- The reason of an aborted run. -/
inductive Fault
  | null_queues
  | null_csb
  deriving DecidableEq, Repr

/-- An aborted run: the fault and the events that happened before it. -/
structure Crash where
  fault : Fault
  trace : List Ev
  deriving DecidableEq, Repr

/-- The host side of the device.  `reg_read` is the value a register read
returns given the events so far; `on_write` is what the host does to the
shared CSB while it serves a register write (the events include that write). -/
structure Host where
  reg_read : List Ev → Reg → Nat
  on_write : List Ev → (Nat → ptnet_ring) → (Nat → ptnet_ring)

/-- Conversion of a 32-bit register value to C `int`. -/
def toInt32 (v : Nat) : Int :=
  if v % 2 ^ 32 < 2 ^ 31 then ((v % 2 ^ 32 : Nat) : Int) else ((v % 2 ^ 32 : Nat) : Int) - 2 ^ 32

/-- Selects the adapter `na` points to. -/
def na_get (sc : ptnet_softc) (na : na_ptr) : netmap_adapter :=
  match na with
  | .ptna_nm => sc.ptna_nm
  | .ptna_dr => sc.ptna_dr

/-- Stores an adapter through `na`. -/
def na_set (sc : ptnet_softc) (na : na_ptr) (a : netmap_adapter) : ptnet_softc :=
  match na with
  | .ptna_nm => { sc with ptna_nm := a }
  | .ptna_dr => { sc with ptna_dr := a }

/-- Modelled from the spec: `nma_get_nrings(na, t)` of `netmap_kern.h` (absent
from the sources), the number of rings of the adapter in one direction (the
spec's "all rings of a direction"). -/
def nma_get_nrings (a : netmap_adapter) (t : txrx) : Nat :=
  match t with
  | .NR_TX => a.num_tx_rings
  | .NR_RX => a.num_rx_rings

/-! ## Device access -/

/-- The C call `bus_write_4(sc->iomem, r, v)`: the write is recorded and the host
serves it, possibly updating the shared CSB.  Every caller passes a 32-bit value. -/
def bus_write_4 (H : Host) (w : World) (r : Reg) (v : Nat) : World :=
  let tr := w.trace ++ [Ev.bus_write_4 r v]
  { sc := { w.sc with csb := w.sc.csb.map (H.on_write tr) }, trace := tr }

/-- The C call `bus_read_4(sc->iomem, r)`: the value comes from the host. -/
def bus_read_4 (H : Host) (w : World) (r : Reg) : World × Nat :=
  let v := H.reg_read w.trace r % 2 ^ 32
  ({ w with trace := w.trace ++ [Ev.bus_read_4 r v] }, v)

/-- The function `ptnet_nm_ptctl`: write the command to PTCTL, read the status from PTSTS. -/
def ptnet_nm_ptctl (H : Host) (w : World) (cmd : Nat) : World × Nat :=
  bus_read_4 H (bus_write_4 H w Reg.PTCTL cmd) Reg.PTSTS

/-! ## CSB helpers of the register protocol -/

/-- The CSB field named by the `_fld` argument of `csb_notification_enable_all`. -/
inductive csb_fld
  | host_need_kick | guest_need_kick
  deriving DecidableEq, Repr

/-- The assignment `ptring->_fld = _v`. -/
def ptnet_ring.store (r : ptnet_ring) (f : csb_fld) (v : Nat) : ptnet_ring :=
  match f with
  | .host_need_kick => { r with host_need_kick := v }
  | .guest_need_kick => { r with guest_need_kick := v }

/-- One iteration of `csb_notification_enable_all`: `queues[i].ptring->_fld = _v`,
where `queues` starts at offset `base` of `sc->queues`. -/
def csb_store (w : World) (base i : Nat) (f : csb_fld) (v : Nat) : Except Crash World :=
  match w.sc.queues with
  | none => .error ⟨.null_queues, w.trace⟩
  | some q =>
    match w.sc.csb with
    | none => .error ⟨.null_csb, w.trace⟩
    | some c =>
      .ok { w with sc := { w.sc with
              csb := some (Function.update c (q (base + i)).ptring
                            ((c (q (base + i)).ptring).store f v)) } }

/-- The loop `for (i=0; i<n; i++) queues[i].ptring->_fld = _v`. -/
def csb_store_loop (base : Nat) (f : csb_fld) (v : Nat) : Nat → World → Except Crash World
  | 0, w => .ok w
  | n + 1, w => csb_store_loop base f v n w >>= fun w1 => csb_store w1 base n f v

/-- The macro `csb_notification_enable_all(_x, _na, _t, _fld, _v)`. -/
def csb_notification_enable_all (w : World) (na : na_ptr) (t : txrx) (f : csb_fld) (v : Nat) :
    Except Crash World :=
  csb_store_loop (if t = txrx.NR_RX then w.sc.rxqueues else 0) f v
    (nma_get_nrings (na_get w.sc na) t) w

/-- The body of the loop of `ptnet_sync_from_csb` for index `i`. -/
def sync_one (w : World) (na : na_ptr) (i : Nat) : Except Crash World :=
  match w.sc.queues with
  | none => .error ⟨.null_queues, w.trace⟩
  | some q =>
    match w.sc.csb with
    | none => .error ⟨.null_csb, w.trace⟩
    | some c =>
      let ptring := c (q i).ptring
      let pull := fun (k : netmap_kring) =>
        { k with rhead := ptring.head, rcur := ptring.cur, nr_hwcur := ptring.hwcur,
                 nr_hwtail := ptring.hwtail, rtail := ptring.hwtail,
                 ring := { head := ptring.head, cur := ptring.cur, tail := ptring.hwtail } }
      if i < (na_get w.sc na).num_tx_rings then
        .ok { w with sc := { w.sc with
                tx_rings := Function.update w.sc.tx_rings i (pull (w.sc.tx_rings i)) } }
      else
        .ok { w with sc := { w.sc with
                rx_rings := Function.update w.sc.rx_rings (i - (na_get w.sc na).num_tx_rings)
                  (pull (w.sc.rx_rings (i - (na_get w.sc na).num_tx_rings))) } }

/-- The loop of `ptnet_sync_from_csb` over the first `n` queues. -/
def sync_loop (na : na_ptr) : Nat → World → Except Crash World
  | 0, w => .ok w
  | n + 1, w => sync_loop na n w >>= fun w1 => sync_one w1 na n

/-- The function `ptnet_sync_from_csb`. -/
def ptnet_sync_from_csb (w : World) (na : na_ptr) : Except Crash World :=
  sync_loop na w.sc.num_rings w

/-- The loop `for (i=0; i<n; i++) if (pending(kring)) kring->nr_mode = mode` over one
kring array. -/
def set_mode_loop (pending : Nat → Nat → Bool) (mode : Nat) :
    Nat → (Nat → netmap_kring) → (Nat → netmap_kring)
  | 0, a => a
  | n + 1, a =>
    let a1 := set_mode_loop pending mode n a
    if pending (a1 n).nr_mode (a1 n).nr_pending_mode then
      Function.update a1 n { a1 n with nr_mode := mode }
    else a1

/-- The loop nest `for_rx_tx(t) for (i...) if (pending(kring)) kring->nr_mode = mode`
of `ptnet_nm_register`. -/
def set_mode_all (pending : Nat → Nat → Bool) (mode : Nat) (sc : ptnet_softc) (na : na_ptr) :
    ptnet_softc :=
  let rx := set_mode_loop pending mode (nma_get_nrings (na_get sc na) txrx.NR_RX) sc.rx_rings
  let sc1 := { sc with rx_rings := rx }
  let tx := set_mode_loop pending mode (nma_get_nrings (na_get sc1 na) txrx.NR_TX) sc1.tx_rings
  { sc1 with tx_rings := tx }

/-- The world with another CSB content. -/
def World.with_csb (w : World) (c : Nat → ptnet_ring) : World :=
  { w with sc := { w.sc with csb := some c } }

/-- The world with other kring arrays. -/
def World.with_krings (w : World) (tx rx : Nat → netmap_kring) : World :=
  { w with sc := { w.sc with tx_rings := tx, rx_rings := rx } }

/-- The world with another value of `sc->backend_regifs`. -/
def World.with_regifs (w : World) (n : Int) : World :=
  { w with sc := { w.sc with backend_regifs := n } }

/-- The native-adapter block of the `onoff` branch of `ptnet_nm_register`: the
`for_rx_tx` loops that switch pending rings to `NKR_NETMAP_ON`, then
`nm_set_native_flags(na)`. -/
def native_on (K : Hdr) (w : World) (na : na_ptr) : World :=
  let sc1 := set_mode_all K.nm_kring_pending_on K.NKR_NETMAP_ON w.sc na
  let a := na_get sc1 na
  { w with sc := na_set sc1 na { a with na_flags := K.nm_set_native_flags a.na_flags } }

/-- The native-adapter block of the `!onoff` branch of `ptnet_nm_register`:
`nm_clear_native_flags(na)`, then the `for_rx_tx` loops that switch pending rings to
`NKR_NETMAP_OFF`. -/
def native_off (K : Hdr) (w : World) (na : na_ptr) : World :=
  let a := na_get w.sc na
  let sc1 := na_set w.sc na { a with na_flags := K.nm_clear_native_flags a.na_flags }
  { w with sc := set_mode_all K.nm_kring_pending_off K.NKR_NETMAP_OFF sc1 na }

/-- The function `ptnet_nm_register(na, onoff)`; the result is the new state and the
returned `int`. -/
def ptnet_nm_register (K : Hdr) (H : Host) (w : World) (na : na_ptr) (onoff : Bool) :
    Except Crash (World × Int) :=
  let native : Bool := decide (na = na_ptr.ptna_nm)
  -- if (!onoff) sc->backend_regifs--;
  let w := if onoff then w else w.with_regifs (w.sc.backend_regifs - 1)
  -- if (native && !onoff && na->active_fds == 0): re-enable the guest notifications
  (if native && !onoff && decide ((na_get w.sc na).active_fds = 0) then
      csb_notification_enable_all w na txrx.NR_TX csb_fld.guest_need_kick 1 >>= fun w1 =>
      csb_notification_enable_all w1 na txrx.NR_RX csb_fld.guest_need_kick 1
    else .ok w) >>= fun w =>
  if onoff then
    -- if (sc->backend_regifs == 0): initialise the flags, then REGIF
    (if w.sc.backend_regifs = 0 then
        (csb_notification_enable_all w na txrx.NR_TX csb_fld.host_need_kick 1 >>= fun w1 =>
         csb_notification_enable_all w1 na txrx.NR_TX csb_fld.guest_need_kick 0 >>= fun w2 =>
         csb_notification_enable_all w2 na txrx.NR_RX csb_fld.host_need_kick 1 >>= fun w3 =>
         csb_notification_enable_all w3 na txrx.NR_RX csb_fld.guest_need_kick 1) >>= fun w4 =>
        .ok ((ptnet_nm_ptctl H w4 K.NET_PARAVIRT_PTCTL_REGIF).1,
             toInt32 (ptnet_nm_ptctl H w4 K.NET_PARAVIRT_PTCTL_REGIF).2)
      else .ok (w, (0 : Int))) >>= fun (wr : World × Int) =>
    -- if (ret) return ret;
    if wr.2 ≠ 0 then .ok wr
    else
      (if (!native && decide (wr.1.sc.backend_regifs = 0)) ||
            (native && decide ((na_get wr.1.sc na).active_fds = 0)) then
          ptnet_sync_from_csb wr.1 na
        else .ok wr.1) >>= fun w =>
      let w := if native then native_on K w na else w
      -- if (onoff) sc->backend_regifs++; return ret;
      .ok (w.with_regifs (w.sc.backend_regifs + 1), wr.2)
  else
    let w := if native then native_off K w na else w
    (if native && decide ((na_get w.sc na).active_fds = 0) then
        ptnet_sync_from_csb w na
      else .ok w) >>= fun w =>
    -- if (sc->backend_regifs == 0) ret = ptnet_nm_ptctl(ifp, UNREGIF); return ret;
    if w.sc.backend_regifs = 0 then
      .ok ((ptnet_nm_ptctl H w K.NET_PARAVIRT_PTCTL_UNREGIF).1,
           toInt32 (ptnet_nm_ptctl H w K.NET_PARAVIRT_PTCTL_UNREGIF).2)
    else .ok (w, (0 : Int))

/-! ## Pure counterparts of the loops -/

/-- The CSB after the first `n` iterations of the loop of
`csb_notification_enable_all` over the queues starting at offset `base`. -/
def csb_store_pure (q : Nat → ptnet_queue) (base : Nat) (f : csb_fld) (v : Nat) :
    Nat → (Nat → ptnet_ring) → (Nat → ptnet_ring)
  | 0, c => c
  | n + 1, c =>
    let c1 := csb_store_pure q base f v n c
    Function.update c1 (q (base + n)).ptring ((c1 (q (base + n)).ptring).store f v)

/-- What `ptnet_sync_from_csb` writes into a kring from the CSB entry `p`. -/
def pull (p : ptnet_ring) (k : netmap_kring) : netmap_kring :=
  { k with rhead := p.head, rcur := p.cur, nr_hwcur := p.hwcur,
           nr_hwtail := p.hwtail, rtail := p.hwtail,
           ring := { head := p.head, cur := p.cur, tail := p.hwtail } }

/-- The TX krings after the first `n` iterations of the loop of `ptnet_sync_from_csb`. -/
def sync_tx_pure (q : Nat → ptnet_queue) (c : Nat → ptnet_ring) (ntx : Nat) :
    Nat → (Nat → netmap_kring) → (Nat → netmap_kring)
  | 0, tx => tx
  | n + 1, tx =>
    let tx1 := sync_tx_pure q c ntx n tx
    if n < ntx then Function.update tx1 n (pull (c (q n).ptring) (tx1 n)) else tx1

/-- The RX krings after the first `n` iterations of the loop of `ptnet_sync_from_csb`. -/
def sync_rx_pure (q : Nat → ptnet_queue) (c : Nat → ptnet_ring) (ntx : Nat) :
    Nat → (Nat → netmap_kring) → (Nat → netmap_kring)
  | 0, rx => rx
  | n + 1, rx =>
    let rx1 := sync_rx_pure q c ntx n rx
    if n < ntx then rx1 else Function.update rx1 (n - ntx) (pull (c (q n).ptring) (rx1 (n - ntx)))

/-- The queue array behind `sc->queues` (an all-zero array when the pointer is NULL). -/
def World.Q (w : World) : Nat → ptnet_queue :=
  match w.sc.queues with
  | some q => q
  | none => fun _ => ⟨false, false, 0, 0, Reg.PTFEAT⟩

/-- The CSB entries behind `sc->csb` (all-zero entries when the pointer is NULL). -/
def World.C (w : World) : Nat → ptnet_ring :=
  match w.sc.csb with
  | some c => c
  | none => fun _ => ⟨0, 0, 0, 0, 0, 0⟩

/-- The driver is attached as far as the register protocol needs it: the queue
array and the CSB are allocated. -/
def World.attached (w : World) : Prop :=
  w.sc.queues.isSome = true ∧ w.sc.csb.isSome = true

instance (w : World) : Decidable w.attached :=
  inferInstanceAs (Decidable (w.sc.queues.isSome = true ∧ w.sc.csb.isSome = true))

/-- The CSB after `csb_notification_enable_all(sc, na, t, f, v)`. -/
def enable_pure (w : World) (na : na_ptr) (t : txrx) (f : csb_fld) (v : Nat)
    (c : Nat → ptnet_ring) : Nat → ptnet_ring :=
  csb_store_pure w.Q (if t = txrx.NR_RX then w.sc.rxqueues else 0) f v
    (nma_get_nrings (na_get w.sc na) t) c

/-- The CSB after the flag initialisation of the 0 to 1 transition (the four
`csb_notification_enable_all` of the `onoff` branch). -/
def init_flags (w : World) (na : na_ptr) : Nat → ptnet_ring :=
  enable_pure w na txrx.NR_RX csb_fld.guest_need_kick 1
    (enable_pure w na txrx.NR_RX csb_fld.host_need_kick 1
      (enable_pure w na txrx.NR_TX csb_fld.guest_need_kick 0
        (enable_pure w na txrx.NR_TX csb_fld.host_need_kick 1 w.C)))

/-- The CSB after the two `csb_notification_enable_all` of the exit from netmap mode. -/
def exit_flags (w : World) (na : na_ptr) : Nat → ptnet_ring :=
  enable_pure w na txrx.NR_RX csb_fld.guest_need_kick 1
    (enable_pure w na txrx.NR_TX csb_fld.guest_need_kick 1 w.C)

/-- The world after `ptnet_sync_from_csb(sc, na)`. -/
def sync_pure (w : World) (na : na_ptr) : World :=
  w.with_krings
    (sync_tx_pure w.Q w.C (na_get w.sc na).num_tx_rings w.sc.num_rings w.sc.tx_rings)
    (sync_rx_pure w.Q w.C (na_get w.sc na).num_tx_rings w.sc.num_rings w.sc.rx_rings)

/-- The `onoff` branch of `ptnet_nm_register` after a successful or skipped REGIF, on an
attached driver: the conditional pull from the CSB, the native block, the increment. -/
def on_tail (K : Hdr) (w : World) (na : na_ptr) : World :=
  let native : Bool := decide (na = na_ptr.ptna_nm)
  let w2 := if (!native && decide (w.sc.backend_regifs = 0)) ||
      (native && decide ((na_get w.sc na).active_fds = 0)) then sync_pure w na else w
  let w3 := if native then native_on K w2 na else w2
  w3.with_regifs (w3.sc.backend_regifs + 1)

/-- The `!onoff` path of `ptnet_nm_register` up to the test that guards UNREGIF, on an
attached driver: the decrement, the notification fixup, the native block, the
conditional pull from the CSB. -/
def off_head (K : Hdr) (w : World) (na : na_ptr) : World :=
  let native : Bool := decide (na = na_ptr.ptna_nm)
  let w0 := w.with_regifs (w.sc.backend_regifs - 1)
  let w1 := if native && decide ((na_get w0.sc na).active_fds = 0) then
      w0.with_csb (exit_flags w0 na) else w0
  let w2 := if native then native_off K w1 na else w1
  if native && decide ((na_get w2.sc na).active_fds = 0) then sync_pure w2 na else w2

/-- The function `ptnet_nm_register` on an attached driver, with the loops replaced by
their pure counterparts. -/
def register_pure (K : Hdr) (H : Host) (w : World) (na : na_ptr) (onoff : Bool) : World × Int :=
  if onoff then
    let wr : World × Int := if w.sc.backend_regifs = 0 then
        ((ptnet_nm_ptctl H (w.with_csb (init_flags w na)) K.NET_PARAVIRT_PTCTL_REGIF).1,
         toInt32 (ptnet_nm_ptctl H (w.with_csb (init_flags w na)) K.NET_PARAVIRT_PTCTL_REGIF).2)
      else (w, 0)
    if wr.2 ≠ 0 then wr else (on_tail K wr.1 na, wr.2)
  else
    if (off_head K w na).sc.backend_regifs = 0 then
      ((ptnet_nm_ptctl H (off_head K w na) K.NET_PARAVIRT_PTCTL_UNREGIF).1,
       toInt32 (ptnet_nm_ptctl H (off_head K w na) K.NET_PARAVIRT_PTCTL_UNREGIF).2)
    else (off_head K w na, 0)

/-! ## Vocabulary of the statements -/

/-- The status the host returns in PTSTS for the control call `cmd` written to PTCTL
after the events `tr`. -/
def ptctl_status (H : Host) (tr : List Ev) (cmd : Nat) : Nat :=
  H.reg_read (tr ++ [Ev.bus_write_4 Reg.PTCTL cmd]) Reg.PTSTS % 2 ^ 32

/-- The two events of one control call: the write to PTCTL and the read of PTSTS. -/
def ptctl_events (H : Host) (tr : List Ev) (cmd : Nat) : List Ev :=
  [Ev.bus_write_4 Reg.PTCTL cmd, Ev.bus_read_4 Reg.PTSTS (ptctl_status H tr cmd)]

/-! ## Attach and detach -/

/-- The `errno` values the driver returns (FreeBSD `sys/errno.h`). -/
def ENXIO : Int := 6

/-- See `ENXIO`. -/
def ENOMEM : Int := 12

/-- See `ENXIO`. -/
def ENOSPC : Int := 28

/-- The outcome of every kernel service `ptnet_attach` relies on; a test injects a
failure by changing one field. -/
structure Env where
  /-- `bus_alloc_resource_any` of the I/O BAR returns non-NULL. -/
  iomem_ok : Bool
  /-- `malloc` of the CSB: `none` is NULL, `some p` a block with `vtophys` equal to `p`. -/
  csb_alloc : Option Nat
  /-- `malloc` of the queue array returns non-NULL. -/
  queues_alloc_ok : Bool
  /-- `bus_alloc_resource_any` of the MSI-X BAR returns non-NULL. -/
  msix_mem_ok : Bool
  /-- `pci_msix_count(dev)`. -/
  msix_count : Int
  /-- `pci_alloc_msix(dev, &nvecs)`: the returned error and the new value of `nvecs`. -/
  alloc_msix : Int → Int × Int
  /-- `bus_alloc_resource_any` of the interrupt of queue `i` returns non-NULL. -/
  irq_alloc_ok : Nat → Bool
  /-- `bus_setup_intr` for queue `i`: the returned error. -/
  setup_intr_err : Nat → Int
  /-- `if_alloc` returns non-NULL. -/
  if_alloc_ok : Bool

/-- A zero-filled `struct netmap_kring`. -/
def kring_zero : netmap_kring := ⟨0, 0, 0, 0, 0, 0, 0, ⟨0, 0, 0⟩⟩

/-- A zero-filled `struct netmap_adapter`. -/
def adapter_zero : netmap_adapter := ⟨0, 0, 0, 0⟩

/-- A zero-filled `struct ptnet_queue` (`M_ZERO`). -/
def queue_zero : ptnet_queue := ⟨false, false, 0, 0, Reg.PTFEAT⟩

/-- A zero-filled `struct ptnet_ring` (`M_ZERO`). -/
def ring_zero : ptnet_ring := ⟨0, 0, 0, 0, 0, 0⟩

/-- The softc as the bus hands it to `ptnet_attach`: zero-filled. -/
def softc_zero : ptnet_softc :=
  { ifp := false, core_mtx := false, hwaddr := [0, 0, 0, 0, 0, 0], ptfeatures := 0,
    backend_regifs := 0, iomem := false, msix_mem := false, num_rings := 0, queues := none,
    rxqueues := 0, csb := none, ptna_nm := adapter_zero, ptna_dr := adapter_zero,
    tx_rings := fun _ => kring_zero, rx_rings := fun _ => kring_zero }

/-- Appends an event that is not a register access. -/
def World.log (w : World) (e : Ev) : World :=
  { w with trace := w.trace ++ [e] }

/-- The body of the loop of `ptnet_irqs_fini` for queue `i`. -/
def irqs_fini_one (w : World) (i : Nat) : Except Crash World :=
  match w.sc.queues with
  | none => .error ⟨.null_queues, w.trace⟩
  | some q =>
    -- if (pq->cookie) { bus_teardown_intr(...); pq->cookie = NULL; }
    let w1 : World := if (q i).cookie then
        { sc := { w.sc with queues := some (Function.update q i { q i with cookie := false }) },
          trace := w.trace ++ [Ev.teardown_intr i] }
      else w
    let q1 := if (q i).cookie then Function.update q i { q i with cookie := false } else q
    -- if (pq->irq) { bus_release_resource(...); pq->irq = NULL; }
    if (q1 i).irq then
      .ok { sc := { w1.sc with queues := some (Function.update q1 i { q1 i with irq := false }) },
            trace := w1.trace ++ [Ev.release_irq i] }
    else .ok w1

/-- The loop of `ptnet_irqs_fini` over the first `n` queues. -/
def irqs_fini_loop : Nat → World → Except Crash World
  | 0, w => .ok w
  | n + 1, w => irqs_fini_loop n w >>= fun w1 => irqs_fini_one w1 n

/-- The function `ptnet_irqs_fini`. -/
def ptnet_irqs_fini (K : Hdr) (H : Host) (w : World) : Except Crash World :=
  irqs_fini_loop w.sc.num_rings (bus_write_4 H w Reg.CTRL K.PTNET_CTRL_IRQFINI) >>= fun w1 =>
  if w1.sc.msix_mem then
    .ok { sc := { w1.sc with msix_mem := false },
          trace := w1.trace ++ [Ev.release_msi, Ev.release_msix_mem] }
  else .ok w1

/-- The body of the loop of `ptnet_irqs_init` for queue `i`; `some err` is a jump to
`err_path` with that value of `err`, where `err` is the value the variable has on entry of
the iteration. -/
def irqs_init_one (E : Env) (num_tx_rings : Nat) (err : Int) (w : World) (i : Nat) :
    Except Crash (World × Option Int) :=
  match w.sc.queues with
  | none => .error ⟨.null_queues, w.trace⟩
  | some q =>
    let handler := if i > num_tx_rings then Handler.ptnet_rx_intr else Handler.ptnet_tx_intr
    -- pq->irq = bus_alloc_resource_any(...); if (pq->irq == NULL) goto err_path;
    if E.irq_alloc_ok i then
      let q1 := Function.update q i { q i with irq := true }
      let w1 : World := { sc := { w.sc with queues := some q1 },
                          trace := w.trace ++ [Ev.alloc_irq i] }
      -- err = bus_setup_intr(...); if (err) goto err_path;
      if E.setup_intr_err i ≠ 0 then .ok (w1, some (E.setup_intr_err i))
      else
        .ok ({ sc := { w1.sc with
                 queues := some (Function.update q1 i { q1 i with cookie := true }) },
               trace := w1.trace ++ [Ev.setup_intr i handler] }, none)
    else .ok ({ w with sc := { w.sc with
                  queues := some (Function.update q i { q i with irq := false }) } }, some err)

/-- The loop of `ptnet_irqs_init` over the first `n` queues; it stops at the first jump to
`err_path`.  The variable `err` is 0 inside the loop: `pci_alloc_msix` and every earlier
`bus_setup_intr` returned 0. -/
def irqs_init_loop (E : Env) (num_tx_rings : Nat) : Nat → World → Except Crash (World × Option Int)
  | 0, w => .ok (w, none)
  | n + 1, w => irqs_init_loop E num_tx_rings n w >>= fun r =>
    match r.2 with
    | some e => .ok (r.1, some e)
    | none => irqs_init_one E num_tx_rings 0 r.1 n

/-- The function `ptnet_irqs_init`; the result is the new state and the returned `int`. -/
def ptnet_irqs_init (K : Hdr) (H : Host) (E : Env) (w : World) : Except Crash (World × Int) :=
  -- int nvecs = sc->num_rings;
  let nvecs : Int := toInt32 w.sc.num_rings
  let rd := bus_read_4 H w Reg.NUM_TX_RINGS
  let w := rd.1
  let num_tx_rings := rd.2
  if !E.msix_mem_ok then .ok (w, ENXIO)
  else
    let w : World := { sc := { w.sc with msix_mem := true },
                       trace := w.trace ++ [Ev.alloc_msix_mem] }
    -- err_path: ptnet_irqs_fini(sc); return err;
    let err_path := fun (w : World) (err : Int) =>
      ptnet_irqs_fini K H w >>= fun w1 => .ok (w1, err)
    if E.msix_count < nvecs then err_path w ENOSPC
    else
      let r := E.alloc_msix nvecs
      if r.1 ≠ 0 then err_path w r.1
      else
        let w := w.log (Ev.alloc_msix r.2)
        irqs_init_loop E num_tx_rings r.2.toNat w >>= fun l =>
        match l.2 with
        | some e => err_path l.1 e
        | none => .ok (bus_write_4 H l.1 Reg.CTRL K.PTNET_CTRL_IRQINIT, 0)

/-- The first block of `ptnet_detach`: `if (sc->ifp) { ...; if_free(sc->ifp); sc->ifp = NULL; }`,
which also clears `sc->ptna_dr`. -/
def detach_ifp (w : World) : World :=
  if w.sc.ifp then
    { sc := { w.sc with ifp := false, ptna_dr := adapter_zero },
      trace := w.trace ++ [Ev.if_free] }
  else w

/-- The CSB block of `ptnet_detach`:
`if (sc->csb) { CSBBAH = 0; CSBBAL = 0; free(sc->csb); sc->csb = NULL; }`. -/
def detach_csb (H : Host) (w : World) : World :=
  if w.sc.csb.isSome then
    let w2 := bus_write_4 H (bus_write_4 H w Reg.CSBBAH 0) Reg.CSBBAL 0
    { sc := { w2.sc with csb := none }, trace := w2.trace ++ [Ev.free_csb] }
  else w

/-- The queue block of `ptnet_detach`:
`if (sc->queues) { free(sc->queues); sc->queues = NULL; }`. -/
def detach_queues (w : World) : World :=
  if w.sc.queues.isSome then
    { sc := { w.sc with queues := none }, trace := w.trace ++ [Ev.free_queues] }
  else w

/-- The I/O BAR block of `ptnet_detach`:
`if (sc->iomem) { bus_release_resource(...); sc->iomem = NULL; }`. -/
def detach_iomem (w : World) : World :=
  if w.sc.iomem then
    { sc := { w.sc with iomem := false }, trace := w.trace ++ [Ev.release_iomem] }
  else w

/-- The last statement of `ptnet_detach`: `PTNET_CORE_LOCK_FINI(sc)`, whatever the state
of the lock. -/
def detach_lock (w : World) : World :=
  { sc := { w.sc with core_mtx := false },
    trace := w.trace ++ [Ev.mtx_destroy w.sc.core_mtx] }

/-- The function `ptnet_detach`; it always returns 0, so the result is the new state. -/
def ptnet_detach (K : Hdr) (H : Host) (w : World) : Except Crash World :=
  ptnet_irqs_fini K H (detach_ifp w) >>= fun w1 =>
  .ok (detach_lock (detach_iomem (detach_queues (detach_csb H w1))))

/-- The queue initialisation loop of `ptnet_attach` over the first `n` queues. -/
def init_queues (num_tx_rings : Nat) : Nat → (Nat → ptnet_queue) → (Nat → ptnet_queue)
  | 0, q => q
  | n + 1, q =>
    let q1 := init_queues num_tx_rings n q
    Function.update q1 n
      { q1 n with kring_id := if n ≥ num_tx_rings then n - num_tx_rings else n,
                  kick := Reg.KICK (4 * n), ptring := n }

/-- The part of `ptnet_attach` after `if_alloc` succeeded: the interface setup, the MAC
address, the core lock, the netmap adapters; it cannot fail. -/
def attach_finish (H : Host) (w : World) (num_tx_rings num_rx_rings : Nat) : World :=
  let hi := bus_read_4 H w Reg.MAC_HI
  let lo := bus_read_4 H hi.1 Reg.MAC_LO
  let hwaddr := [(hi.2 >>> 8) &&& 0xff, hi.2 &&& 0xff, (lo.2 >>> 24) &&& 0xff,
                 (lo.2 >>> 16) &&& 0xff, (lo.2 >>> 8) &&& 0xff, lo.2 &&& 0xff]
  -- PTNET_CORE_LOCK_INIT(sc); sc->backend_regifs = 0;
  let w : World := { sc := { lo.1.sc with hwaddr := hwaddr, core_mtx := true, backend_regifs := 0 },
                     trace := lo.1.trace ++ [Ev.mtx_init] }
  let w := (bus_read_4 H w Reg.NIFP_OFS).1
  let w := (bus_read_4 H w Reg.NUM_TX_SLOTS).1
  let w := (bus_read_4 H w Reg.NUM_RX_SLOTS).1
  -- netmap_pt_guest_attach(&na_arg, ...); memset(&sc->ptna_dr, 0, sizeof(sc->ptna_dr));
  { w with sc := { w.sc with
      ptna_nm := { num_tx_rings := num_tx_rings, num_rx_rings := num_rx_rings,
                   active_fds := 0, na_flags := 0 },
      ptna_dr := adapter_zero } }

/-- The `err_path` of `ptnet_attach`: `ptnet_detach(dev); return err;`. -/
def attach_err_path (K : Hdr) (H : Host) (w : World) (err : Int) : Except Crash (World × Int) :=
  ptnet_detach K H w >>= fun w1 => .ok (w1, err)

/-- The queue array of `ptnet_attach` once its `malloc` succeeded: `sc->rxqueues` and the
initialisation loop. -/
def attach_queues (w : World) (num_tx_rings : Nat) : World :=
  { sc := { w.sc with
      queues := some (init_queues num_tx_rings w.sc.num_rings (fun _ => queue_zero)),
      rxqueues := num_tx_rings },
    trace := w.trace ++ [Ev.alloc_queues] }

/-- The second half of `ptnet_attach`, from the reading of the ring counts after the CSB
installation to the end. -/
def attach_after_csb (K : Hdr) (H : Host) (E : Env) (w : World) : Except Crash (World × Int) :=
  let rtx := bus_read_4 H w Reg.NUM_TX_RINGS
  let rrx := bus_read_4 H rtx.1 Reg.NUM_RX_RINGS
  let num_tx_rings := rtx.2
  let num_rx_rings := rrx.2
  let w : World := { rrx.1 with sc := { rrx.1.sc with
                       num_rings := (num_tx_rings + num_rx_rings) % 2 ^ 32 } }
  if !E.queues_alloc_ok then attach_err_path K H w ENOMEM
  else
    ptnet_irqs_init K H E (attach_queues w num_tx_rings) >>= fun r =>
    if r.2 ≠ 0 then attach_err_path K H r.1 r.2
    else if !E.if_alloc_ok then attach_err_path K H r.1 ENOMEM
    else
      let w := r.1.log Ev.if_alloc
      .ok (attach_finish H { w with sc := { w.sc with ifp := true } }
            num_tx_rings num_rx_rings, 0)

/-- The function `ptnet_attach` on a zero-filled softc; the result is the new state and the
returned `int`. -/
def ptnet_attach (K : Hdr) (H : Host) (E : Env) (tr : List Ev) : Except Crash (World × Int) :=
  let w : World := { sc := softc_zero, trace := tr }
  if !E.iomem_ok then .ok (w, ENXIO)
  else
    let w : World := { sc := { w.sc with iomem := true }, trace := w.trace ++ [Ev.alloc_iomem] }
    let rd := bus_read_4 H (bus_write_4 H w Reg.PTFEAT K.NET_PTN_FEATURES_BASE) Reg.PTFEAT
    let w := rd.1
    let ptfeatures := rd.2
    if ptfeatures &&& K.NET_PTN_FEATURES_BASE = 0 then attach_err_path K H w ENXIO
    else
      let w : World := { w with sc := { w.sc with ptfeatures := ptfeatures } }
      match E.csb_alloc with
      | none => attach_err_path K H w ENOMEM
      | some p =>
        let w : World := { sc := { w.sc with csb := some (fun _ => ring_zero) },
                           trace := w.trace ++ [Ev.alloc_csb] }
        -- vm_paddr_t paddr = vtophys(sc->csb);
        let paddr := p % 2 ^ 64
        let w := bus_write_4 H w Reg.CSBBAH ((paddr >>> 32) &&& 0xffffffff)
        let w := bus_write_4 H w Reg.CSBBAL (paddr &&& 0xffffffff)
        attach_after_csb K H E w

/-! ## Vocabulary of the statements about the local descriptors and the flags -/

/-- The cursors of a local ring descriptor: everything `ptnet_sync_from_csb` writes
(`rhead`, `rcur`, `rtail`, `nr_hwcur`, `nr_hwtail` and the `head`, `cur`, `tail` of
`kring->ring`). -/
def cursors (k : netmap_kring) : Nat × Nat × Nat × Nat × Nat × netmap_ring :=
  (k.rhead, k.rcur, k.rtail, k.nr_hwcur, k.nr_hwtail, k.ring)

/-- The local ring descriptor `ptnet_sync_from_csb(sc, na)` maps to the ring index `i`:
`na->tx_rings + i` when `i < na->num_tx_rings`, else `na->rx_rings + i - na->num_tx_rings`. -/
def kring_of (w : World) (na : na_ptr) (i : Nat) : netmap_kring :=
  if i < (na_get w.sc na).num_tx_rings then w.sc.tx_rings i
  else w.sc.rx_rings (i - (na_get w.sc na).num_tx_rings)

/-- The local ring descriptor `k` holds exactly the cursors published in the CSB entry `p`. -/
def pulled (k : netmap_kring) (p : ptnet_ring) : Prop :=
  k.rhead = p.head ∧ k.ring.head = p.head ∧ k.rcur = p.cur ∧ k.ring.cur = p.cur ∧
  k.nr_hwcur = p.hwcur ∧ k.nr_hwtail = p.hwtail ∧ k.rtail = p.hwtail ∧ k.ring.tail = p.hwtail

instance (k : netmap_kring) (p : ptnet_ring) : Decidable (pulled k p) := by
  unfold pulled
  infer_instance

/-- The initial notification flags of the adapter's rings in the CSB `c`: every TX entry
(CSB index `i < num_tx_rings`) has `host_need_kick = 1` and `guest_need_kick = 0`, every
RX entry (CSB index `rxqueues + i`, `i < num_rx_rings`) has both flags 1. -/
def flags_initial (w : World) (na : na_ptr) (c : Nat → ptnet_ring) : Prop :=
  (∀ i, i < (na_get w.sc na).num_tx_rings →
    (c i).host_need_kick = 1 ∧ (c i).guest_need_kick = 0) ∧
  (∀ i, i < (na_get w.sc na).num_rx_rings →
    (c (w.sc.rxqueues + i)).host_need_kick = 1 ∧ (c (w.sc.rxqueues + i)).guest_need_kick = 1)

/-- Guest notifications are enabled on all the adapter's rings in the CSB `c`: every TX
entry and every RX entry has `guest_need_kick = 1`. -/
def flags_enabled (w : World) (na : na_ptr) (c : Nat → ptnet_ring) : Prop :=
  (∀ i, i < (na_get w.sc na).num_tx_rings → (c i).guest_need_kick = 1) ∧
  (∀ i, i < (na_get w.sc na).num_rx_rings → (c (w.sc.rxqueues + i)).guest_need_kick = 1)

/-- While it serves the register write that ends the events `tr`, the host leaves the two
notification flags of every entry of the CSB `c` as it found them. -/
def host_keeps_flags (H : Host) (tr : List Ev) (c : Nat → ptnet_ring) : Prop :=
  ∀ i, (H.on_write tr c i).host_need_kick = (c i).host_need_kick ∧
       (H.on_write tr c i).guest_need_kick = (c i).guest_need_kick

/-! ## Sequences of register calls -/

/-- One call of `ptnet_nm_register` in a sequence: the adapter it is made on (the client
kind) and the value `na->active_fds` has when the call is made. -/
structure Call where
  na : na_ptr
  active_fds : Int
  deriving DecidableEq, Repr

/-- The netmap core sets `na->active_fds` between the calls. -/
def set_active_fds (w : World) (na : na_ptr) (n : Int) : World :=
  { w with sc := na_set w.sc na { na_get w.sc na with active_fds := n } }

/-- A sequence of calls `ptnet_nm_register(na, onoff)`, one per element of the list. -/
def register_calls (K : Hdr) (H : Host) (onoff : Bool) : List Call → World → Except Crash World
  | [], w => .ok w
  | c :: cs, w =>
    ptnet_nm_register K H (set_active_fds w c.na c.active_fds) c.na onoff >>= fun r =>
    register_calls K H onoff cs r.1

/-! ## Sample instances for concrete runs -/

/-- A sample of the header declarations. -/
def K0 : Hdr :=
  { NET_PTN_FEATURES_BASE := 1, NET_PARAVIRT_PTCTL_REGIF := 1, NET_PARAVIRT_PTCTL_UNREGIF := 2,
    PTNET_CTRL_IRQINIT := 1, PTNET_CTRL_IRQFINI := 2, NKR_NETMAP_OFF := 0, NKR_NETMAP_ON := 1,
    nm_kring_pending_on := fun m p => m == 0 && p == 1,
    nm_kring_pending_off := fun m p => m == 1 && p == 0,
    nm_set_native_flags := fun _ => 1,
    nm_clear_native_flags := fun _ => 0 }

/-- A sample host with `ntx` TX rings and `nrx` RX rings: it acknowledges the base feature,
answers `status` to every control call and, while it serves a write to PTCTL, publishes
the cursors `head = cur = hwcur = 5`, `hwtail = 12` in every CSB entry. -/
def host_sample (ntx nrx status : Nat) : Host :=
  { reg_read := fun _ r =>
      match r with
      | Reg.PTFEAT => 1
      | Reg.NUM_TX_RINGS => ntx
      | Reg.NUM_RX_RINGS => nrx
      | Reg.PTSTS => status
      | _ => 0
    on_write := fun tr c =>
      match tr.getLast? with
      | some (Ev.bus_write_4 Reg.PTCTL _) =>
        fun i => { c i with head := 5, cur := 5, hwcur := 5, hwtail := 12 }
      | _ => c }

/-- A sample environment in which every kernel service succeeds; the CSB lies at the
physical address `0x123456000`. -/
def env_ok : Env :=
  { iomem_ok := true, csb_alloc := some 0x123456000, queues_alloc_ok := true,
    msix_mem_ok := true, msix_count := 8, alloc_msix := fun n => (0, n),
    irq_alloc_ok := fun _ => true, setup_intr_err := fun _ => 0, if_alloc_ok := true }

/-- The world reached by a run, or the zero-filled softc when the run aborted. -/
def world_of (r : Except Crash (World × Int)) : World :=
  match r with
  | .ok x => x.1
  | .error _ => { sc := softc_zero, trace := [] }

/-- A driver attached to the sample host with two TX and two RX rings. -/
def attached_sample (status : Nat) : World :=
  { world_of (ptnet_attach K0 (host_sample 2 2 status) env_ok []) with trace := [] }

/-- The sample driver with one client registered (`backend_regifs = 1`) and the cursors
`head = cur = hwcur = 5`, `hwtail = 12` published in every CSB entry, both notification
flags cleared; the local descriptors are still zero. -/
def registered_sample : World :=
  ((attached_sample 0).with_csb (fun _ => ⟨5, 5, 5, 12, 0, 0⟩)).with_regifs 1

/-- What a run of `ptnet_attach` shows to an observer: the returned `int` (`none` when
the kernel faulted before the return) and the events. -/
def outcome (r : Except Crash (World × Int)) : Option Int × List Ev :=
  match r with
  | .ok x => (some x.2, x.1.trace)
  | .error c => (none, c.trace)

/-- The fault that ended a run, if any. -/
def fault_of (r : Except Crash (World × Int)) : Option Fault :=
  match r with
  | .ok _ => none
  | .error c => some c.fault

/-- A sample host that does not acknowledge the base feature: PTFEAT reads 0. -/
def host_nofeat : Host :=
  { reg_read := fun _ _ => 0, on_write := fun _ c => c }

/-- The events of a run that yields a world, whether it returned or faulted. -/
def events_of (r : Except Crash World) : List Ev :=
  match r with
  | .ok w => w.trace
  | .error c => c.trace

/-- The event is a write to one of the two CSB address registers. -/
def is_csb_addr_write (e : Ev) : Bool :=
  match e with
  | Ev.bus_write_4 Reg.CSBBAH _ => true
  | Ev.bus_write_4 Reg.CSBBAL _ => true
  | _ => false

/-- The events of a run, whether it returned or faulted, start with `tr`. -/
def extends_to {α : Type} (tr : List Ev) (r : Except Crash (World × α)) : Prop :=
  match r with
  | .ok x => tr <+: x.1.trace
  | .error c => tr <+: c.trace

/-- The step from `w` to `w1` appends events, none of them a write to CSBBAH or CSBBAL,
and keeps the pointers `sc->csb`, `sc->queues`, `sc->iomem`, the core lock and
`sc->num_rings` as they are. -/
def quiet_step (w w1 : World) : Prop :=
  ∃ evs, w1.trace = w.trace ++ evs ∧ (∀ e, e ∈ evs → is_csb_addr_write e = false) ∧
    w1.sc.csb.isSome = w.sc.csb.isSome ∧ w1.sc.queues.isSome = w.sc.queues.isSome ∧
    w1.sc.iomem = w.sc.iomem ∧ w1.sc.core_mtx = w.sc.core_mtx ∧
    w1.sc.num_rings = w.sc.num_rings

/-- The step from `w` to `w1` keeps what the register protocol relies on: whether
`sc->queues` and `sc->csb` are allocated, the CSB entry every queue points to, the ring
count, the offset of `sc->rxqueues`. -/
def same_layout (w w1 : World) : Prop :=
  w1.sc.queues.isSome = w.sc.queues.isSome ∧ w1.sc.csb.isSome = w.sc.csb.isSome ∧
  (∀ j, (w1.Q j).ptring = (w.Q j).ptring) ∧
  w1.sc.num_rings = w.sc.num_rings ∧ w1.sc.rxqueues = w.sc.rxqueues

/-! ## The CSB as the driver leaves it -/

/-- The CSB as the driver's own stores of one `ptnet_nm_register` call leave it: the flag
initialisation of the 0 to 1 transition for `onoff`, the notification fixup of the exit
from netmap mode for `!onoff`.  When the call issues a control call, this is the CSB the
host finds. -/
def guest_csb (K : Hdr) (w : World) (na : na_ptr) (onoff : Bool) : Nat → ptnet_ring :=
  if onoff then (if w.sc.backend_regifs = 0 then init_flags w na else w.C)
  else (off_head K w na).C

/-- The command of the control call that one `ptnet_nm_register` call issues, if any:
REGIF when `onoff` finds the counter at 0, UNREGIF when `!onoff` brings it to 0. -/
def register_cmd (K : Hdr) (w : World) (onoff : Bool) : Option Nat :=
  if onoff then (if w.sc.backend_regifs = 0 then some K.NET_PARAVIRT_PTCTL_REGIF else none)
  else (if w.sc.backend_regifs - 1 = 0 then some K.NET_PARAVIRT_PTCTL_UNREGIF else none)

/-- A sample host that accepts every control call and never touches the CSB. -/
def host_idle : Host :=
  { reg_read := fun _ _ => 0, on_write := fun _ c => c }

/-! ## The sync callers -/

/-- The two functions of the netmap passthrough library that the sync callers invoke;
their code is not part of this driver.  Each receives the pointer `ptring` (the index of
a CSB entry, with the CSB it points into), the kring and `flags`; it may update the CSB
and the kring, and returns `notify`. -/
structure Engine where
  netmap_pt_guest_txsync :
    Nat → (Nat → ptnet_ring) → netmap_kring → Int → (Nat → ptnet_ring) × netmap_kring × Bool
  netmap_pt_guest_rxsync :
    Nat → (Nat → ptnet_ring) → netmap_kring → Int → (Nat → ptnet_ring) × netmap_kring × Bool

/-- The function `ptnet_nm_txsync` called on the TX kring with `kring->ring_id = ring_id`;
the result is the new state and the returned `int`. -/
def ptnet_nm_txsync (G : Engine) (H : Host) (w : World) (ring_id : Nat) (flags : Int) :
    Except Crash (World × Int) :=
  -- struct ptnet_queue *pq = sc->queues + kring->ring_id;
  match w.sc.queues with
  | none => .error ⟨.null_queues, w.trace⟩
  | some q =>
    let pq := q ring_id
    match w.sc.csb with
    | none => .error ⟨.null_csb, w.trace⟩
    | some c =>
      -- notify = netmap_pt_guest_txsync(pq->ptring, kring, flags);
      let e := G.netmap_pt_guest_txsync pq.ptring c (w.sc.tx_rings ring_id) flags
      let tx := Function.update w.sc.tx_rings ring_id e.2.1
      let w1 : World := { w with sc := { w.sc with csb := some e.1, tx_rings := tx } }
      -- if (notify) bus_write_4(sc->iomem, pq->kick, 0);
      let w2 := if e.2.2 then bus_write_4 H w1 pq.kick 0 else w1
      .ok (w2, 0)

/-- The function `ptnet_nm_rxsync` called on the RX kring with `kring->ring_id = ring_id`;
the result is the new state and the returned `int`. -/
def ptnet_nm_rxsync (G : Engine) (H : Host) (w : World) (ring_id : Nat) (flags : Int) :
    Except Crash (World × Int) :=
  -- struct ptnet_queue *pq = sc->rxqueues + kring->ring_id;
  match w.sc.queues with
  | none => .error ⟨.null_queues, w.trace⟩
  | some q =>
    let pq := q (w.sc.rxqueues + ring_id)
    match w.sc.csb with
    | none => .error ⟨.null_csb, w.trace⟩
    | some c =>
      -- notify = netmap_pt_guest_rxsync(pq->ptring, kring, flags);
      let e := G.netmap_pt_guest_rxsync pq.ptring c (w.sc.rx_rings ring_id) flags
      let rx := Function.update w.sc.rx_rings ring_id e.2.1
      let w1 : World := { w with sc := { w.sc with csb := some e.1, rx_rings := rx } }
      -- if (notify) bus_write_4(sc->iomem, pq->kick, 0);
      let w2 := if e.2.2 then bus_write_4 H w1 pq.kick 0 else w1
      .ok (w2, 0)

/-- The events a sync caller appends: one write of 0 to the kick register `kick` when the
library asked for a notification, nothing otherwise. -/
def kick_events (kick : Reg) (notify : Bool) : List Ev :=
  if notify then [Ev.bus_write_4 kick 0] else []

/-- A sample of the library functions: TX publishes `head` and `cur` of the ring in the
CSB entry and asks for a notification when the host wants one (`host_need_kick`); RX
takes `hwtail` from the CSB entry and asks for a notification when `flags` is not 0. -/
def engine_sample : Engine :=
  { netmap_pt_guest_txsync := fun p c k _ =>
      (Function.update c p { c p with head := k.ring.head, cur := k.ring.cur },
       { k with rhead := k.ring.head, rcur := k.ring.cur },
       decide ((c p).host_need_kick ≠ 0))
    netmap_pt_guest_rxsync := fun p c k flags =>
      (c, { k with nr_hwtail := (c p).hwtail }, decide (flags ≠ 0)) }

/-- The step from `w` to `w1` keeps the kick register of every queue. -/
def same_kicks (w w1 : World) : Prop :=
  ∀ j, (w1.Q j).kick = (w.Q j).kick

/-! ## Interrupt handlers -/

/-- The handler registrations among the events: the queue index and the handler of every
`bus_setup_intr`. -/
def setup_intr_events (tr : List Ev) : List (Nat × Handler) :=
  tr.filterMap fun e =>
    match e with
    | Ev.setup_intr i h => some (i, h)
    | _ => none
theorem with_csb_self (w : World) (c : Nat → ptnet_ring) (hc : w.sc.csb = some c) :
    w.with_csb c = w := by
  obtain ⟨sc, tr⟩ := w
  cases sc
  simp only [World.with_csb] at *
  subst hc
  rfl

theorem csb_store_loop_eq (base : Nat) (f : csb_fld) (v : Nat) (n : Nat) (w : World)
    (q : Nat → ptnet_queue) (c : Nat → ptnet_ring)
    (hq : w.sc.queues = some q) (hc : w.sc.csb = some c) :
    csb_store_loop base f v n w = .ok (w.with_csb (csb_store_pure q base f v n c)) := by
  induction n with
  | zero => simp [csb_store_loop, csb_store_pure, with_csb_self w c hc]
  | succ n ih =>
    simp [csb_store_loop, ih, bind, Except.bind, csb_store, World.with_csb, hq, csb_store_pure]

theorem sync_loop_eq (na : na_ptr) (n : Nat) (w : World)
    (q : Nat → ptnet_queue) (c : Nat → ptnet_ring)
    (hq : w.sc.queues = some q) (hc : w.sc.csb = some c) :
    sync_loop na n w = .ok (w.with_krings
      (sync_tx_pure q c (na_get w.sc na).num_tx_rings n w.sc.tx_rings)
      (sync_rx_pure q c (na_get w.sc na).num_tx_rings n w.sc.rx_rings)) := by
  induction n with
  | zero => simp [sync_loop, sync_tx_pure, sync_rx_pure, World.with_krings]
  | succ n ih =>
    simp only [sync_loop, ih, bind, Except.bind, sync_one, World.with_krings, hq, hc,
      sync_tx_pure, sync_rx_pure, pull]
    cases na <;> simp only [na_get] <;> split <;> simp_all

theorem attached_queues {w : World} (h : w.attached) : w.sc.queues = some w.Q := by
  unfold World.Q
  have := h.1
  cases hq : w.sc.queues <;> simp_all

theorem attached_csb {w : World} (h : w.attached) : w.sc.csb = some w.C := by
  unfold World.C
  have := h.2
  cases hq : w.sc.csb <;> simp_all

@[simp] theorem with_csb_sc_csb (w : World) (c : Nat → ptnet_ring) :
    (w.with_csb c).sc.csb = some c := rfl

@[simp] theorem with_csb_C (w : World) (c : Nat → ptnet_ring) : (w.with_csb c).C = c := rfl

@[simp] theorem with_csb_Q (w : World) (c : Nat → ptnet_ring) : (w.with_csb c).Q = w.Q := rfl

@[simp] theorem with_csb_trace (w : World) (c : Nat → ptnet_ring) :
    (w.with_csb c).trace = w.trace := rfl

@[simp] theorem with_csb_with_csb (w : World) (c d : Nat → ptnet_ring) :
    (w.with_csb c).with_csb d = w.with_csb d := rfl

@[simp] theorem with_csb_attached (w : World) (c : Nat → ptnet_ring) :
    (w.with_csb c).attached ↔ w.sc.queues.isSome = true := by
  simp [World.attached, World.with_csb]

@[simp] theorem with_csb_na_get (w : World) (c : Nat → ptnet_ring) (na : na_ptr) :
    na_get (w.with_csb c).sc na = na_get w.sc na := by cases na <;> rfl

theorem enable_all_eq (w : World) (na : na_ptr) (t : txrx) (f : csb_fld) (v : Nat)
    (c : Nat → ptnet_ring) (hq : w.sc.queues.isSome = true) :
    csb_notification_enable_all (w.with_csb c) na t f v
      = .ok (w.with_csb (enable_pure w na t f v c)) := by
  have hQ : (w.with_csb c).sc.queues = some w.Q := by
    unfold World.Q
    cases h : w.sc.queues <;> simp_all [World.with_csb]
  unfold csb_notification_enable_all enable_pure
  rw [csb_store_loop_eq _ f v _ (w.with_csb c) w.Q c hQ rfl, with_csb_na_get, with_csb_with_csb]
  rfl

theorem enable_all_eq_attached (w : World) (na : na_ptr) (t : txrx) (f : csb_fld) (v : Nat)
    (h : w.attached) :
    csb_notification_enable_all w na t f v = .ok (w.with_csb (enable_pure w na t f v w.C)) := by
  have := enable_all_eq w na t f v w.C h.1
  rwa [with_csb_self w w.C (attached_csb h)] at this

theorem sync_eq_attached (w : World) (na : na_ptr) (h : w.attached) :
    ptnet_sync_from_csb w na = .ok (sync_pure w na) := by
  unfold ptnet_sync_from_csb sync_pure
  exact sync_loop_eq na _ w w.Q w.C (attached_queues h) (attached_csb h)

@[simp] theorem enable_pure_with_csb (w : World) (d : Nat → ptnet_ring) (na : na_ptr) (t : txrx)
    (f : csb_fld) (v : Nat) (c : Nat → ptnet_ring) :
    enable_pure (w.with_csb d) na t f v c = enable_pure w na t f v c := by
  unfold enable_pure
  rw [with_csb_na_get]
  rfl

theorem init_flags_eq (w : World) (na : na_ptr) (h : w.attached) :
    (csb_notification_enable_all w na txrx.NR_TX csb_fld.host_need_kick 1 >>= fun w1 =>
      csb_notification_enable_all w1 na txrx.NR_TX csb_fld.guest_need_kick 0 >>= fun w2 =>
      csb_notification_enable_all w2 na txrx.NR_RX csb_fld.host_need_kick 1 >>= fun w3 =>
      csb_notification_enable_all w3 na txrx.NR_RX csb_fld.guest_need_kick 1)
      = .ok (w.with_csb (init_flags w na)) := by
  rw [enable_all_eq_attached w na _ _ _ h]
  simp only [bind, Except.bind, enable_all_eq _ na _ _ _ _ h.1, init_flags]

theorem exit_flags_eq (w : World) (na : na_ptr) (h : w.attached) :
    (csb_notification_enable_all w na txrx.NR_TX csb_fld.guest_need_kick 1 >>= fun w1 =>
      csb_notification_enable_all w1 na txrx.NR_RX csb_fld.guest_need_kick 1)
      = .ok (w.with_csb (exit_flags w na)) := by
  rw [enable_all_eq_attached w na _ _ _ h]
  simp only [bind, Except.bind, enable_all_eq _ na _ _ _ _ h.1, exit_flags]

theorem attached_with_regifs {w : World} (n : Int) (h : w.attached) :
    (w.with_regifs n).attached := h

theorem attached_with_csb {w : World} (c : Nat → ptnet_ring) (h : w.attached) :
    (w.with_csb c).attached := (with_csb_attached w c).2 h.1

theorem attached_with_krings {w : World} (tx rx : Nat → netmap_kring) (h : w.attached) :
    (w.with_krings tx rx).attached := h

theorem attached_sync_pure {w : World} (na : na_ptr) (h : w.attached) :
    (sync_pure w na).attached := h

theorem attached_native_on {w : World} (K : Hdr) (na : na_ptr) (h : w.attached) :
    (native_on K w na).attached := by
  cases na <;> exact h

theorem attached_native_off {w : World} (K : Hdr) (na : na_ptr) (h : w.attached) :
    (native_off K w na).attached := by
  cases na <;> exact h

theorem attached_ptctl {w : World} (H : Host) (cmd : Nat) (h : w.attached) :
    (ptnet_nm_ptctl H w cmd).1.attached := by
  obtain ⟨hq, hc⟩ := h
  refine ⟨hq, ?_⟩
  simp only [ptnet_nm_ptctl, bus_read_4, bus_write_4]
  cases hcsb : w.sc.csb
  · simp [hcsb] at hc
  · simp

theorem if_exit_flags_eq (b : Bool) (w : World) (na : na_ptr) (h : w.attached) :
    (if b then
      (csb_notification_enable_all w na txrx.NR_TX csb_fld.guest_need_kick 1 >>= fun w1 =>
        csb_notification_enable_all w1 na txrx.NR_RX csb_fld.guest_need_kick 1)
     else .ok w) = .ok (if b then w.with_csb (exit_flags w na) else w) := by
  cases b
  · rfl
  · simp only [if_true, exit_flags_eq w na h]

theorem if_sync_eq (b : Bool) (w : World) (na : na_ptr) (h : w.attached) :
    (if b then ptnet_sync_from_csb w na else .ok w)
      = .ok (if b then sync_pure w na else w) := by
  cases b
  · rfl
  · simp only [if_true, sync_eq_attached w na h]

theorem register_eq (K : Hdr) (H : Host) (w : World) (na : na_ptr) (onoff : Bool)
    (h : w.attached) :
    ptnet_nm_register K H w na onoff = .ok (register_pure K H w na onoff) := by
  cases onoff
  · have h0 := attached_with_regifs (w.sc.backend_regifs - 1) h
    unfold ptnet_nm_register register_pure off_head
    simp only [Bool.false_eq_true, if_false, Bool.not_false, Bool.and_true]
    rw [if_exit_flags_eq _ _ na h0]
    simp only [bind, Except.bind]
    rw [if_sync_eq]
    · simp only [bind, Except.bind]
      exact (apply_ite Except.ok _ _ _).symm
    · have h1 : ∀ b : Bool, (if b then (w.with_regifs (w.sc.backend_regifs - 1)).with_csb
            (exit_flags (w.with_regifs (w.sc.backend_regifs - 1)) na)
          else w.with_regifs (w.sc.backend_regifs - 1)).attached := by
        intro b
        cases b
        · exact h0
        · exact attached_with_csb _ h0
      split
      · exact attached_native_off K na (h1 _)
      · exact h1 _
  · unfold ptnet_nm_register register_pure on_tail
    simp only [if_true, Bool.not_true, Bool.and_false, Bool.false_and, Bool.false_eq_true,
      if_false, bind, Except.bind]
    by_cases hz : w.sc.backend_regifs = 0
    · simp only [hz, if_true]
      have hi := init_flags_eq w na h
      simp only [bind, Except.bind] at hi
      simp only [hi]
      rw [if_sync_eq _ _ na (attached_ptctl H _ (attached_with_csb _ h))]
      simp only [bind, Except.bind]
      exact (apply_ite Except.ok _ _ _).symm
    · simp only [hz, if_false]
      rw [if_sync_eq _ _ na h]
      simp only [bind, Except.bind]
      exact (apply_ite Except.ok _ _ _).symm

/-! ## Projections of the state transformers -/

theorem ptctl_snd (H : Host) (w : World) (cmd : Nat) :
    (ptnet_nm_ptctl H w cmd).2 = ptctl_status H w.trace cmd := rfl

theorem ptctl_trace (H : Host) (w : World) (cmd : Nat) :
    (ptnet_nm_ptctl H w cmd).1.trace = w.trace ++ ptctl_events H w.trace cmd := by
  simp [ptnet_nm_ptctl, bus_read_4, bus_write_4, ptctl_events, ptctl_status]

theorem ptctl_regifs (H : Host) (w : World) (cmd : Nat) :
    (ptnet_nm_ptctl H w cmd).1.sc.backend_regifs = w.sc.backend_regifs := rfl

theorem ptctl_tx_rings (H : Host) (w : World) (cmd : Nat) :
    (ptnet_nm_ptctl H w cmd).1.sc.tx_rings = w.sc.tx_rings := rfl

theorem ptctl_rx_rings (H : Host) (w : World) (cmd : Nat) :
    (ptnet_nm_ptctl H w cmd).1.sc.rx_rings = w.sc.rx_rings := rfl

theorem ptctl_C (H : Host) (w : World) (cmd : Nat) (c : Nat → ptnet_ring) :
    (ptnet_nm_ptctl H (w.with_csb c) cmd).1.C
      = H.on_write (w.trace ++ [Ev.bus_write_4 Reg.PTCTL cmd]) c := rfl

theorem toInt32_ne_zero (v : Nat) (h : v % 2 ^ 32 ≠ 0) : toInt32 v ≠ 0 := by
  unfold toInt32
  have hlt : v % 2 ^ 32 < 2 ^ 32 := Nat.mod_lt _ (by norm_num)
  split <;> omega

theorem toInt32_zero (v : Nat) (h : v % 2 ^ 32 = 0) : toInt32 v = 0 := by
  unfold toInt32
  rw [h]
  simp

theorem ptctl_status_mod (H : Host) (tr : List Ev) (cmd : Nat) :
    ptctl_status H tr cmd % 2 ^ 32 = ptctl_status H tr cmd := by
  unfold ptctl_status
  exact Nat.mod_mod _ _

theorem register_pure_on_first (K : Hdr) (H : Host) (w : World) (na : na_ptr)
    (h0 : w.sc.backend_regifs = 0) :
    register_pure K H w na true =
      if ptctl_status H w.trace K.NET_PARAVIRT_PTCTL_REGIF = 0 then
        (on_tail K (ptnet_nm_ptctl H (w.with_csb (init_flags w na))
          K.NET_PARAVIRT_PTCTL_REGIF).1 na, 0)
      else
        ((ptnet_nm_ptctl H (w.with_csb (init_flags w na)) K.NET_PARAVIRT_PTCTL_REGIF).1,
          toInt32 (ptctl_status H w.trace K.NET_PARAVIRT_PTCTL_REGIF)) := by
  simp only [register_pure, h0, if_true]
  by_cases hs : ptctl_status H w.trace K.NET_PARAVIRT_PTCTL_REGIF = 0
  · have hz : toInt32 (ptnet_nm_ptctl H (w.with_csb (init_flags w na))
        K.NET_PARAVIRT_PTCTL_REGIF).2 = 0 := toInt32_zero _ (by
      rw [ptctl_snd, with_csb_trace, ptctl_status_mod]; exact hs)
    simp only [hs, if_true, hz, ne_eq, not_true_eq_false, if_false]
  · have hz : toInt32 (ptnet_nm_ptctl H (w.with_csb (init_flags w na))
        K.NET_PARAVIRT_PTCTL_REGIF).2 ≠ 0 := toInt32_ne_zero _ (by
      rw [ptctl_snd, with_csb_trace, ptctl_status_mod]; exact hs)
    simp only [hs, if_false, hz, ne_eq, not_false_eq_true, if_true]
    rfl

theorem register_pure_on_next (K : Hdr) (H : Host) (w : World) (na : na_ptr)
    (h0 : w.sc.backend_regifs ≠ 0) :
    register_pure K H w na true = (on_tail K w na, 0) := by
  simp [register_pure, h0]

theorem register_pure_off (K : Hdr) (H : Host) (w : World) (na : na_ptr) :
    register_pure K H w na false =
      if (off_head K w na).sc.backend_regifs = 0 then
        ((ptnet_nm_ptctl H (off_head K w na) K.NET_PARAVIRT_PTCTL_UNREGIF).1,
         toInt32 (ptctl_status H (off_head K w na).trace K.NET_PARAVIRT_PTCTL_UNREGIF))
      else (off_head K w na, 0) := by
  simp [register_pure, ptctl_snd]

/-! ## Properties of the pure loops -/

theorem store_store (r : ptnet_ring) (f : csb_fld) (v : Nat) :
    (r.store f v).store f v = r.store f v := by
  cases f <;> rfl

theorem csb_store_pure_miss (q : Nat → ptnet_queue) (base : Nat) (f : csb_fld) (v : Nat)
    (c : Nat → ptnet_ring) (j : Nat) :
    ∀ n, (∀ i, i < n → (q (base + i)).ptring ≠ j) → csb_store_pure q base f v n c j = c j := by
  intro n
  induction n with
  | zero => intro _; rfl
  | succ n ih =>
    intro h
    simp only [csb_store_pure]
    rw [Function.update_noteq (Ne.symm (h n (Nat.lt_succ_self n)))]
    exact ih (fun i hi => h i (Nat.lt_succ_of_lt hi))

theorem csb_store_pure_hit (q : Nat → ptnet_queue) (base : Nat) (f : csb_fld) (v : Nat)
    (c : Nat → ptnet_ring) (j : Nat) :
    ∀ n, (∃ i, i < n ∧ (q (base + i)).ptring = j) →
      csb_store_pure q base f v n c j = (c j).store f v := by
  intro n
  induction n with
  | zero => rintro ⟨i, hi, _⟩; omega
  | succ n ih =>
    rintro ⟨i, hi, hij⟩
    simp only [csb_store_pure]
    by_cases hj : (q (base + n)).ptring = j
    · subst hj
      rw [Function.update_same]
      by_cases hex : ∃ i, i < n ∧ (q (base + i)).ptring = (q (base + n)).ptring
      · rw [ih hex, store_store]
      · rw [csb_store_pure_miss q base f v c _ n (fun i hi heq => hex ⟨i, hi, heq⟩)]
    · rw [Function.update_noteq (Ne.symm hj)]
      apply ih
      refine ⟨i, ?_, hij⟩
      rcases Nat.lt_succ_iff_lt_or_eq.1 hi with h | h
      · exact h
      · subst h; exact absurd hij hj

/-- Under the queue layout of `ptnet_attach` (`queues[i].ptring = rings + i` below
`bound`), the loop over the `n` queues from `base` stores into the CSB entries
`base .. base+n-1` and into no other. -/
theorem csb_store_pure_layout (q : Nat → ptnet_queue) (base : Nat) (f : csb_fld) (v : Nat)
    (c : Nat → ptnet_ring) (n bound : Nat) (hl : ∀ i, i < bound → (q i).ptring = i)
    (hb : base + n ≤ bound) (j : Nat) (hjb : j < bound) :
    csb_store_pure q base f v n c j
      = if base ≤ j ∧ j < base + n then (c j).store f v else c j := by
  split
  · rename_i hj
    apply csb_store_pure_hit
    refine ⟨j - base, by omega, ?_⟩
    have : base + (j - base) = j := by omega
    rw [this, hl j hjb]
  · rename_i hj
    apply csb_store_pure_miss
    intro i hi heq
    rw [hl (base + i) (by omega)] at heq
    omega

theorem sync_tx_pure_apply (q : Nat → ptnet_queue) (c : Nat → ptnet_ring) (ntx : Nat)
    (tx : Nat → netmap_kring) (j : Nat) :
    ∀ n, sync_tx_pure q c ntx n tx j
      = if j < n ∧ j < ntx then pull (c (q j).ptring) (tx j) else tx j := by
  intro n
  induction n with
  | zero => simp [sync_tx_pure]
  | succ n ih =>
    simp only [sync_tx_pure]
    by_cases hn : n < ntx
    · simp only [hn, if_true]
      by_cases hj : j = n
      · subst hj
        rw [Function.update_same, ih]
        simp [hn]
      · rw [Function.update_noteq hj, ih]
        have : (j < n + 1 ∧ j < ntx) ↔ (j < n ∧ j < ntx) := by omega
        simp only [this]
    · simp only [hn, if_false]
      rw [ih]
      have : (j < n + 1 ∧ j < ntx) ↔ (j < n ∧ j < ntx) := by omega
      simp only [this]

theorem sync_rx_pure_apply (q : Nat → ptnet_queue) (c : Nat → ptnet_ring) (ntx : Nat)
    (rx : Nat → netmap_kring) (j : Nat) :
    ∀ n, sync_rx_pure q c ntx n rx j
      = if ntx + j < n then pull (c (q (ntx + j)).ptring) (rx j) else rx j := by
  intro n
  induction n with
  | zero => simp [sync_rx_pure]
  | succ n ih =>
    simp only [sync_rx_pure]
    by_cases hn : n < ntx
    · simp only [hn, if_true]
      rw [ih]
      have : (ntx + j < n + 1) ↔ (ntx + j < n) := by omega
      simp only [this]
    · simp only [hn, if_false]
      by_cases hj : j = n - ntx
      · subst hj
        rw [Function.update_same, ih]
        have h1 : ntx + (n - ntx) = n := by omega
        simp [h1]
      · rw [Function.update_noteq hj, ih]
        have : (ntx + j < n + 1) ↔ (ntx + j < n) := by omega
        simp only [this]

/-- The mode loop changes no field of a kring other than `nr_mode`. -/
theorem set_mode_loop_frame (pending : Nat → Nat → Bool) (mode : Nat)
    (a : Nat → netmap_kring) (j : Nat) :
    ∀ n, ∃ m, set_mode_loop pending mode n a j = { a j with nr_mode := m } := by
  intro n
  induction n with
  | zero => exact ⟨(a j).nr_mode, rfl⟩
  | succ n ih =>
    obtain ⟨m, hm⟩ := ih
    simp only [set_mode_loop]
    split
    · by_cases hj : j = n
      · subst hj
        rw [Function.update_same, hm]
        exact ⟨mode, rfl⟩
      · rw [Function.update_noteq hj, hm]
        exact ⟨m, rfl⟩
    · exact ⟨m, hm⟩

/-! ## Frame properties of the two halves of `ptnet_nm_register` -/

@[simp] theorem sync_pure_trace (w : World) (na : na_ptr) : (sync_pure w na).trace = w.trace := rfl

@[simp] theorem sync_pure_regifs (w : World) (na : na_ptr) :
    (sync_pure w na).sc.backend_regifs = w.sc.backend_regifs := rfl

@[simp] theorem sync_pure_C (w : World) (na : na_ptr) : (sync_pure w na).C = w.C := rfl

@[simp] theorem sync_pure_Q (w : World) (na : na_ptr) : (sync_pure w na).Q = w.Q := rfl

@[simp] theorem native_on_trace (K : Hdr) (w : World) (na : na_ptr) :
    (native_on K w na).trace = w.trace := rfl

@[simp] theorem native_on_regifs (K : Hdr) (w : World) (na : na_ptr) :
    (native_on K w na).sc.backend_regifs = w.sc.backend_regifs := by cases na <;> rfl

@[simp] theorem native_on_C (K : Hdr) (w : World) (na : na_ptr) :
    (native_on K w na).C = w.C := by cases na <;> rfl

@[simp] theorem native_on_Q (K : Hdr) (w : World) (na : na_ptr) :
    (native_on K w na).Q = w.Q := by cases na <;> rfl

@[simp] theorem native_off_trace (K : Hdr) (w : World) (na : na_ptr) :
    (native_off K w na).trace = w.trace := rfl

@[simp] theorem native_off_regifs (K : Hdr) (w : World) (na : na_ptr) :
    (native_off K w na).sc.backend_regifs = w.sc.backend_regifs := by cases na <;> rfl

@[simp] theorem native_off_C (K : Hdr) (w : World) (na : na_ptr) :
    (native_off K w na).C = w.C := by cases na <;> rfl

@[simp] theorem native_off_Q (K : Hdr) (w : World) (na : na_ptr) :
    (native_off K w na).Q = w.Q := by cases na <;> rfl

@[simp] theorem with_regifs_trace (w : World) (n : Int) : (w.with_regifs n).trace = w.trace := rfl

@[simp] theorem with_regifs_regifs (w : World) (n : Int) :
    (w.with_regifs n).sc.backend_regifs = n := rfl

@[simp] theorem with_regifs_C (w : World) (n : Int) : (w.with_regifs n).C = w.C := rfl

@[simp] theorem with_regifs_Q (w : World) (n : Int) : (w.with_regifs n).Q = w.Q := rfl

@[simp] theorem with_csb_regifs (w : World) (c : Nat → ptnet_ring) :
    (w.with_csb c).sc.backend_regifs = w.sc.backend_regifs := rfl

theorem on_tail_trace (K : Hdr) (w : World) (na : na_ptr) : (on_tail K w na).trace = w.trace := by
  simp [on_tail, apply_ite World.trace]

theorem on_tail_regifs (K : Hdr) (w : World) (na : na_ptr) :
    (on_tail K w na).sc.backend_regifs = w.sc.backend_regifs + 1 := by
  simp [on_tail, apply_ite (fun x : World => x.sc.backend_regifs)]

theorem on_tail_C (K : Hdr) (w : World) (na : na_ptr) : (on_tail K w na).C = w.C := by
  simp [on_tail, apply_ite World.C]

theorem on_tail_Q (K : Hdr) (w : World) (na : na_ptr) : (on_tail K w na).Q = w.Q := by
  simp [on_tail, apply_ite World.Q]

theorem on_tail_attached (K : Hdr) (w : World) (na : na_ptr) (h : w.attached) :
    (on_tail K w na).attached := by
  unfold on_tail
  apply attached_with_regifs
  have h2 : ∀ b : Bool, (if b then sync_pure w na else w).attached := by
    intro b; cases b <;> exact h
  split
  · exact attached_native_on K na (h2 _)
  · exact h2 _

theorem off_head_trace (K : Hdr) (w : World) (na : na_ptr) :
    (off_head K w na).trace = w.trace := by
  simp [off_head, apply_ite World.trace]

theorem off_head_regifs (K : Hdr) (w : World) (na : na_ptr) :
    (off_head K w na).sc.backend_regifs = w.sc.backend_regifs - 1 := by
  simp [off_head, apply_ite (fun x : World => x.sc.backend_regifs)]

theorem off_head_Q (K : Hdr) (w : World) (na : na_ptr) : (off_head K w na).Q = w.Q := by
  simp [off_head, apply_ite World.Q]

theorem off_head_attached (K : Hdr) (w : World) (na : na_ptr) (h : w.attached) :
    (off_head K w na).attached := by
  unfold off_head
  have h0 := attached_with_regifs (w.sc.backend_regifs - 1) h
  have h1 : ∀ b : Bool, (if b then (w.with_regifs (w.sc.backend_regifs - 1)).with_csb
        (exit_flags (w.with_regifs (w.sc.backend_regifs - 1)) na)
      else w.with_regifs (w.sc.backend_regifs - 1)).attached := by
    intro b
    cases b
    · exact h0
    · exact attached_with_csb _ h0
  have h2 : ∀ (b : Bool) (x : World), x.attached →
      (if b then native_off K x na else x).attached := by
    intro b x hx
    cases b
    · exact hx
    · exact attached_native_off K na hx
  have h3 : ∀ (b : Bool) (x : World), x.attached →
      (if b then sync_pure x na else x).attached := by
    intro b x hx
    cases b <;> exact hx
  exact h3 _ _ (h2 _ _ (h1 _))

/-! ## Kring arrays across the two halves -/

theorem pulled_pull (p : ptnet_ring) (k : netmap_kring) : pulled (pull p k) p :=
  ⟨rfl, rfl, rfl, rfl, rfl, rfl, rfl, rfl⟩

theorem pulled_of_cursors {k k' : netmap_kring} {p : ptnet_ring} (h : cursors k' = cursors k)
    (hp : pulled k p) : pulled k' p := by
  simp only [cursors, Prod.mk.injEq] at h
  obtain ⟨h1, h2, h3, h4, h5, h6⟩ := h
  unfold pulled at *
  rw [h1, h2, h3, h4, h5, h6]
  exact hp

theorem set_mode_loop_cursors (pending : Nat → Nat → Bool) (mode : Nat)
    (a : Nat → netmap_kring) (n j : Nat) :
    cursors (set_mode_loop pending mode n a j) = cursors (a j) := by
  obtain ⟨m, hm⟩ := set_mode_loop_frame pending mode a j n
  rw [hm]
  rfl

theorem native_on_tx_cursors (K : Hdr) (w : World) (na : na_ptr) (j : Nat) :
    cursors ((native_on K w na).sc.tx_rings j) = cursors (w.sc.tx_rings j) := by
  cases na <;> exact set_mode_loop_cursors _ _ _ _ _

theorem native_on_rx_cursors (K : Hdr) (w : World) (na : na_ptr) (j : Nat) :
    cursors ((native_on K w na).sc.rx_rings j) = cursors (w.sc.rx_rings j) := by
  cases na <;> exact set_mode_loop_cursors _ _ _ _ _

theorem native_off_tx_cursors (K : Hdr) (w : World) (na : na_ptr) (j : Nat) :
    cursors ((native_off K w na).sc.tx_rings j) = cursors (w.sc.tx_rings j) := by
  cases na <;> exact set_mode_loop_cursors _ _ _ _ _

theorem native_off_rx_cursors (K : Hdr) (w : World) (na : na_ptr) (j : Nat) :
    cursors ((native_off K w na).sc.rx_rings j) = cursors (w.sc.rx_rings j) := by
  cases na <;> exact set_mode_loop_cursors _ _ _ _ _

theorem native_on_counts (K : Hdr) (w : World) (na : na_ptr) :
    (na_get (native_on K w na).sc na).num_tx_rings = (na_get w.sc na).num_tx_rings ∧
    (native_on K w na).sc.num_rings = w.sc.num_rings := by
  cases na <;> exact ⟨rfl, rfl⟩

theorem native_off_counts (K : Hdr) (w : World) (na : na_ptr) :
    (na_get (native_off K w na).sc na).num_tx_rings = (na_get w.sc na).num_tx_rings ∧
    (na_get (native_off K w na).sc na).active_fds = (na_get w.sc na).active_fds ∧
    (native_off K w na).sc.num_rings = w.sc.num_rings := by
  cases na <;> exact ⟨rfl, rfl, rfl⟩

/-- After `ptnet_sync_from_csb`, the descriptor of every ring index below `num_rings`
holds the cursors of the CSB entry its queue points to. -/
theorem sync_pure_pulled (w : World) (na : na_ptr) (i : Nat) (hi : i < w.sc.num_rings) :
    pulled (kring_of (sync_pure w na) na i) (w.C (w.Q i).ptring) := by
  have hna : na_get (sync_pure w na).sc na = na_get w.sc na := by cases na <;> rfl
  unfold kring_of
  rw [hna]
  by_cases hlt : i < (na_get w.sc na).num_tx_rings
  · rw [if_pos hlt]
    show pulled (sync_tx_pure _ _ _ _ _ i) _
    rw [sync_tx_pure_apply, if_pos ⟨hi, hlt⟩]
    exact pulled_pull _ _
  · rw [if_neg hlt]
    show pulled (sync_rx_pure _ _ _ _ _ (i - (na_get w.sc na).num_tx_rings)) _
    have hidx : (na_get w.sc na).num_tx_rings + (i - (na_get w.sc na).num_tx_rings) = i := by
      omega
    rw [sync_rx_pure_apply, hidx, if_pos hi]
    exact pulled_pull _ _

/-! ## C2 -/

/-- C2: a register(on) call entered with `backend_regifs = 0` in which the host
answers REGIF with a nonzero status returns that status (as a C `int`, nonzero),
leaves `backend_regifs` at 0, and leaves both kring arrays untouched: no cursor is
pulled from the CSB and no `nr_mode` is changed. -/
theorem C2_regif_rejection_fails_register (K : Hdr) (H : Host) (w : World) (na : na_ptr)
    (hatt : w.attached) (h0 : w.sc.backend_regifs = 0)
    (hrej : ptctl_status H w.trace K.NET_PARAVIRT_PTCTL_REGIF ≠ 0) :
    ∃ w', ptnet_nm_register K H w na true
        = .ok (w', toInt32 (ptctl_status H w.trace K.NET_PARAVIRT_PTCTL_REGIF)) ∧
      toInt32 (ptctl_status H w.trace K.NET_PARAVIRT_PTCTL_REGIF) ≠ 0 ∧
      w'.sc.backend_regifs = 0 ∧
      w'.sc.tx_rings = w.sc.tx_rings ∧ w'.sc.rx_rings = w.sc.rx_rings := by
  have hne : toInt32 (ptctl_status H w.trace K.NET_PARAVIRT_PTCTL_REGIF) ≠ 0 :=
    toInt32_ne_zero _ (by rw [ptctl_status_mod]; exact hrej)
  rw [register_eq K H w na true hatt, register_pure_on_first K H w na h0, if_neg hrej]
  exact ⟨_, rfl, hne, h0, rfl, rfl⟩

/-- C2 on the sample driver with a host that answers 1 to REGIF. -/
theorem C2_witness :
    (attached_sample 1).attached ∧ (attached_sample 1).sc.backend_regifs = 0 ∧
    ptctl_status (host_sample 2 2 1) (attached_sample 1).trace K0.NET_PARAVIRT_PTCTL_REGIF ≠ 0 ∧
    ∃ w', ptnet_nm_register K0 (host_sample 2 2 1) (attached_sample 1) na_ptr.ptna_nm true
        = .ok (w', toInt32 (ptctl_status (host_sample 2 2 1) (attached_sample 1).trace
            K0.NET_PARAVIRT_PTCTL_REGIF)) ∧
      toInt32 (ptctl_status (host_sample 2 2 1) (attached_sample 1).trace
        K0.NET_PARAVIRT_PTCTL_REGIF) ≠ 0 ∧
      w'.sc.backend_regifs = 0 ∧
      w'.sc.tx_rings = (attached_sample 1).sc.tx_rings ∧
      w'.sc.rx_rings = (attached_sample 1).sc.rx_rings :=
  ⟨by decide, by decide, by decide,
    C2_regif_rejection_fails_register K0 (host_sample 2 2 1) (attached_sample 1)
      na_ptr.ptna_nm (by decide) (by decide) (by decide)⟩

/-! ## C1 -/

theorem set_active_fds_attached (w : World) (na : na_ptr) (n : Int) (h : w.attached) :
    (set_active_fds w na n).attached := by
  cases na <;> exact h

theorem set_active_fds_trace (w : World) (na : na_ptr) (n : Int) :
    (set_active_fds w na n).trace = w.trace := rfl

theorem set_active_fds_regifs (w : World) (na : na_ptr) (n : Int) :
    (set_active_fds w na n).sc.backend_regifs = w.sc.backend_regifs := by
  cases na <;> rfl

/-- What one register(on) call appends to the event list, for any host. -/
theorem register_on_events (K : Hdr) (H : Host) (w : World) (na : na_ptr) (h : w.attached) :
    ∃ w' r, ptnet_nm_register K H w na true = .ok (w', r) ∧ w'.attached ∧
      w'.trace = w.trace ++
        (if w.sc.backend_regifs = 0 then ptctl_events H w.trace K.NET_PARAVIRT_PTCTL_REGIF
         else []) ∧
      (ptctl_status H w.trace K.NET_PARAVIRT_PTCTL_REGIF = 0 →
        r = 0 ∧ w'.sc.backend_regifs = w.sc.backend_regifs + 1) := by
  rw [register_eq K H w na true h]
  refine ⟨(register_pure K H w na true).1, (register_pure K H w na true).2, rfl, ?_⟩
  by_cases h0 : w.sc.backend_regifs = 0
  · rw [register_pure_on_first K H w na h0, if_pos h0]
    have hp := attached_ptctl H K.NET_PARAVIRT_PTCTL_REGIF (attached_with_csb (init_flags w na) h)
    by_cases hs : ptctl_status H w.trace K.NET_PARAVIRT_PTCTL_REGIF = 0
    · rw [if_pos hs]
      refine ⟨on_tail_attached K _ na hp, ?_, fun _ => ⟨rfl, ?_⟩⟩
      · show (on_tail K _ na).trace = _
        rw [on_tail_trace, ptctl_trace, with_csb_trace]
      · show (on_tail K _ na).sc.backend_regifs = _
        rw [on_tail_regifs, ptctl_regifs, with_csb_regifs]
    · rw [if_neg hs]
      refine ⟨hp, ?_, fun hz => absurd hz hs⟩
      show (ptnet_nm_ptctl H _ _).1.trace = _
      rw [ptctl_trace, with_csb_trace]
  · rw [register_pure_on_next K H w na h0, if_neg h0, List.append_nil]
    exact ⟨on_tail_attached K w na h, on_tail_trace K w na, fun _ => ⟨rfl, on_tail_regifs K w na⟩⟩

/-- What one register(off) call appends to the event list, for any host. -/
theorem register_off_events (K : Hdr) (H : Host) (w : World) (na : na_ptr) (h : w.attached) :
    ∃ w' r, ptnet_nm_register K H w na false = .ok (w', r) ∧ w'.attached ∧
      w'.trace = w.trace ++
        (if w.sc.backend_regifs = 1 then ptctl_events H w.trace K.NET_PARAVIRT_PTCTL_UNREGIF
         else []) ∧
      w'.sc.backend_regifs = w.sc.backend_regifs - 1 := by
  rw [register_eq K H w na false h]
  refine ⟨(register_pure K H w na false).1, (register_pure K H w na false).2, rfl, ?_⟩
  rw [register_pure_off]
  have hr := off_head_regifs K w na
  by_cases h1 : w.sc.backend_regifs = 1
  · have hz : (off_head K w na).sc.backend_regifs = 0 := by rw [hr, h1]; rfl
    rw [if_pos hz, if_pos h1]
    refine ⟨attached_ptctl H _ (off_head_attached K w na h), ?_, ?_⟩
    · show (ptnet_nm_ptctl H _ _).1.trace = _
      rw [ptctl_trace, off_head_trace]
    · show (ptnet_nm_ptctl H _ _).1.sc.backend_regifs = _
      rw [ptctl_regifs, hr]
  · have hz : (off_head K w na).sc.backend_regifs ≠ 0 := by rw [hr]; omega
    rw [if_neg hz, if_neg h1, List.append_nil]
    exact ⟨off_head_attached K w na h, off_head_trace K w na, hr⟩

theorem ptctl_events_accept (H : Host) (hacc : ∀ tr, H.reg_read tr Reg.PTSTS % 2 ^ 32 = 0)
    (tr : List Ev) (cmd : Nat) :
    ptctl_events H tr cmd = [Ev.bus_write_4 Reg.PTCTL cmd, Ev.bus_read_4 Reg.PTSTS 0] := by
  unfold ptctl_events ptctl_status
  rw [hacc]

theorem register_calls_on (K : Hdr) (H : Host)
    (hacc : ∀ tr, H.reg_read tr Reg.PTSTS % 2 ^ 32 = 0) (calls : List Call) :
    ∀ w : World, w.attached → 0 ≤ w.sc.backend_regifs →
      ∃ w', register_calls K H true calls w = .ok w' ∧ w'.attached ∧
        w'.sc.backend_regifs = w.sc.backend_regifs + calls.length ∧
        w'.trace = w.trace ++
          (if w.sc.backend_regifs = 0 ∧ calls ≠ [] then
            [Ev.bus_write_4 Reg.PTCTL K.NET_PARAVIRT_PTCTL_REGIF, Ev.bus_read_4 Reg.PTSTS 0]
           else []) := by
  induction calls with
  | nil => intro w h _; exact ⟨w, rfl, h, by simp, by simp⟩
  | cons c cs ih =>
    intro w h hpos
    obtain ⟨w1, r, hcall, hatt1, htr1, hok⟩ :=
      register_on_events K H (set_active_fds w c.na c.active_fds) c.na
        (set_active_fds_attached w c.na c.active_fds h)
    rw [set_active_fds_trace, set_active_fds_regifs, ptctl_events_accept H hacc] at htr1
    have hst : ptctl_status H (set_active_fds w c.na c.active_fds).trace
        K.NET_PARAVIRT_PTCTL_REGIF = 0 := hacc _
    obtain ⟨_, hreg1⟩ := hok hst
    rw [set_active_fds_regifs] at hreg1
    obtain ⟨w2, hrest, hatt2, hreg2, htr2⟩ := ih w1 hatt1 (by omega)
    refine ⟨w2, ?_, hatt2, ?_, ?_⟩
    · simp only [register_calls, hcall, bind, Except.bind]
      exact hrest
    · rw [hreg2, hreg1]
      simp only [List.length_cons]
      push_cast
      omega
    · have hne : ¬ (w1.sc.backend_regifs = 0 ∧ cs ≠ []) := by
        intro hh
        omega
      rw [htr2, if_neg hne, List.append_nil, htr1]
      simp

theorem register_calls_off (K : Hdr) (H : Host)
    (hacc : ∀ tr, H.reg_read tr Reg.PTSTS % 2 ^ 32 = 0) (calls : List Call) :
    ∀ w : World, w.attached → (calls.length : Int) ≤ w.sc.backend_regifs →
      ∃ w', register_calls K H false calls w = .ok w' ∧ w'.attached ∧
        w'.sc.backend_regifs = w.sc.backend_regifs - calls.length ∧
        w'.trace = w.trace ++
          (if w.sc.backend_regifs = calls.length ∧ calls ≠ [] then
            [Ev.bus_write_4 Reg.PTCTL K.NET_PARAVIRT_PTCTL_UNREGIF, Ev.bus_read_4 Reg.PTSTS 0]
           else []) := by
  induction calls with
  | nil => intro w h _; exact ⟨w, rfl, h, by simp, by simp⟩
  | cons c cs ih =>
    intro w h hlen
    simp only [List.length_cons] at hlen
    push_cast at hlen
    obtain ⟨w1, r, hcall, hatt1, htr1, hreg1⟩ :=
      register_off_events K H (set_active_fds w c.na c.active_fds) c.na
        (set_active_fds_attached w c.na c.active_fds h)
    rw [set_active_fds_trace, set_active_fds_regifs, ptctl_events_accept H hacc] at htr1
    rw [set_active_fds_regifs] at hreg1
    obtain ⟨w2, hrest, hatt2, hreg2, htr2⟩ := ih w1 hatt1 (by omega)
    refine ⟨w2, ?_, hatt2, ?_, ?_⟩
    · simp only [register_calls, hcall, bind, Except.bind]
      exact hrest
    · rw [hreg2, hreg1]
      simp only [List.length_cons]
      push_cast
      omega
    · rw [htr2, htr1]
      simp only [List.length_cons, ne_eq, reduceCtorEq, not_false_eq_true, and_true]
      push_cast
      by_cases h1 : w.sc.backend_regifs = 1
      · have hcs : cs = [] := by
          cases cs with
          | nil => rfl
          | cons a as => simp only [List.length_cons] at hlen; push_cast at hlen; omega
        subst hcs
        simp [h1]
      · have hiff : (w1.sc.backend_regifs = (cs.length : Int) ∧ ¬ cs = []) ↔
            (w.sc.backend_regifs = (cs.length : Int) + 1) := by
          constructor
          · rintro ⟨ha, _⟩; omega
          · intro ha
            refine ⟨by omega, ?_⟩
            intro hcs
            subst hcs
            simp only [List.length_nil] at ha
            push_cast at ha
            omega
        rw [if_neg h1, List.append_nil]
        by_cases hx : w.sc.backend_regifs = (cs.length : Int) + 1
        · rw [if_pos (hiff.2 hx), if_pos hx]
        · rw [if_neg (fun hh => hx (hiff.1 hh)), if_neg hx]

/-- C1: starting from `backend_regifs = 0` on an attached driver, with a host that
answers 0 in PTSTS to every control call, `N ≥ 1` register(on) calls followed by `N`
register(off) calls, each on any adapter and with any `active_fds`, all return, append to
the event list exactly the REGIF control call followed by the UNREGIF control call, and
leave `backend_regifs = 0`.  For any host, a register(on) call issues REGIF exactly when
the counter is 0 on entry and a register(off) call issues UNREGIF exactly when the counter
is 1 on entry; otherwise the call touches no device register. -/
theorem C1_registration_counting (K : Hdr) (H : Host) (w : World) (ons offs : List Call)
    (hatt : w.attached) (h0 : w.sc.backend_regifs = 0)
    (hacc : ∀ tr, H.reg_read tr Reg.PTSTS % 2 ^ 32 = 0)
    (hN : 1 ≤ ons.length) (hlen : offs.length = ons.length) :
    (∃ w', (register_calls K H true ons w >>= register_calls K H false offs) = .ok w' ∧
      w'.trace = w.trace ++
        [Ev.bus_write_4 Reg.PTCTL K.NET_PARAVIRT_PTCTL_REGIF, Ev.bus_read_4 Reg.PTSTS 0,
         Ev.bus_write_4 Reg.PTCTL K.NET_PARAVIRT_PTCTL_UNREGIF, Ev.bus_read_4 Reg.PTSTS 0] ∧
      w'.sc.backend_regifs = 0) ∧
    (∀ (H' : Host) (v : World) (na : na_ptr), v.attached →
      ∃ v' r, ptnet_nm_register K H' v na true = .ok (v', r) ∧
        v'.trace = v.trace ++
          (if v.sc.backend_regifs = 0 then ptctl_events H' v.trace K.NET_PARAVIRT_PTCTL_REGIF
           else [])) ∧
    (∀ (H' : Host) (v : World) (na : na_ptr), v.attached →
      ∃ v' r, ptnet_nm_register K H' v na false = .ok (v', r) ∧
        v'.trace = v.trace ++
          (if v.sc.backend_regifs = 1 then ptctl_events H' v.trace K.NET_PARAVIRT_PTCTL_UNREGIF
           else [])) := by
  refine ⟨?_, ?_, ?_⟩
  · obtain ⟨w1, hon, hatt1, hreg1, htr1⟩ :=
      register_calls_on K H hacc ons w hatt (by omega)
    obtain ⟨w2, hoff, _, hreg2, htr2⟩ :=
      register_calls_off K H hacc offs w1 hatt1 (by omega)
    refine ⟨w2, ?_, ?_, ?_⟩
    · simp only [hon, bind, Except.bind]
      exact hoff
    · have hne : ons ≠ [] := by
        intro h; subst h; simp at hN
      have hne2 : offs ≠ [] := by
        intro h; subst h; simp at hlen; omega
      have hc : w1.sc.backend_regifs = (offs.length : Int) := by omega
      rw [htr2, htr1, if_pos ⟨h0, hne⟩, if_pos ⟨hc, hne2⟩]
      simp
    · omega
  · intro H' v na hv
    obtain ⟨v', r, hcall, _, htr, _⟩ := register_on_events K H' v na hv
    exact ⟨v', r, hcall, htr⟩
  · intro H' v na hv
    obtain ⟨v', r, hcall, _, htr, _⟩ := register_off_events K H' v na hv
    exact ⟨v', r, hcall, htr⟩

/-- C1 on the sample driver: three register(on) calls and three register(off) calls of
mixed client kinds issue one REGIF, then one UNREGIF. -/
theorem C1_witness :
    (attached_sample 0).attached ∧ (attached_sample 0).sc.backend_regifs = 0 ∧
    (∀ tr, (host_sample 2 2 0).reg_read tr Reg.PTSTS % 2 ^ 32 = 0) ∧
    ∃ w', (register_calls K0 (host_sample 2 2 0) true
              [⟨na_ptr.ptna_dr, 0⟩, ⟨na_ptr.ptna_nm, 0⟩, ⟨na_ptr.ptna_nm, 1⟩]
              (attached_sample 0) >>=
            register_calls K0 (host_sample 2 2 0) false
              [⟨na_ptr.ptna_nm, 1⟩, ⟨na_ptr.ptna_nm, 0⟩, ⟨na_ptr.ptna_dr, 0⟩]) = .ok w' ∧
      w'.trace = (attached_sample 0).trace ++
        [Ev.bus_write_4 Reg.PTCTL K0.NET_PARAVIRT_PTCTL_REGIF, Ev.bus_read_4 Reg.PTSTS 0,
         Ev.bus_write_4 Reg.PTCTL K0.NET_PARAVIRT_PTCTL_UNREGIF, Ev.bus_read_4 Reg.PTSTS 0] ∧
      w'.sc.backend_regifs = 0 :=
  ⟨by decide, by decide, fun _ => rfl,
    (C1_registration_counting K0 (host_sample 2 2 0) (attached_sample 0)
      [⟨na_ptr.ptna_dr, 0⟩, ⟨na_ptr.ptna_nm, 0⟩, ⟨na_ptr.ptna_nm, 1⟩]
      [⟨na_ptr.ptna_nm, 1⟩, ⟨na_ptr.ptna_nm, 0⟩, ⟨na_ptr.ptna_dr, 0⟩]
      (by decide) (by decide) (fun _ => rfl) (by decide) (by decide)).1⟩

/-! ## C3 -/

/-- What the `!onoff` path does when the host rejects UNREGIF: the call issues UNREGIF
when the counter is 1 on entry, returns the nonzero status (as a C `int`) and leaves
`backend_regifs` one less than before the call; the decrement made on entry is not
undone. -/
theorem register_off_rejected (K : Hdr) (H : Host) (w : World) (na : na_ptr)
    (hatt : w.attached) (h1 : w.sc.backend_regifs = 1)
    (hrej : ptctl_status H w.trace K.NET_PARAVIRT_PTCTL_UNREGIF ≠ 0) :
    ∃ w', ptnet_nm_register K H w na false
        = .ok (w', toInt32 (ptctl_status H w.trace K.NET_PARAVIRT_PTCTL_UNREGIF)) ∧
      toInt32 (ptctl_status H w.trace K.NET_PARAVIRT_PTCTL_UNREGIF) ≠ 0 ∧
      w'.trace = w.trace ++ ptctl_events H w.trace K.NET_PARAVIRT_PTCTL_UNREGIF ∧
      w'.sc.backend_regifs = w.sc.backend_regifs - 1 := by
  have hz : (off_head K w na).sc.backend_regifs = 0 := by
    rw [off_head_regifs, h1]; rfl
  rw [register_eq K H w na false hatt, register_pure_off, if_pos hz, off_head_trace]
  refine ⟨_, rfl, toInt32_ne_zero _ (by rw [ptctl_status_mod]; exact hrej), ?_, ?_⟩
  · rw [ptctl_trace, off_head_trace]
  · rw [ptctl_regifs, off_head_regifs]

/-- C3 at the failing input: on the sample driver with `backend_regifs = 1`, a
register(off) call of the native adapter issues UNREGIF, the host answers 1, the call
returns 1, and `backend_regifs` is 0 afterwards, not 1 as before the call. -/
theorem C3_unregif_rejection_at_failing_input :
    ∃ w' r, ptnet_nm_register K0 (host_sample 2 2 1) ((attached_sample 1).with_regifs 1)
        na_ptr.ptna_nm false = .ok (w', r) ∧
      w'.trace = [Ev.bus_write_4 Reg.PTCTL K0.NET_PARAVIRT_PTCTL_UNREGIF,
                  Ev.bus_read_4 Reg.PTSTS 1] ∧
      r = 1 ∧
      ((attached_sample 1).with_regifs 1).sc.backend_regifs = 1 ∧
      w'.sc.backend_regifs = 0 :=
  ⟨_, _, register_eq K0 (host_sample 2 2 1) ((attached_sample 1).with_regifs 1)
      na_ptr.ptna_nm false (by decide), by decide, by decide, by decide, by decide⟩

/-! ## C4 -/

theorem kring_of_cursors_congr (w w' : World) (na : na_ptr) (i : Nat)
    (hn : (na_get w'.sc na).num_tx_rings = (na_get w.sc na).num_tx_rings)
    (htx : ∀ j, cursors (w'.sc.tx_rings j) = cursors (w.sc.tx_rings j))
    (hrx : ∀ j, cursors (w'.sc.rx_rings j) = cursors (w.sc.rx_rings j)) :
    cursors (kring_of w' na i) = cursors (kring_of w na i) := by
  unfold kring_of
  rw [hn]
  split
  · exact htx i
  · exact hrx _

theorem with_regifs_kring_of (w : World) (n : Int) (na : na_ptr) (i : Nat) :
    kring_of (w.with_regifs n) na i = kring_of w na i := by
  cases na <;> rfl

theorem native_on_kring_cursors (K : Hdr) (w : World) (na : na_ptr) (i : Nat) :
    cursors (kring_of (native_on K w na) na i) = cursors (kring_of w na i) :=
  kring_of_cursors_congr w (native_on K w na) na i (native_on_counts K w na).1
    (native_on_tx_cursors K w na) (native_on_rx_cursors K w na)

/-- When the pull condition of the `onoff` branch holds, the descriptors after the branch
hold the cursors `ptnet_sync_from_csb` wrote. -/
theorem on_tail_kring_cursors (K : Hdr) (w : World) (na : na_ptr) (i : Nat)
    (hcond : ((!decide (na = na_ptr.ptna_nm) && decide (w.sc.backend_regifs = 0)) ||
      (decide (na = na_ptr.ptna_nm) && decide ((na_get w.sc na).active_fds = 0))) = true) :
    cursors (kring_of (on_tail K w na) na i) = cursors (kring_of (sync_pure w na) na i) := by
  unfold on_tail
  simp only [hcond, if_true]
  rw [with_regifs_kring_of]
  split
  · exact native_on_kring_cursors K _ na i
  · rfl

/-- C4: a register(on) call that takes `backend_regifs` from 0 to 1 with REGIF accepted,
made on the driver-private adapter or on the native adapter with `active_fds = 0`,
returns 0 and leaves, for every ring index `i < num_rings`, the local descriptor mapped
to `i` with `rhead = ring.head = head`, `rcur = ring.cur = cur`, `nr_hwcur = hwcur` and
`nr_hwtail = rtail = ring.tail = hwtail` of CSB entry `i`, the CSB being the one the host
left when it served REGIF. -/
theorem C4_round_trip_state_pull (K : Hdr) (H : Host) (w : World) (na : na_ptr)
    (hatt : w.attached) (h0 : w.sc.backend_regifs = 0)
    (hok : ptctl_status H w.trace K.NET_PARAVIRT_PTCTL_REGIF = 0)
    (hkind : na = na_ptr.ptna_dr ∨ (na_get w.sc na).active_fds = 0)
    (_hrings : (na_get w.sc na).num_tx_rings + (na_get w.sc na).num_rx_rings = w.sc.num_rings)
    (hlay : ∀ i, i < w.sc.num_rings → (w.Q i).ptring = i) :
    ∃ w', ptnet_nm_register K H w na true = .ok (w', 0) ∧
      w'.sc.backend_regifs = 1 ∧
      w'.C = H.on_write (w.trace ++ [Ev.bus_write_4 Reg.PTCTL K.NET_PARAVIRT_PTCTL_REGIF])
              (init_flags w na) ∧
      ∀ i, i < w.sc.num_rings → pulled (kring_of w' na i) (w'.C i) := by
  rw [register_eq K H w na true hatt, register_pure_on_first K H w na h0, if_pos hok]
  refine ⟨_, rfl, ?_, ?_, ?_⟩
  · rw [on_tail_regifs, ptctl_regifs, with_csb_regifs, h0]; rfl
  · rw [on_tail_C, ptctl_C]
  · intro i hi
    have hcond : ((!decide (na = na_ptr.ptna_nm) &&
        decide ((ptnet_nm_ptctl H (w.with_csb (init_flags w na))
          K.NET_PARAVIRT_PTCTL_REGIF).1.sc.backend_regifs = 0)) ||
        (decide (na = na_ptr.ptna_nm) &&
          decide ((na_get (ptnet_nm_ptctl H (w.with_csb (init_flags w na))
            K.NET_PARAVIRT_PTCTL_REGIF).1.sc na).active_fds = 0))) = true := by
      have hfd : (na_get (ptnet_nm_ptctl H (w.with_csb (init_flags w na))
          K.NET_PARAVIRT_PTCTL_REGIF).1.sc na).active_fds = (na_get w.sc na).active_fds := by
        cases na <;> rfl
      rw [ptctl_regifs, with_csb_regifs, hfd]
      cases na
      · rcases hkind with h | h
        · cases h
        · simp [h]
      · simp [h0]
    refine pulled_of_cursors (on_tail_kring_cursors K _ na i hcond) ?_
    rw [on_tail_C]
    have hp := sync_pure_pulled (ptnet_nm_ptctl H (w.with_csb (init_flags w na))
      K.NET_PARAVIRT_PTCTL_REGIF).1 na i hi
    have hQ : (ptnet_nm_ptctl H (w.with_csb (init_flags w na))
        K.NET_PARAVIRT_PTCTL_REGIF).1.Q = w.Q := rfl
    rw [hQ, hlay i hi] at hp
    exact hp

/-- C4 on the sample driver: the host publishes `{head:5, cur:5, hwcur:5, hwtail:12}` when
it serves REGIF and every local descriptor reads `rhead=5, rcur=5, nr_hwcur=5,
nr_hwtail=12, rtail=12` after the call. -/
theorem C4_witness :
    (attached_sample 0).attached ∧ (attached_sample 0).sc.backend_regifs = 0 ∧
    ptctl_status (host_sample 2 2 0) (attached_sample 0).trace K0.NET_PARAVIRT_PTCTL_REGIF = 0 ∧
    (na_get (attached_sample 0).sc na_ptr.ptna_nm).active_fds = 0 ∧
    (na_get (attached_sample 0).sc na_ptr.ptna_nm).num_tx_rings +
      (na_get (attached_sample 0).sc na_ptr.ptna_nm).num_rx_rings
      = (attached_sample 0).sc.num_rings ∧
    (∀ i, i < (attached_sample 0).sc.num_rings → ((attached_sample 0).Q i).ptring = i) ∧
    (∃ w', ptnet_nm_register K0 (host_sample 2 2 0) (attached_sample 0) na_ptr.ptna_nm true
        = .ok (w', 0) ∧
      w'.sc.backend_regifs = 1 ∧
      w'.C = (host_sample 2 2 0).on_write ((attached_sample 0).trace ++
          [Ev.bus_write_4 Reg.PTCTL K0.NET_PARAVIRT_PTCTL_REGIF])
        (init_flags (attached_sample 0) na_ptr.ptna_nm) ∧
      ∀ i, i < (attached_sample 0).sc.num_rings →
        pulled (kring_of w' na_ptr.ptna_nm i) (w'.C i)) ∧
    (∀ i, i < 4 →
      ((world_of (ptnet_nm_register K0 (host_sample 2 2 0) (attached_sample 0)
          na_ptr.ptna_nm true)).C i).head = 5 ∧
      ((world_of (ptnet_nm_register K0 (host_sample 2 2 0) (attached_sample 0)
          na_ptr.ptna_nm true)).C i).hwtail = 12 ∧
      (kring_of (world_of (ptnet_nm_register K0 (host_sample 2 2 0)
          (attached_sample 0) na_ptr.ptna_nm true)) na_ptr.ptna_nm i).rhead = 5 ∧
      (kring_of (world_of (ptnet_nm_register K0 (host_sample 2 2 0)
          (attached_sample 0) na_ptr.ptna_nm true)) na_ptr.ptna_nm i).rcur = 5 ∧
      (kring_of (world_of (ptnet_nm_register K0 (host_sample 2 2 0)
          (attached_sample 0) na_ptr.ptna_nm true)) na_ptr.ptna_nm i).nr_hwcur = 5 ∧
      (kring_of (world_of (ptnet_nm_register K0 (host_sample 2 2 0)
          (attached_sample 0) na_ptr.ptna_nm true)) na_ptr.ptna_nm i).nr_hwtail = 12 ∧
      (kring_of (world_of (ptnet_nm_register K0 (host_sample 2 2 0)
          (attached_sample 0) na_ptr.ptna_nm true)) na_ptr.ptna_nm i).rtail = 12) :=
  ⟨by decide, by decide, by decide, by decide, by decide, by decide,
    C4_round_trip_state_pull K0 (host_sample 2 2 0) (attached_sample 0) na_ptr.ptna_nm
      (by decide) (by decide) (by decide) (Or.inr (by decide)) (by decide) (by decide),
    by decide⟩

/-! ## C5 -/

/-- C5, as the code has it: a register(on) call entered with `backend_regifs ≠ 0` (so
with one or more clients registered) returns 0, increments the counter and appends
nothing to the event list: no REGIF, no register access at all.  The CSB state is pulled
again exactly when the caller is the native adapter with `active_fds = 0` (the first
netmap client): then the descriptors hold the cursors `ptnet_sync_from_csb` writes;
in every other case every cursor of every local descriptor is unchanged. -/
theorem C5_additional_clients (K : Hdr) (H : Host) (w : World) (na : na_ptr)
    (hatt : w.attached) (h1 : w.sc.backend_regifs ≠ 0) :
    ∃ w', ptnet_nm_register K H w na true = .ok (w', 0) ∧
      w'.trace = w.trace ∧ w'.C = w.C ∧
      w'.sc.backend_regifs = w.sc.backend_regifs + 1 ∧
      (¬ (na = na_ptr.ptna_nm ∧ (na_get w.sc na).active_fds = 0) →
        ∀ j, cursors (w'.sc.tx_rings j) = cursors (w.sc.tx_rings j) ∧
             cursors (w'.sc.rx_rings j) = cursors (w.sc.rx_rings j)) ∧
      ((na = na_ptr.ptna_nm ∧ (na_get w.sc na).active_fds = 0) →
        ∃ ws, ptnet_sync_from_csb w na = .ok ws ∧
          ∀ j, cursors (w'.sc.tx_rings j) = cursors (ws.sc.tx_rings j) ∧
               cursors (w'.sc.rx_rings j) = cursors (ws.sc.rx_rings j)) := by
  rw [register_eq K H w na true hatt, register_pure_on_next K H w na h1]
  refine ⟨_, rfl, on_tail_trace K w na, on_tail_C K w na, on_tail_regifs K w na, ?_, ?_⟩
  · intro hn j
    unfold on_tail
    cases na
    · have hfd : (na_get w.sc na_ptr.ptna_nm).active_fds ≠ 0 := fun h => hn ⟨rfl, h⟩
      simp only [decide_True, Bool.not_true, Bool.false_and, Bool.true_and, Bool.false_or,
        decide_eq_true_eq, hfd, if_false, if_true]
      exact ⟨native_on_tx_cursors K w na_ptr.ptna_nm j, native_on_rx_cursors K w na_ptr.ptna_nm j⟩
    · simp only [reduceCtorEq, decide_False, Bool.not_false, Bool.true_and, Bool.false_and,
        Bool.or_false, decide_eq_true_eq, h1, if_false, Bool.false_eq_true]
      exact ⟨rfl, rfl⟩
  · rintro ⟨hna, hfd⟩
    subst hna
    refine ⟨sync_pure w na_ptr.ptna_nm, sync_eq_attached w _ hatt, fun j => ?_⟩
    unfold on_tail
    simp only [decide_True, Bool.not_true, Bool.false_and, Bool.true_and, Bool.false_or,
      decide_eq_true_eq, hfd, if_true]
    exact ⟨native_on_tx_cursors K (sync_pure w na_ptr.ptna_nm) na_ptr.ptna_nm j,
      native_on_rx_cursors K (sync_pure w na_ptr.ptna_nm) na_ptr.ptna_nm j⟩

/-- C5 fails as stated: on the sample driver with `backend_regifs = 1`, a register(on)
call of the native adapter with `active_fds = 0` issues no REGIF but pulls the CSB state:
`rhead` of TX ring 0 goes from 0 to the CSB value 5. -/
theorem C5_counterexample :
    ∃ w' r, ptnet_nm_register K0 (host_sample 2 2 0) registered_sample na_ptr.ptna_nm true
        = .ok (w', r) ∧
      registered_sample.sc.backend_regifs = 1 ∧
      w'.trace = registered_sample.trace ∧
      (registered_sample.sc.tx_rings 0).rhead = 0 ∧
      (w'.sc.tx_rings 0).rhead = 5 :=
  ⟨_, _, register_eq K0 (host_sample 2 2 0) registered_sample na_ptr.ptna_nm true (by decide),
    by decide, by decide, by decide, by decide⟩

/-- C5 on the sample driver with one client registered, for a second call made on the
driver-private adapter. -/
theorem C5_witness :
    registered_sample.attached ∧ registered_sample.sc.backend_regifs ≠ 0 ∧
    ∃ w', ptnet_nm_register K0 (host_sample 2 2 0) registered_sample na_ptr.ptna_dr true
        = .ok (w', 0) ∧
      w'.trace = registered_sample.trace ∧ w'.C = registered_sample.C ∧
      w'.sc.backend_regifs = registered_sample.sc.backend_regifs + 1 ∧
      (¬ (na_ptr.ptna_dr = na_ptr.ptna_nm ∧
          (na_get registered_sample.sc na_ptr.ptna_dr).active_fds = 0) →
        ∀ j, cursors (w'.sc.tx_rings j) = cursors (registered_sample.sc.tx_rings j) ∧
             cursors (w'.sc.rx_rings j) = cursors (registered_sample.sc.rx_rings j)) ∧
      ((na_ptr.ptna_dr = na_ptr.ptna_nm ∧
          (na_get registered_sample.sc na_ptr.ptna_dr).active_fds = 0) →
        ∃ ws, ptnet_sync_from_csb registered_sample na_ptr.ptna_dr = .ok ws ∧
          ∀ j, cursors (w'.sc.tx_rings j) = cursors (ws.sc.tx_rings j) ∧
               cursors (w'.sc.rx_rings j) = cursors (ws.sc.rx_rings j)) :=
  ⟨by decide, by decide,
    C5_additional_clients K0 (host_sample 2 2 0) registered_sample na_ptr.ptna_dr
      (by decide) (by decide)⟩

/-! ## C6 -/

theorem store_cursors (r : ptnet_ring) (f : csb_fld) (v : Nat) :
    (r.store f v).head = r.head ∧ (r.store f v).cur = r.cur ∧
    (r.store f v).hwcur = r.hwcur ∧ (r.store f v).hwtail = r.hwtail := by
  cases f <;> exact ⟨rfl, rfl, rfl, rfl⟩

/-- The loop of `csb_notification_enable_all` changes no cursor of any CSB entry. -/
theorem csb_store_pure_cursors (q : Nat → ptnet_queue) (base : Nat) (f : csb_fld) (v : Nat)
    (c : Nat → ptnet_ring) (j : Nat) :
    ∀ n, (csb_store_pure q base f v n c j).head = (c j).head ∧
      (csb_store_pure q base f v n c j).cur = (c j).cur ∧
      (csb_store_pure q base f v n c j).hwcur = (c j).hwcur ∧
      (csb_store_pure q base f v n c j).hwtail = (c j).hwtail := by
  intro n
  induction n with
  | zero => exact ⟨rfl, rfl, rfl, rfl⟩
  | succ n ih =>
    simp only [csb_store_pure]
    by_cases hj : j = (q (base + n)).ptring
    · subst hj
      rw [Function.update_same]
      obtain ⟨h1, h2, h3, h4⟩ := store_cursors
        (csb_store_pure q base f v n c (q (base + n)).ptring) f v
      rw [h1, h2, h3, h4]
      exact ih
    · rw [Function.update_noteq hj]
      exact ih

theorem pulled_congr {k : netmap_kring} {p p' : ptnet_ring}
    (h : p'.head = p.head ∧ p'.cur = p.cur ∧ p'.hwcur = p.hwcur ∧ p'.hwtail = p.hwtail)
    (hp : pulled k p') : pulled k p := by
  obtain ⟨h1, h2, h3, h4⟩ := h
  unfold pulled at *
  rw [← h1, ← h2, ← h3, ← h4]
  exact hp

theorem exit_flags_cursors (w : World) (na : na_ptr) (j : Nat) :
    (exit_flags w na j).head = (w.C j).head ∧ (exit_flags w na j).cur = (w.C j).cur ∧
    (exit_flags w na j).hwcur = (w.C j).hwcur ∧ (exit_flags w na j).hwtail = (w.C j).hwtail := by
  unfold exit_flags enable_pure
  obtain ⟨a1, a2, a3, a4⟩ := csb_store_pure_cursors w.Q
    (if txrx.NR_RX = txrx.NR_RX then w.sc.rxqueues else 0) csb_fld.guest_need_kick 1
    (csb_store_pure w.Q (if txrx.NR_TX = txrx.NR_RX then w.sc.rxqueues else 0)
      csb_fld.guest_need_kick 1 (nma_get_nrings (na_get w.sc na) txrx.NR_TX) w.C) j
    (nma_get_nrings (na_get w.sc na) txrx.NR_RX)
  obtain ⟨b1, b2, b3, b4⟩ := csb_store_pure_cursors w.Q
    (if txrx.NR_TX = txrx.NR_RX then w.sc.rxqueues else 0) csb_fld.guest_need_kick 1 w.C j
    (nma_get_nrings (na_get w.sc na) txrx.NR_TX)
  exact ⟨a1.trans b1, a2.trans b2, a3.trans b3, a4.trans b4⟩

/-- The state of the `!onoff` path just before the UNREGIF test, for the native adapter
with no active file descriptor. -/
theorem off_head_native_last (K : Hdr) (w : World)
    (hfd : (na_get w.sc na_ptr.ptna_nm).active_fds = 0) :
    off_head K w na_ptr.ptna_nm =
      sync_pure (native_off K ((w.with_regifs (w.sc.backend_regifs - 1)).with_csb
        (exit_flags (w.with_regifs (w.sc.backend_regifs - 1)) na_ptr.ptna_nm)) na_ptr.ptna_nm)
        na_ptr.ptna_nm := by
  have h1 : (na_get (w.with_regifs (w.sc.backend_regifs - 1)).sc na_ptr.ptna_nm).active_fds = 0 :=
    hfd
  have h2 : (na_get (native_off K ((w.with_regifs (w.sc.backend_regifs - 1)).with_csb
      (exit_flags (w.with_regifs (w.sc.backend_regifs - 1)) na_ptr.ptna_nm))
      na_ptr.ptna_nm).sc na_ptr.ptna_nm).active_fds = 0 := hfd
  unfold off_head
  simp only [decide_True, Bool.true_and, decide_eq_true_eq, h1, if_true, h2]

/-- The state of the `!onoff` path just before the UNREGIF test, for a caller that is not
the last netmap client. -/
theorem off_head_other (K : Hdr) (w : World) (na : na_ptr)
    (hn : ¬ (na = na_ptr.ptna_nm ∧ (na_get w.sc na).active_fds = 0)) :
    off_head K w na =
      if na = na_ptr.ptna_nm then native_off K (w.with_regifs (w.sc.backend_regifs - 1)) na
      else w.with_regifs (w.sc.backend_regifs - 1) := by
  cases na
  · have hfd : (na_get w.sc na_ptr.ptna_nm).active_fds ≠ 0 := fun h => hn ⟨rfl, h⟩
    have h1 : (na_get (w.with_regifs (w.sc.backend_regifs - 1)).sc na_ptr.ptna_nm).active_fds
        ≠ 0 := hfd
    have h2 : (na_get (native_off K (w.with_regifs (w.sc.backend_regifs - 1))
        na_ptr.ptna_nm).sc na_ptr.ptna_nm).active_fds ≠ 0 := hfd
    unfold off_head
    simp only [decide_True, Bool.true_and, decide_eq_true_eq, h1, if_false, if_true, h2]
  · unfold off_head
    simp only [reduceCtorEq, decide_False, Bool.false_and, Bool.false_eq_true, if_false]

theorem ptctl_kring_of (H : Host) (w : World) (cmd : Nat) (na : na_ptr) (i : Nat) :
    kring_of (ptnet_nm_ptctl H w cmd).1 na i = kring_of w na i := by
  cases na <;> rfl

theorem ptctl_C_attached (H : Host) (w : World) (cmd : Nat) (h : w.attached) :
    (ptnet_nm_ptctl H w cmd).1.C = H.on_write (w.trace ++ [Ev.bus_write_4 Reg.PTCTL cmd]) w.C := by
  have hw := with_csb_self w w.C (attached_csb h)
  rw [← ptctl_C H w cmd w.C, hw]

/-- The three facts about a register(off) call: the events it appends, what the last
netmap client pulls, and that any other caller pulls nothing. -/
theorem register_off_cases (K : Hdr) (H : Host) (w : World) (na : na_ptr)
    (hatt : w.attached) (hlay : ∀ i, i < w.sc.num_rings → (w.Q i).ptring = i) :
    ∃ w' r, ptnet_nm_register K H w na false = .ok (w', r) ∧
      w'.trace = w.trace ++
        (if w.sc.backend_regifs = 1 then ptctl_events H w.trace K.NET_PARAVIRT_PTCTL_UNREGIF
         else []) ∧
      ((na = na_ptr.ptna_nm ∧ (na_get w.sc na).active_fds = 0) →
        (∀ i, i < w.sc.num_rings → pulled (kring_of w' na i) (w.C i)) ∧
        w'.C = if w.sc.backend_regifs = 1 then
            H.on_write (w.trace ++ [Ev.bus_write_4 Reg.PTCTL K.NET_PARAVIRT_PTCTL_UNREGIF])
              (exit_flags (w.with_regifs (w.sc.backend_regifs - 1)) na)
          else exit_flags (w.with_regifs (w.sc.backend_regifs - 1)) na) ∧
      (¬ (na = na_ptr.ptna_nm ∧ (na_get w.sc na).active_fds = 0) →
        ∀ j, cursors (w'.sc.tx_rings j) = cursors (w.sc.tx_rings j) ∧
             cursors (w'.sc.rx_rings j) = cursors (w.sc.rx_rings j)) := by
  obtain ⟨w', r, hcall, _, htr, _⟩ := register_off_events K H w na hatt
  refine ⟨w', r, hcall, htr, ?_, ?_⟩
  all_goals
    rw [register_eq K H w na false hatt, register_pure_off] at hcall
    have hr := off_head_regifs K w na
  · rintro ⟨hna, hfd⟩
    subst hna
    have hoh := off_head_native_last K w hfd
    have hpull : ∀ i, i < w.sc.num_rings →
        pulled (kring_of (off_head K w na_ptr.ptna_nm) na_ptr.ptna_nm i) (w.C i) := by
      intro i hi
      rw [hoh]
      have hp := sync_pure_pulled (native_off K ((w.with_regifs (w.sc.backend_regifs - 1)).with_csb
        (exit_flags (w.with_regifs (w.sc.backend_regifs - 1)) na_ptr.ptna_nm)) na_ptr.ptna_nm)
        na_ptr.ptna_nm i hi
      rw [native_off_C, native_off_Q, with_csb_C, with_csb_Q, with_regifs_Q, hlay i hi] at hp
      exact pulled_congr
        (exit_flags_cursors (w.with_regifs (w.sc.backend_regifs - 1)) na_ptr.ptna_nm i) hp
    have hC : (off_head K w na_ptr.ptna_nm).C
        = exit_flags (w.with_regifs (w.sc.backend_regifs - 1)) na_ptr.ptna_nm := by
      rw [hoh, sync_pure_C, native_off_C, with_csb_C]
    have hoff := off_head_attached K w na_ptr.ptna_nm hatt
    have htr0 := off_head_trace K w na_ptr.ptna_nm
    by_cases h1 : w.sc.backend_regifs = 1
    · have hz : (off_head K w na_ptr.ptna_nm).sc.backend_regifs = 0 := by rw [hr, h1]; rfl
      rw [if_pos hz] at hcall
      injection hcall with hcall
      injection hcall with hw _
      subst hw
      refine ⟨fun i hi => ?_, ?_⟩
      · rw [ptctl_kring_of]
        exact hpull i hi
      · rw [if_pos h1, ptctl_C_attached H _ _ hoff, htr0, hC]
    · have hz : (off_head K w na_ptr.ptna_nm).sc.backend_regifs ≠ 0 := by rw [hr]; omega
      rw [if_neg hz] at hcall
      injection hcall with hcall
      injection hcall with hw _
      subst hw
      exact ⟨hpull, by rw [if_neg h1, hC]⟩
  · intro hn j
    have hoh := off_head_other K w na hn
    have hcur : cursors ((off_head K w na).sc.tx_rings j) = cursors (w.sc.tx_rings j) ∧
        cursors ((off_head K w na).sc.rx_rings j) = cursors (w.sc.rx_rings j) := by
      rw [hoh]
      split
      · exact ⟨native_off_tx_cursors K (w.with_regifs (w.sc.backend_regifs - 1)) na j,
          native_off_rx_cursors K (w.with_regifs (w.sc.backend_regifs - 1)) na j⟩
      · exact ⟨rfl, rfl⟩
    by_cases hz : (off_head K w na).sc.backend_regifs = 0
    · rw [if_pos hz] at hcall
      injection hcall with hcall
      injection hcall with hw _
      subst hw
      exact hcur
    · rw [if_neg hz] at hcall
      injection hcall with hcall
      injection hcall with hw _
      subst hw
      exact hcur

/-- C6, as the code has it: a register(off) call issues UNREGIF when the counter is 1 on
entry.  When the caller is the native adapter with `active_fds = 0` (the last netmap
client), the CSB state is pulled before that: after the call the descriptor of every ring
index `i < num_rings` holds the cursors CSB entry `i` had before UNREGIF, whatever the
host does to the CSB while it serves UNREGIF.  Any other caller (the driver-private
adapter, or the native adapter with `active_fds ≠ 0`) pulls nothing: every cursor of
every local descriptor is unchanged. -/
theorem C6_unregister_pull (K : Hdr) (H : Host) (w : World) (na : na_ptr)
    (hatt : w.attached) (hlay : ∀ i, i < w.sc.num_rings → (w.Q i).ptring = i) :
    ∃ w' r, ptnet_nm_register K H w na false = .ok (w', r) ∧
      w'.trace = w.trace ++
        (if w.sc.backend_regifs = 1 then ptctl_events H w.trace K.NET_PARAVIRT_PTCTL_UNREGIF
         else []) ∧
      ((na = na_ptr.ptna_nm ∧ (na_get w.sc na).active_fds = 0) →
        (∀ i, i < w.sc.num_rings → pulled (kring_of w' na i) (w.C i)) ∧
        w'.C = if w.sc.backend_regifs = 1 then
            H.on_write (w.trace ++ [Ev.bus_write_4 Reg.PTCTL K.NET_PARAVIRT_PTCTL_UNREGIF])
              (exit_flags (w.with_regifs (w.sc.backend_regifs - 1)) na)
          else exit_flags (w.with_regifs (w.sc.backend_regifs - 1)) na) ∧
      (¬ (na = na_ptr.ptna_nm ∧ (na_get w.sc na).active_fds = 0) →
        ∀ j, cursors (w'.sc.tx_rings j) = cursors (w.sc.tx_rings j) ∧
             cursors (w'.sc.rx_rings j) = cursors (w.sc.rx_rings j)) :=
  register_off_cases K H w na hatt hlay

/-- C6 fails as stated: on the sample driver with `backend_regifs = 1` and `head = 5` in
CSB entry 0, a register(off) call of the driver-private adapter writes UNREGIF to PTCTL
without pulling the CSB state: `rhead` of TX ring 0 is still 0 after the call. -/
theorem C6_counterexample :
    ∃ w' r, ptnet_nm_register K0 (host_sample 2 2 0) registered_sample na_ptr.ptna_dr false
        = .ok (w', r) ∧
      w'.trace = [Ev.bus_write_4 Reg.PTCTL K0.NET_PARAVIRT_PTCTL_UNREGIF,
                  Ev.bus_read_4 Reg.PTSTS 0] ∧
      (registered_sample.C 0).head = 5 ∧
      (w'.sc.tx_rings 0).rhead = 0 :=
  ⟨_, _, register_eq K0 (host_sample 2 2 0) registered_sample na_ptr.ptna_dr false (by decide),
    by decide, by decide, by decide⟩

/-- C6 on the sample driver with one client registered, for the native adapter as the last
netmap client. -/
theorem C6_witness :
    registered_sample.attached ∧
    (∀ i, i < registered_sample.sc.num_rings → (registered_sample.Q i).ptring = i) ∧
    (na_get registered_sample.sc na_ptr.ptna_nm).active_fds = 0 ∧
    ∃ w' r, ptnet_nm_register K0 (host_sample 2 2 0) registered_sample na_ptr.ptna_nm false
        = .ok (w', r) ∧
      w'.trace = registered_sample.trace ++
        ptctl_events (host_sample 2 2 0) registered_sample.trace K0.NET_PARAVIRT_PTCTL_UNREGIF ∧
      ∀ i, i < registered_sample.sc.num_rings →
        pulled (kring_of w' na_ptr.ptna_nm i) (registered_sample.C i) :=
  ⟨by decide, by decide, by decide,
    match C6_unregister_pull K0 (host_sample 2 2 0) registered_sample na_ptr.ptna_nm
      (by decide) (by decide) with
    | ⟨w', r, hcall, htr, hlast, _⟩ => ⟨w', r, hcall, htr, (hlast ⟨rfl, by decide⟩).1⟩⟩

/-! ## C7 -/

theorem init_flags_layout (w : World) (na : na_ptr)
    (hlay : ∀ i, i < w.sc.num_rings → (w.Q i).ptring = i)
    (htx : (na_get w.sc na).num_tx_rings ≤ w.sc.rxqueues)
    (hrx : w.sc.rxqueues + (na_get w.sc na).num_rx_rings ≤ w.sc.num_rings) :
    flags_initial w na (init_flags w na) := by
  have hb0 : 0 + (na_get w.sc na).num_tx_rings ≤ w.sc.num_rings := by omega
  constructor
  · intro i hi
    have hib : i < w.sc.num_rings := by omega
    simp only [init_flags, enable_pure, nma_get_nrings, if_true, reduceCtorEq, if_false]
    rw [csb_store_pure_layout w.Q _ _ _ _ _ _ hlay hrx i hib,
      if_neg (by omega),
      csb_store_pure_layout w.Q _ _ _ _ _ _ hlay hrx i hib,
      if_neg (by omega),
      csb_store_pure_layout w.Q _ _ _ _ _ _ hlay hb0 i hib,
      if_pos (by omega),
      csb_store_pure_layout w.Q _ _ _ _ _ _ hlay hb0 i hib,
      if_pos (by omega)]
    exact ⟨rfl, rfl⟩
  · intro i hi
    have hib : w.sc.rxqueues + i < w.sc.num_rings := by omega
    simp only [init_flags, enable_pure, nma_get_nrings, if_true, reduceCtorEq, if_false]
    rw [csb_store_pure_layout w.Q _ _ _ _ _ _ hlay hrx _ hib,
      if_pos (by omega),
      csb_store_pure_layout w.Q _ _ _ _ _ _ hlay hrx _ hib,
      if_pos (by omega)]
    exact ⟨rfl, rfl⟩

theorem flags_initial_of_keeps (H : Host) (tr : List Ev) (w : World) (na : na_ptr)
    (c : Nat → ptnet_ring) (hk : host_keeps_flags H tr c) (hf : flags_initial w na c) :
    flags_initial w na (H.on_write tr c) := by
  constructor
  · intro i hi
    rw [(hk i).1, (hk i).2]
    exact hf.1 i hi
  · intro i hi
    rw [(hk _).1, (hk _).2]
    exact hf.2 i hi

/-- C7: in a register(on) call entered with `backend_regifs = 0`, the CSB the host finds
when REGIF is written to PTCTL has, whatever the flags were before, `host_need_kick = 1`
and `guest_need_kick = 0` in every TX entry of the adapter and both flags 1 in
every RX entry, the RX entries being the CSB indices from `rxqueues` on (`num_tx_rings ..
num_rings-1` for the adapter `ptnet_attach` sets up).  The driver writes no flag after
that: when the call returns, with REGIF accepted or rejected, the CSB is the one the host
left when it served REGIF, so the flags are still those unless the host changed them. -/
theorem C7_initial_notification_flags (K : Hdr) (H : Host) (w : World) (na : na_ptr)
    (hatt : w.attached) (h0 : w.sc.backend_regifs = 0)
    (hlay : ∀ i, i < w.sc.num_rings → (w.Q i).ptring = i)
    (htx : (na_get w.sc na).num_tx_rings ≤ w.sc.rxqueues)
    (hrx : w.sc.rxqueues + (na_get w.sc na).num_rx_rings ≤ w.sc.num_rings) :
    ∃ w' r, ptnet_nm_register K H w na true = .ok (w', r) ∧
      w'.trace = w.trace ++ ptctl_events H w.trace K.NET_PARAVIRT_PTCTL_REGIF ∧
      flags_initial w na (init_flags w na) ∧
      w'.C = H.on_write (w.trace ++ [Ev.bus_write_4 Reg.PTCTL K.NET_PARAVIRT_PTCTL_REGIF])
              (init_flags w na) ∧
      (host_keeps_flags H (w.trace ++ [Ev.bus_write_4 Reg.PTCTL K.NET_PARAVIRT_PTCTL_REGIF])
          (init_flags w na) → flags_initial w na w'.C) := by
  obtain ⟨w', r, hcall, _, htr, _⟩ := register_on_events K H w na hatt
  rw [if_pos h0] at htr
  have hfl := init_flags_layout w na hlay htx hrx
  have hC : w'.C = H.on_write
      (w.trace ++ [Ev.bus_write_4 Reg.PTCTL K.NET_PARAVIRT_PTCTL_REGIF]) (init_flags w na) := by
    rw [register_eq K H w na true hatt, register_pure_on_first K H w na h0] at hcall
    by_cases hs : ptctl_status H w.trace K.NET_PARAVIRT_PTCTL_REGIF = 0
    · rw [if_pos hs] at hcall
      injection hcall with hcall
      injection hcall with hw _
      subst hw
      rw [on_tail_C, ptctl_C]
    · rw [if_neg hs] at hcall
      injection hcall with hcall
      injection hcall with hw _
      subst hw
      rw [ptctl_C]
  refine ⟨w', r, hcall, htr, hfl, hC, fun hk => ?_⟩
  rw [hC]
  exact flags_initial_of_keeps H _ w na _ hk hfl

/-- C7 on the sample driver, starting from flags opposite to the initial ones and with a
host that rejects REGIF. -/
theorem C7_witness :
    ((attached_sample 1).with_csb (fun _ => ⟨0, 0, 0, 0, 0, 1⟩)).attached ∧
    ((attached_sample 1).with_csb (fun _ => ⟨0, 0, 0, 0, 0, 1⟩)).sc.backend_regifs = 0 ∧
    ∃ w' r, ptnet_nm_register K0 (host_sample 2 2 1)
        ((attached_sample 1).with_csb (fun _ => ⟨0, 0, 0, 0, 0, 1⟩)) na_ptr.ptna_nm true
        = .ok (w', r) ∧
      flags_initial ((attached_sample 1).with_csb (fun _ => ⟨0, 0, 0, 0, 0, 1⟩)) na_ptr.ptna_nm
        (init_flags ((attached_sample 1).with_csb (fun _ => ⟨0, 0, 0, 0, 0, 1⟩))
          na_ptr.ptna_nm) ∧
      flags_initial ((attached_sample 1).with_csb (fun _ => ⟨0, 0, 0, 0, 0, 1⟩)) na_ptr.ptna_nm
        w'.C :=
  ⟨by decide, by decide,
    match C7_initial_notification_flags K0 (host_sample 2 2 1)
      ((attached_sample 1).with_csb (fun _ => ⟨0, 0, 0, 0, 0, 1⟩)) na_ptr.ptna_nm
      (by decide) (by decide) (by decide) (by decide) (by decide) with
    | ⟨w', r, hcall, _, hfl, _, hkeep⟩ => ⟨w', r, hcall, hfl, hkeep (fun _ => ⟨rfl, rfl⟩)⟩⟩

/-! ## C8 -/

theorem exit_flags_layout (w : World) (na : na_ptr)
    (hlay : ∀ i, i < w.sc.num_rings → (w.Q i).ptring = i)
    (htx : (na_get w.sc na).num_tx_rings ≤ w.sc.num_rings)
    (hrx : w.sc.rxqueues + (na_get w.sc na).num_rx_rings ≤ w.sc.num_rings) :
    flags_enabled w na (exit_flags w na) := by
  have hb0 : 0 + (na_get w.sc na).num_tx_rings ≤ w.sc.num_rings := by omega
  constructor
  · intro i hi
    have hib : i < w.sc.num_rings := by omega
    simp only [exit_flags, enable_pure, nma_get_nrings, if_true, reduceCtorEq, if_false]
    rw [csb_store_pure_layout w.Q _ _ _ _ _ _ hlay hrx i hib]
    split
    · rfl
    · rw [csb_store_pure_layout w.Q _ _ _ _ _ _ hlay hb0 i hib, if_pos (by omega)]
      rfl
  · intro i hi
    have hib : w.sc.rxqueues + i < w.sc.num_rings := by omega
    simp only [exit_flags, enable_pure, nma_get_nrings, if_true, reduceCtorEq, if_false]
    rw [csb_store_pure_layout w.Q _ _ _ _ _ _ hlay hrx _ hib, if_pos (by omega)]
    rfl

/-- C8: in a register(off) call of the native adapter with `active_fds = 0` (the last
netmap client), the driver sets `guest_need_kick = 1` in every TX and every RX CSB entry
of the adapter, whatever the flags were before, and writes no flag after that: when the
call returns, whatever status the host gave to UNREGIF, the CSB is the one with those
flags, passed through the host if UNREGIF was issued (counter 1 on entry), so
`guest_need_kick = 1` still holds in every entry unless the host changed it. -/
theorem C8_exit_fixup (K : Hdr) (H : Host) (w : World) (hatt : w.attached)
    (hfd : (na_get w.sc na_ptr.ptna_nm).active_fds = 0)
    (hlay : ∀ i, i < w.sc.num_rings → (w.Q i).ptring = i)
    (htx : (na_get w.sc na_ptr.ptna_nm).num_tx_rings ≤ w.sc.num_rings)
    (hrx : w.sc.rxqueues + (na_get w.sc na_ptr.ptna_nm).num_rx_rings ≤ w.sc.num_rings) :
    ∃ w' r, ptnet_nm_register K H w na_ptr.ptna_nm false = .ok (w', r) ∧
      flags_enabled w na_ptr.ptna_nm
        (exit_flags (w.with_regifs (w.sc.backend_regifs - 1)) na_ptr.ptna_nm) ∧
      (w'.C = if w.sc.backend_regifs = 1 then
          H.on_write (w.trace ++ [Ev.bus_write_4 Reg.PTCTL K.NET_PARAVIRT_PTCTL_UNREGIF])
            (exit_flags (w.with_regifs (w.sc.backend_regifs - 1)) na_ptr.ptna_nm)
        else exit_flags (w.with_regifs (w.sc.backend_regifs - 1)) na_ptr.ptna_nm) ∧
      ((w.sc.backend_regifs = 1 →
          host_keeps_flags H
            (w.trace ++ [Ev.bus_write_4 Reg.PTCTL K.NET_PARAVIRT_PTCTL_UNREGIF])
            (exit_flags (w.with_regifs (w.sc.backend_regifs - 1)) na_ptr.ptna_nm)) →
        flags_enabled w na_ptr.ptna_nm w'.C) := by
  obtain ⟨w', r, hcall, _, hlast, _⟩ := register_off_cases K H w na_ptr.ptna_nm hatt hlay
  obtain ⟨_, hC⟩ := hlast ⟨rfl, hfd⟩
  have hfl : flags_enabled w na_ptr.ptna_nm
      (exit_flags (w.with_regifs (w.sc.backend_regifs - 1)) na_ptr.ptna_nm) :=
    exit_flags_layout (w.with_regifs (w.sc.backend_regifs - 1)) na_ptr.ptna_nm hlay htx hrx
  refine ⟨w', r, hcall, hfl, hC, fun hk => ?_⟩
  rw [hC]
  by_cases h1 : w.sc.backend_regifs = 1
  · rw [if_pos h1]
    have hk1 := hk h1
    constructor
    · intro i hi
      rw [(hk1 i).2]
      exact hfl.1 i hi
    · intro i hi
      rw [(hk1 _).2]
      exact hfl.2 i hi
  · rw [if_neg h1]
    exact hfl

/-- C8 on the sample driver with one client registered and both flags cleared, with a host
that answers 7 to UNREGIF. -/
theorem C8_witness :
    ((registered_sample.with_csb (fun _ => ⟨5, 5, 5, 12, 0, 0⟩)).attached) ∧
    (na_get (registered_sample.with_csb (fun _ => ⟨5, 5, 5, 12, 0, 0⟩)).sc
      na_ptr.ptna_nm).active_fds = 0 ∧
    ∃ w' r, ptnet_nm_register K0 (host_sample 2 2 7)
        (registered_sample.with_csb (fun _ => ⟨5, 5, 5, 12, 0, 0⟩)) na_ptr.ptna_nm false
        = .ok (w', r) ∧
      flags_enabled (registered_sample.with_csb (fun _ => ⟨5, 5, 5, 12, 0, 0⟩))
        na_ptr.ptna_nm w'.C :=
  ⟨by decide, by decide,
    match C8_exit_fixup K0 (host_sample 2 2 7)
      (registered_sample.with_csb (fun _ => ⟨5, 5, 5, 12, 0, 0⟩))
      (by decide) (by decide) (by decide) (by decide) (by decide) with
    | ⟨w', r, hcall, _, _, hkeep⟩ => ⟨w', r, hcall, hkeep (fun _ _ => ⟨rfl, rfl⟩)⟩⟩

/-! ## Attach and detach: the events only grow -/

theorem irqs_fini_one_grows (w : World) (i : Nat) (tr : List Ev) (h : tr <+: w.trace) :
    tr <+: events_of (irqs_fini_one w i) := by
  unfold irqs_fini_one
  cases hq : w.sc.queues with
  | none => exact h
  | some q =>
    simp only
    by_cases hc : (q i).cookie = true <;> simp only [hc, if_true, if_false, Bool.false_eq_true]
    · split
      · exact h.trans ((List.prefix_append _ _).trans (List.prefix_append _ _))
      · exact h.trans (List.prefix_append _ _)
    · split
      · exact h.trans (List.prefix_append _ _)
      · exact h

theorem irqs_fini_loop_grows (n : Nat) :
    ∀ (w : World) (tr : List Ev), tr <+: w.trace → tr <+: events_of (irqs_fini_loop n w) := by
  induction n with
  | zero => intro w tr h; exact h
  | succ n ih =>
    intro w tr h
    have h1 := ih w tr h
    simp only [irqs_fini_loop, bind, Except.bind]
    cases hr : irqs_fini_loop n w with
    | error c => rw [hr] at h1; exact h1
    | ok w1 =>
      rw [hr] at h1
      exact irqs_fini_one_grows w1 n tr h1

theorem bus_write_4_grows (H : Host) (w : World) (r : Reg) (v : Nat) (tr : List Ev)
    (h : tr <+: w.trace) : tr <+: (bus_write_4 H w r v).trace :=
  h.trans (List.prefix_append _ _)

theorem bus_read_4_grows (H : Host) (w : World) (r : Reg) (tr : List Ev)
    (h : tr <+: w.trace) : tr <+: (bus_read_4 H w r).1.trace :=
  h.trans (List.prefix_append _ _)

theorem ptnet_irqs_fini_grows (K : Hdr) (H : Host) (w : World) (tr : List Ev)
    (h : tr <+: w.trace) : tr <+: events_of (ptnet_irqs_fini K H w) := by
  have h1 := irqs_fini_loop_grows w.sc.num_rings
    (bus_write_4 H w Reg.CTRL K.PTNET_CTRL_IRQFINI) tr (bus_write_4_grows H w _ _ tr h)
  simp only [ptnet_irqs_fini, bind, Except.bind]
  cases hr : irqs_fini_loop w.sc.num_rings (bus_write_4 H w Reg.CTRL K.PTNET_CTRL_IRQFINI) with
  | error c => rw [hr] at h1; exact h1
  | ok w1 =>
    rw [hr] at h1
    simp only
    split
    · exact h1.trans (List.prefix_append _ _)
    · exact h1

theorem detach_blocks_grows (H : Host) (x : World) (tr : List Ev) (h : tr <+: x.trace) :
    tr <+: (detach_lock (detach_iomem (detach_queues (detach_csb H x)))).trace := by
  have a1 : tr <+: (detach_csb H x).trace := by
    unfold detach_csb
    split
    · exact (bus_write_4_grows H _ _ _ tr (bus_write_4_grows H x _ _ tr h)).trans
        (List.prefix_append _ _)
    · exact h
  have a2 : tr <+: (detach_queues (detach_csb H x)).trace := by
    unfold detach_queues
    split
    · exact a1.trans (List.prefix_append _ _)
    · exact a1
  have a3 : tr <+: (detach_iomem (detach_queues (detach_csb H x))).trace := by
    unfold detach_iomem
    split
    · exact a2.trans (List.prefix_append _ _)
    · exact a2
  exact a3.trans (List.prefix_append _ _)

theorem detach_ifp_grows (w : World) (tr : List Ev) (h : tr <+: w.trace) :
    tr <+: (detach_ifp w).trace := by
  unfold detach_ifp
  split
  · exact h.trans (List.prefix_append _ _)
  · exact h

theorem ptnet_detach_grows (K : Hdr) (H : Host) (w : World) (tr : List Ev)
    (h : tr <+: w.trace) : tr <+: events_of (ptnet_detach K H w) := by
  have h1 := ptnet_irqs_fini_grows K H _ tr (detach_ifp_grows w tr h)
  simp only [ptnet_detach, bind, Except.bind]
  cases hr : ptnet_irqs_fini K H (detach_ifp w) with
  | error c => rw [hr] at h1; exact h1
  | ok w1 =>
    rw [hr] at h1
    exact detach_blocks_grows H w1 tr h1

theorem irqs_init_one_grows (E : Env) (ntx : Nat) (err : Int) (w : World) (i : Nat)
    (tr : List Ev) (h : tr <+: w.trace) :
    extends_to tr (irqs_init_one E ntx err w i) := by
  unfold irqs_init_one
  cases hq : w.sc.queues with
  | none => exact h
  | some q =>
    simp only
    split
    · split
      · exact h.trans (List.prefix_append _ _)
      · exact h.trans ((List.prefix_append _ _).trans (List.prefix_append _ _))
    · exact h

theorem irqs_init_loop_grows (E : Env) (ntx : Nat) (n : Nat) :
    ∀ (w : World) (tr : List Ev), tr <+: w.trace →
      extends_to tr (irqs_init_loop E ntx n w) := by
  induction n with
  | zero => intro w tr h; exact h
  | succ n ih =>
    intro w tr h
    have h1 := ih w tr h
    simp only [irqs_init_loop, bind, Except.bind]
    cases hr : irqs_init_loop E ntx n w with
    | error c => rw [hr] at h1; exact h1
    | ok r =>
      rw [hr] at h1
      simp only
      cases hr2 : r.2 with
      | some e => exact h1
      | none => exact irqs_init_one_grows E ntx 0 r.1 n tr h1

theorem fini_then_return_grows (K : Hdr) (H : Host) (w : World) (err : Int) (tr : List Ev)
    (h : tr <+: w.trace) :
    extends_to tr (ptnet_irqs_fini K H w >>= fun w1 => Except.ok (w1, err)) := by
  have h1 := ptnet_irqs_fini_grows K H w tr h
  simp only [bind, Except.bind]
  cases hr : ptnet_irqs_fini K H w with
  | error c => rw [hr] at h1; exact h1
  | ok w1 => rw [hr] at h1; exact h1

theorem ptnet_irqs_init_grows (K : Hdr) (H : Host) (E : Env) (w : World) (tr : List Ev)
    (h : tr <+: w.trace) : extends_to tr (ptnet_irqs_init K H E w) := by
  have hrd := bus_read_4_grows H w Reg.NUM_TX_RINGS tr h
  unfold ptnet_irqs_init
  simp only
  split
  · exact hrd
  · have hm : tr <+: (bus_read_4 H w Reg.NUM_TX_RINGS).1.trace ++ [Ev.alloc_msix_mem] :=
      hrd.trans (List.prefix_append _ _)
    split
    · exact fini_then_return_grows K H _ _ tr hm
    · split
      · exact fini_then_return_grows K H _ _ tr hm
      · have hl := irqs_init_loop_grows E (bus_read_4 H w Reg.NUM_TX_RINGS).2
          (E.alloc_msix (toInt32 w.sc.num_rings)).2.toNat
          (World.log { sc := { (bus_read_4 H w Reg.NUM_TX_RINGS).1.sc with msix_mem := true },
                       trace := (bus_read_4 H w Reg.NUM_TX_RINGS).1.trace ++ [Ev.alloc_msix_mem] }
            (Ev.alloc_msix (E.alloc_msix (toInt32 w.sc.num_rings)).2)) tr
          (hm.trans (List.prefix_append _ _))
        simp only [bind, Except.bind]
        cases hr : irqs_init_loop E (bus_read_4 H w Reg.NUM_TX_RINGS).2
          (E.alloc_msix (toInt32 w.sc.num_rings)).2.toNat
          (World.log { sc := { (bus_read_4 H w Reg.NUM_TX_RINGS).1.sc with msix_mem := true },
                       trace := (bus_read_4 H w Reg.NUM_TX_RINGS).1.trace ++ [Ev.alloc_msix_mem] }
            (Ev.alloc_msix (E.alloc_msix (toInt32 w.sc.num_rings)).2)) with
        | error c => rw [hr] at hl; exact hl
        | ok l =>
          rw [hr] at hl
          simp only
          cases hl2 : l.2 with
          | some e => exact fini_then_return_grows K H _ _ tr hl
          | none => exact bus_write_4_grows H _ _ _ tr hl

theorem detach_then_return_grows (K : Hdr) (H : Host) (w : World) (err : Int) (tr : List Ev)
    (h : tr <+: w.trace) :
    extends_to tr (ptnet_detach K H w >>= fun w1 => Except.ok (w1, err)) := by
  have h1 := ptnet_detach_grows K H w tr h
  simp only [bind, Except.bind]
  cases hr : ptnet_detach K H w with
  | error c => rw [hr] at h1; exact h1
  | ok w1 => rw [hr] at h1; exact h1

theorem attach_finish_grows (H : Host) (w : World) (ntx nrx : Nat) (tr : List Ev)
    (h : tr <+: w.trace) : tr <+: (attach_finish H w ntx nrx).trace := by
  unfold attach_finish
  simp only [bus_read_4]
  exact h.trans ((List.prefix_append _ _).trans ((List.prefix_append _ _).trans
    ((List.prefix_append _ _).trans ((List.prefix_append _ _).trans
      ((List.prefix_append _ _).trans (List.prefix_append _ _))))))

theorem extends_to_outcome {tr : List Ev} {r : Except Crash (World × Int)}
    (h : extends_to tr r) : tr <+: (outcome r).2 := by
  cases r <;> exact h

theorem paddr_halves (p : Nat) :
    (((p % 2 ^ 64) >>> 32) &&& 0xffffffff) * 2 ^ 32 + ((p % 2 ^ 64) &&& 0xffffffff)
      = p % 2 ^ 64 := by
  have hlt : p % 2 ^ 64 < 2 ^ 64 := Nat.mod_lt _ (by norm_num)
  have h1 : ∀ x : Nat, x &&& 0xffffffff = x % 2 ^ 32 := by
    intro x
    have := Nat.and_pow_two_sub_one_eq_mod x 32
    norm_num at this ⊢
    exact this
  rw [h1, h1, Nat.shiftRight_eq_div_pow]
  have h2 : p % 2 ^ 64 / 2 ^ 32 < 2 ^ 32 := by
    apply Nat.div_lt_of_lt_mul
    norm_num at hlt ⊢
    exact hlt
  rw [Nat.mod_eq_of_lt h2]
  have := Nat.div_add_mod (p % 2 ^ 64) (2 ^ 32)
  omega

theorem attach_err_path_grows (K : Hdr) (H : Host) (w : World) (err : Int) (tr : List Ev)
    (h : tr <+: w.trace) : extends_to tr (attach_err_path K H w err) :=
  detach_then_return_grows K H w err tr h

theorem attach_after_csb_grows (K : Hdr) (H : Host) (E : Env) (w : World) (tr : List Ev)
    (h : tr <+: w.trace) : extends_to tr (attach_after_csb K H E w) := by
  have h2 : tr <+: (bus_read_4 H (bus_read_4 H w Reg.NUM_TX_RINGS).1 Reg.NUM_RX_RINGS).1.trace :=
    bus_read_4_grows H _ _ tr (bus_read_4_grows H w _ tr h)
  unfold attach_after_csb
  simp only
  split
  · exact attach_err_path_grows K H _ _ tr h2
  · have hq : tr <+: (attach_queues
        { (bus_read_4 H (bus_read_4 H w Reg.NUM_TX_RINGS).1 Reg.NUM_RX_RINGS).1 with
          sc := { (bus_read_4 H (bus_read_4 H w Reg.NUM_TX_RINGS).1 Reg.NUM_RX_RINGS).1.sc with
            num_rings := ((bus_read_4 H w Reg.NUM_TX_RINGS).2 +
              (bus_read_4 H (bus_read_4 H w Reg.NUM_TX_RINGS).1 Reg.NUM_RX_RINGS).2) % 2 ^ 32 } }
        (bus_read_4 H w Reg.NUM_TX_RINGS).2).trace := h2.trans (List.prefix_append _ _)
    have hp := ptnet_irqs_init_grows K H E _ tr hq
    simp only [bind, Except.bind]
    cases hr : ptnet_irqs_init K H E (attach_queues
        { (bus_read_4 H (bus_read_4 H w Reg.NUM_TX_RINGS).1 Reg.NUM_RX_RINGS).1 with
          sc := { (bus_read_4 H (bus_read_4 H w Reg.NUM_TX_RINGS).1 Reg.NUM_RX_RINGS).1.sc with
            num_rings := ((bus_read_4 H w Reg.NUM_TX_RINGS).2 +
              (bus_read_4 H (bus_read_4 H w Reg.NUM_TX_RINGS).1 Reg.NUM_RX_RINGS).2) % 2 ^ 32 } }
        (bus_read_4 H w Reg.NUM_TX_RINGS).2) with
    | error c => rw [hr] at hp; exact hp
    | ok r =>
      rw [hr] at hp
      simp only
      split
      · exact attach_err_path_grows K H _ _ tr hp
      · split
        · exact attach_err_path_grows K H _ _ tr hp
        · exact attach_finish_grows H _ _ _ _ (hp.trans (List.prefix_append _ _))

/-- Every run of `ptnet_attach` that reaches the CSB installation writes the high half of
the physical address to CSBBAH and then the low half to CSBBAL, and before them only
PTFEAT: the events of the run, however it ends, start with those below.  The two halves
make up the physical address. -/
theorem attach_installs_csb_high_then_low (K : Hdr) (H : Host) (E : Env) (tr : List Ev)
    (p : Nat) (hio : E.iomem_ok = true)
    (hfeat : (H.reg_read (tr ++ [Ev.alloc_iomem] ++
        [Ev.bus_write_4 Reg.PTFEAT K.NET_PTN_FEATURES_BASE]) Reg.PTFEAT % 2 ^ 32)
        &&& K.NET_PTN_FEATURES_BASE ≠ 0)
    (hcsb : E.csb_alloc = some p) :
    (tr ++ [Ev.alloc_iomem] ++ [Ev.bus_write_4 Reg.PTFEAT K.NET_PTN_FEATURES_BASE] ++
        [Ev.bus_read_4 Reg.PTFEAT (H.reg_read (tr ++ [Ev.alloc_iomem] ++
          [Ev.bus_write_4 Reg.PTFEAT K.NET_PTN_FEATURES_BASE]) Reg.PTFEAT % 2 ^ 32)] ++
        [Ev.alloc_csb] ++
        [Ev.bus_write_4 Reg.CSBBAH (((p % 2 ^ 64) >>> 32) &&& 0xffffffff)] ++
        [Ev.bus_write_4 Reg.CSBBAL ((p % 2 ^ 64) &&& 0xffffffff)])
      <+: (outcome (ptnet_attach K H E tr)).2 ∧
    (((p % 2 ^ 64) >>> 32) &&& 0xffffffff) * 2 ^ 32 + ((p % 2 ^ 64) &&& 0xffffffff)
      = p % 2 ^ 64 := by
  refine ⟨extends_to_outcome ?_, paddr_halves p⟩
  unfold ptnet_attach
  simp only [hio, Bool.not_true, Bool.false_eq_true, if_false, bus_read_4, bus_write_4, hcsb]
  rw [if_neg hfeat]
  exact attach_after_csb_grows K H E _ _ (List.prefix_refl _)

/-! ## Detach: the CSB address registers -/

theorem quiet_step_refl (w : World) : quiet_step w w :=
  ⟨[], by simp, by simp, rfl, rfl, rfl, rfl, rfl⟩

theorem quiet_step_trans {a b c : World} (h1 : quiet_step a b) (h2 : quiet_step b c) :
    quiet_step a c := by
  obtain ⟨e1, t1, q1, c1, u1, i1, m1, n1⟩ := h1
  obtain ⟨e2, t2, q2, c2, u2, i2, m2, n2⟩ := h2
  refine ⟨e1 ++ e2, by rw [t2, t1, List.append_assoc], ?_, c2.trans c1, u2.trans u1,
    i2.trans i1, m2.trans m1, n2.trans n1⟩
  intro e he
  rcases List.mem_append.1 he with h | h
  · exact q1 e h
  · exact q2 e h

theorem irqs_fini_one_quiet (w : World) (i : Nat) (hq : w.sc.queues.isSome = true) :
    ∃ w1, irqs_fini_one w i = .ok w1 ∧ quiet_step w w1 := by
  unfold irqs_fini_one
  cases hqq : w.sc.queues with
  | none => rw [hqq] at hq; cases hq
  | some q =>
    simp only
    by_cases hc : (q i).cookie = true <;> simp only [hc, if_true, if_false, Bool.false_eq_true]
    · split
      · refine ⟨_, rfl, [Ev.teardown_intr i, Ev.release_irq i], by simp, ?_, rfl, ?_, rfl, rfl, rfl⟩
        · intro e he
          simp only [List.mem_cons, List.mem_singleton, List.not_mem_nil, or_false] at he
          rcases he with h | h <;> subst h <;> rfl
        · simp [hqq]
      · refine ⟨_, rfl, [Ev.teardown_intr i], rfl, ?_, rfl, ?_, rfl, rfl, rfl⟩
        · intro e he
          simp only [List.mem_singleton] at he
          subst he; rfl
        · simp [hqq]
    · split
      · refine ⟨_, rfl, [Ev.release_irq i], rfl, ?_, rfl, ?_, rfl, rfl, rfl⟩
        · intro e he
          simp only [List.mem_singleton] at he
          subst he; rfl
        · simp [hqq]
      · exact ⟨w, rfl, quiet_step_refl w⟩

theorem irqs_fini_loop_quiet (n : Nat) :
    ∀ w : World, w.sc.queues.isSome = true →
      ∃ w1, irqs_fini_loop n w = .ok w1 ∧ quiet_step w w1 := by
  induction n with
  | zero => intro w _; exact ⟨w, rfl, quiet_step_refl w⟩
  | succ n ih =>
    intro w hq
    obtain ⟨w1, h1, s1⟩ := ih w hq
    have hq1 : w1.sc.queues.isSome = true := by
      obtain ⟨_, _, _, _, u, _⟩ := s1
      rw [u]; exact hq
    obtain ⟨w2, h2, s2⟩ := irqs_fini_one_quiet w1 n hq1
    refine ⟨w2, ?_, quiet_step_trans s1 s2⟩
    simp only [irqs_fini_loop, h1, bind, Except.bind]
    exact h2

theorem bus_write_4_quiet (H : Host) (w : World) (r : Reg) (v : Nat)
    (hr : r ≠ Reg.CSBBAH ∧ r ≠ Reg.CSBBAL) : quiet_step w (bus_write_4 H w r v) := by
  refine ⟨[Ev.bus_write_4 r v], rfl, ?_, ?_, rfl, rfl, rfl, rfl⟩
  · intro e he
    simp only [List.mem_singleton] at he
    subst he
    cases r <;> simp_all [is_csb_addr_write]
  · simp [bus_write_4]

/-- The function `ptnet_irqs_fini` returns when the queue array is allocated or there is no
ring, and then it has written neither CSB address register. -/
theorem ptnet_irqs_fini_quiet (K : Hdr) (H : Host) (w : World)
    (hq : w.sc.queues.isSome = true ∨ w.sc.num_rings = 0) :
    ∃ w1, ptnet_irqs_fini K H w = .ok w1 ∧ quiet_step w w1 := by
  have hw := bus_write_4_quiet H w Reg.CTRL K.PTNET_CTRL_IRQFINI ⟨by decide, by decide⟩
  have hloop : ∃ w1, irqs_fini_loop w.sc.num_rings
      (bus_write_4 H w Reg.CTRL K.PTNET_CTRL_IRQFINI) = .ok w1 ∧
      quiet_step (bus_write_4 H w Reg.CTRL K.PTNET_CTRL_IRQFINI) w1 := by
    rcases hq with h | h
    · exact irqs_fini_loop_quiet _ _ h
    · rw [h]
      exact ⟨_, rfl, quiet_step_refl _⟩
  obtain ⟨w1, h1, s1⟩ := hloop
  simp only [ptnet_irqs_fini, h1, bind, Except.bind]
  split
  · refine ⟨_, rfl, quiet_step_trans (quiet_step_trans hw s1) ?_⟩
    refine ⟨[Ev.release_msi, Ev.release_msix_mem], rfl, ?_, rfl, rfl, rfl, rfl, rfl⟩
    intro e he
    simp only [List.mem_cons, List.mem_singleton, List.not_mem_nil, or_false] at he
    rcases he with h | h <;> subst h <;> rfl
  · exact ⟨w1, rfl, quiet_step_trans hw s1⟩

theorem detach_ifp_quiet (w : World) : quiet_step w (detach_ifp w) := by
  unfold detach_ifp
  split
  · refine ⟨[Ev.if_free], rfl, ?_, rfl, rfl, rfl, rfl, rfl⟩
    intro e he
    simp only [List.mem_singleton] at he
    subst he; rfl
  · exact quiet_step_refl w

/-- The blocks of `ptnet_detach` after the CSB block append no write to a CSB address
register. -/
theorem detach_tail (x : World) :
    ∃ post, (detach_lock (detach_iomem (detach_queues x))).trace = x.trace ++ post ∧
      (∀ e, e ∈ post → is_csb_addr_write e = false) := by
  have a1 : ∃ p1, (detach_queues x).trace = x.trace ++ p1 ∧
      (∀ e, e ∈ p1 → is_csb_addr_write e = false) := by
    unfold detach_queues
    split
    · refine ⟨[Ev.free_queues], rfl, ?_⟩
      intro e he
      simp only [List.mem_singleton] at he
      subst he; rfl
    · exact ⟨[], by simp, by simp⟩
  have a2 : ∀ y : World, ∃ p2, (detach_iomem y).trace = y.trace ++ p2 ∧
      (∀ e, e ∈ p2 → is_csb_addr_write e = false) := by
    intro y
    unfold detach_iomem
    split
    · refine ⟨[Ev.release_iomem], rfl, ?_⟩
      intro e he
      simp only [List.mem_singleton] at he
      subst he; rfl
    · exact ⟨[], by simp, by simp⟩
  obtain ⟨p1, t1, q1⟩ := a1
  obtain ⟨p2, t2, q2⟩ := a2 (detach_queues x)
  refine ⟨p1 ++ p2 ++ [Ev.mtx_destroy (detach_iomem (detach_queues x)).sc.core_mtx], ?_, ?_⟩
  · show (detach_iomem (detach_queues x)).trace ++ _ = _
    rw [t2, t1]
    simp only [List.append_assoc]
  · intro e he
    rcases List.mem_append.1 he with h | h
    · rcases List.mem_append.1 h with h | h
      · exact q1 e h
      · exact q2 e h
    · simp only [List.mem_singleton] at h
      subst h; rfl

/-- A detach with an installed CSB that gets past `ptnet_irqs_fini` (the queue array is
allocated, or there is no ring) writes 0 to CSBBAH, then 0 to CSBBAL, then releases the
CSB; it writes to neither register before or after. -/
theorem detach_clears_csb_high_then_low (K : Hdr) (H : Host) (w : World)
    (hcsb : w.sc.csb.isSome = true)
    (hq : w.sc.queues.isSome = true ∨ w.sc.num_rings = 0) :
    ∃ w' pre post, ptnet_detach K H w = .ok w' ∧
      w'.trace = w.trace ++ pre ++
        [Ev.bus_write_4 Reg.CSBBAH 0, Ev.bus_write_4 Reg.CSBBAL 0, Ev.free_csb] ++ post ∧
      (∀ e, e ∈ pre → is_csb_addr_write e = false) ∧
      (∀ e, e ∈ post → is_csb_addr_write e = false) := by
  have s0 := detach_ifp_quiet w
  have hq0 : (detach_ifp w).sc.queues.isSome = true ∨ (detach_ifp w).sc.num_rings = 0 := by
    obtain ⟨_, _, _, _, u, _, _, n⟩ := s0
    rw [u, n]; exact hq
  obtain ⟨w1, h1, s1⟩ := ptnet_irqs_fini_quiet K H _ hq0
  obtain ⟨pre, htr, hpre, hc, _⟩ := quiet_step_trans s0 s1
  have hc1 : w1.sc.csb.isSome = true := by rw [hc]; exact hcsb
  obtain ⟨post, hpost, hquiet⟩ := detach_tail (detach_csb H w1)
  refine ⟨detach_lock (detach_iomem (detach_queues (detach_csb H w1))), pre, post, ?_, ?_,
    hpre, hquiet⟩
  · simp only [ptnet_detach, h1, bind, Except.bind]
  · rw [hpost]
    simp only [detach_csb, hc1, if_true, bus_write_4, htr, List.append_assoc, List.cons_append,
      List.nil_append]

/-- A detach with no CSB allocated that gets past `ptnet_irqs_fini` writes neither CSB
address register. -/
theorem detach_without_csb_writes_neither (K : Hdr) (H : Host) (w : World)
    (hcsb : w.sc.csb.isSome = false)
    (hq : w.sc.queues.isSome = true ∨ w.sc.num_rings = 0) :
    ∃ w' evs, ptnet_detach K H w = .ok w' ∧ w'.trace = w.trace ++ evs ∧
      (∀ e, e ∈ evs → is_csb_addr_write e = false) := by
  have s0 := detach_ifp_quiet w
  have hq0 : (detach_ifp w).sc.queues.isSome = true ∨ (detach_ifp w).sc.num_rings = 0 := by
    obtain ⟨_, _, _, _, u, _, _, n⟩ := s0
    rw [u, n]; exact hq
  obtain ⟨w1, h1, s1⟩ := ptnet_irqs_fini_quiet K H _ hq0
  obtain ⟨pre, htr, hpre, hc, _⟩ := quiet_step_trans s0 s1
  have hc1 : w1.sc.csb.isSome = false := by rw [hc]; exact hcsb
  have hcsb1 : detach_csb H w1 = w1 := by
    simp only [detach_csb, hc1, Bool.false_eq_true, if_false]
  obtain ⟨post, hpost, hquiet⟩ := detach_tail (detach_csb H w1)
  refine ⟨detach_lock (detach_iomem (detach_queues (detach_csb H w1))), pre ++ post, ?_, ?_, ?_⟩
  · simp only [ptnet_detach, h1, bind, Except.bind]
  · rw [hpost, hcsb1, htr, List.append_assoc]
  · intro e he
    rcases List.mem_append.1 he with h | h
    · exact hpre e h
    · exact hquiet e h

/-! ## The state a successful attach leaves -/

theorem same_layout_refl (w : World) : same_layout w w :=
  ⟨rfl, rfl, fun _ => rfl, rfl, rfl⟩

theorem same_layout_trans {a b c : World} (h1 : same_layout a b) (h2 : same_layout b c) :
    same_layout a c :=
  ⟨h2.1.trans h1.1, h2.2.1.trans h1.2.1, fun j => (h2.2.2.1 j).trans (h1.2.2.1 j),
    h2.2.2.2.1.trans h1.2.2.2.1, h2.2.2.2.2.trans h1.2.2.2.2⟩

theorem same_layout_queues (w : World) (q q' : Nat → ptnet_queue) (tr : List Ev)
    (hq : w.sc.queues = some q) (hp : ∀ j, (q' j).ptring = (q j).ptring) :
    same_layout w { sc := { w.sc with queues := some q' }, trace := tr } := by
  refine ⟨by simp [hq], rfl, ?_, rfl, rfl⟩
  intro j
  simp only [World.Q, hq]
  exact hp j

theorem update_ptring (q : Nat → ptnet_queue) (i : Nat) (v : ptnet_queue) (j : Nat)
    (hv : v.ptring = (q i).ptring) :
    (Function.update q i v j).ptring = (q j).ptring := by
  by_cases h : j = i
  · subst h; rw [Function.update_same, hv]
  · rw [Function.update_noteq h]

theorem update_update_ptring (q : Nat → ptnet_queue) (i : Nat) (v v' : ptnet_queue) (j : Nat)
    (hv : v.ptring = (q i).ptring) (hv' : v'.ptring = (q i).ptring) :
    (Function.update (Function.update q i v) i v' j).ptring = (q j).ptring := by
  rw [update_ptring (Function.update q i v) i v' j (by rw [Function.update_same, hv', hv]),
    update_ptring q i v j hv]

theorem same_layout_trace (w : World) (tr : List Ev) :
    same_layout w { w with trace := tr } :=
  ⟨rfl, rfl, fun _ => rfl, rfl, rfl⟩

theorem bus_write_4_layout (H : Host) (w : World) (r : Reg) (v : Nat) :
    same_layout w (bus_write_4 H w r v) := by
  refine ⟨rfl, ?_, fun _ => rfl, rfl, rfl⟩
  simp [bus_write_4]

theorem irqs_fini_one_layout (w w1 : World) (i : Nat) (h : irqs_fini_one w i = .ok w1) :
    same_layout w w1 := by
  unfold irqs_fini_one at h
  cases hq : w.sc.queues with
  | none => rw [hq] at h; cases h
  | some q =>
    rw [hq] at h
    simp only at h
    by_cases hc : (q i).cookie = true <;>
      simp only [hc, if_true, if_false, Bool.false_eq_true] at h
    · split at h
      · injection h with h
        subst h
        exact same_layout_queues w q _ _ hq (fun j => by
          rw [Function.update_same]
          exact update_update_ptring q i _ _ j rfl rfl)
      · injection h with h
        subst h
        exact same_layout_queues w q _ _ hq (fun j => update_ptring q i _ j rfl)
    · split at h
      · injection h with h
        subst h
        exact same_layout_queues w q _ _ hq (fun j => update_ptring q i _ j rfl)
      · injection h with h
        subst h
        exact same_layout_refl w

theorem irqs_fini_loop_layout (n : Nat) :
    ∀ w w1 : World, irqs_fini_loop n w = .ok w1 → same_layout w w1 := by
  induction n with
  | zero =>
    intro w w1 h
    injection h with h
    subst h
    exact same_layout_refl w
  | succ n ih =>
    intro w w1 h
    simp only [irqs_fini_loop, bind, Except.bind] at h
    cases hr : irqs_fini_loop n w with
    | error c => rw [hr] at h; cases h
    | ok w0 =>
      rw [hr] at h
      exact same_layout_trans (ih w w0 hr) (irqs_fini_one_layout w0 w1 n h)

theorem ptnet_irqs_fini_layout (K : Hdr) (H : Host) (w w1 : World)
    (h : ptnet_irqs_fini K H w = .ok w1) : same_layout w w1 := by
  simp only [ptnet_irqs_fini, bind, Except.bind] at h
  cases hr : irqs_fini_loop w.sc.num_rings (bus_write_4 H w Reg.CTRL K.PTNET_CTRL_IRQFINI) with
  | error c => rw [hr] at h; cases h
  | ok w0 =>
    rw [hr] at h
    have h0 := same_layout_trans (bus_write_4_layout H w _ _) (irqs_fini_loop_layout _ _ _ hr)
    simp only at h
    split at h
    · injection h with h
      subst h
      exact same_layout_trans h0 ⟨rfl, rfl, fun _ => rfl, rfl, rfl⟩
    · injection h with h
      subst h
      exact h0

theorem irqs_init_one_layout (E : Env) (ntx : Nat) (err : Int) (w : World) (i : Nat)
    (r : World × Option Int) (h : irqs_init_one E ntx err w i = .ok r) :
    same_layout w r.1 := by
  unfold irqs_init_one at h
  cases hq : w.sc.queues with
  | none => rw [hq] at h; cases h
  | some q =>
    rw [hq] at h
    simp only at h
    split at h
    · split at h
      · injection h with h
        subst h
        exact same_layout_queues w q _ _ hq (fun j => update_ptring q i _ j rfl)
      · injection h with h
        subst h
        exact same_layout_queues w q _ _ hq (fun j => by
          rw [Function.update_same]
          exact update_update_ptring q i _ _ j rfl rfl)
    · injection h with h
      subst h
      exact same_layout_queues w q _ _ hq (fun j => update_ptring q i _ j rfl)

theorem irqs_init_loop_layout (E : Env) (ntx : Nat) (n : Nat) :
    ∀ (w : World) (r : World × Option Int), irqs_init_loop E ntx n w = .ok r →
      same_layout w r.1 := by
  induction n with
  | zero =>
    intro w r h
    injection h with h
    subst h
    exact same_layout_refl w
  | succ n ih =>
    intro w r h
    simp only [irqs_init_loop, bind, Except.bind] at h
    cases hr : irqs_init_loop E ntx n w with
    | error c => rw [hr] at h; cases h
    | ok r0 =>
      rw [hr] at h
      simp only at h
      cases h2 : r0.2 with
      | some e =>
        rw [h2] at h
        injection h with h
        subst h
        exact ih w r0 hr
      | none =>
        rw [h2] at h
        exact same_layout_trans (ih w r0 hr) (irqs_init_one_layout E ntx 0 r0.1 n r h)

theorem bind_ok_inv {α β : Type} (x : Except Crash α) (f : α → β) (r : β)
    (h : (x >>= fun a => Except.ok (f a)) = .ok r) : ∃ a, x = .ok a ∧ r = f a := by
  cases x with
  | error c => cases h
  | ok a =>
    simp only [bind, Except.bind] at h
    injection h with h
    exact ⟨a, rfl, h.symm⟩

theorem fini_then_return_layout (K : Hdr) (H : Host) (w : World) (err : Int)
    (r : World × Int)
    (h : (ptnet_irqs_fini K H w >>= fun w1 => Except.ok (w1, err)) = .ok r) :
    same_layout w r.1 ∧ r.2 = err := by
  obtain ⟨w1, h1, hr⟩ := bind_ok_inv _ _ _ h
  subst hr
  exact ⟨ptnet_irqs_fini_layout K H w w1 h1, rfl⟩

theorem ptnet_irqs_init_layout (K : Hdr) (H : Host) (E : Env) (w : World) (r : World × Int)
    (h : ptnet_irqs_init K H E w = .ok r) : same_layout w r.1 := by
  unfold ptnet_irqs_init at h
  simp only at h
  have hrd : same_layout w (bus_read_4 H w Reg.NUM_TX_RINGS).1 := same_layout_trace w _
  have hm : same_layout w
      ({ sc := { (bus_read_4 H w Reg.NUM_TX_RINGS).1.sc with msix_mem := true },
         trace := (bus_read_4 H w Reg.NUM_TX_RINGS).1.trace ++ [Ev.alloc_msix_mem] } : World) :=
    ⟨rfl, rfl, fun _ => rfl, rfl, rfl⟩
  split at h
  · injection h with h
    subst h
    exact hrd
  · split at h
    · exact same_layout_trans hm (fini_then_return_layout K H _ _ r h).1
    · split at h
      · exact same_layout_trans hm (fini_then_return_layout K H _ _ r h).1
      · simp only [bind, Except.bind] at h
        split at h
        · cases h
        · rename_i l hl
          have h1 := irqs_init_loop_layout E _ _ _ l hl
          have h0 : same_layout w l.1 :=
            same_layout_trans (same_layout_trans hm (same_layout_trace _ _)) h1
          split at h
          · have h2 := fini_then_return_layout K H l.1 _ r h
            exact same_layout_trans h0 h2.1
          · injection h with h
            subst h
            exact same_layout_trans h0 (bus_write_4_layout H l.1 _ _)

theorem init_queues_ptring (ntx : Nat) (q : Nat → ptnet_queue) (n i : Nat) (hi : i < n) :
    (init_queues ntx n q i).ptring = i := by
  induction n with
  | zero => omega
  | succ n ih =>
    simp only [init_queues]
    by_cases h : i = n
    · subst h; rw [Function.update_same]
    · rw [Function.update_noteq h]
      exact ih (by omega)

theorem attach_err_path_ret (K : Hdr) (H : Host) (w : World) (err : Int) (r : World × Int)
    (h : attach_err_path K H w err = .ok r) : r.2 = err := by
  obtain ⟨w1, _, hr⟩ := bind_ok_inv _ _ _ h
  subst hr
  rfl

theorem attach_finish_state (H : Host) (w : World) (ntx nrx : Nat) :
    same_layout w (attach_finish H w ntx nrx) ∧
    (attach_finish H w ntx nrx).sc.backend_regifs = 0 ∧
    (attach_finish H w ntx nrx).sc.ptna_nm = ⟨ntx, nrx, 0, 0⟩ :=
  ⟨⟨rfl, rfl, fun _ => rfl, rfl, rfl⟩, rfl, rfl⟩

/-- The state a run of `ptnet_attach` that returns 0 leaves: the queue array and the CSB
are allocated, queue `i` points to CSB entry `i` for every `i < num_rings`, `rxqueues`
starts at the number of TX rings of the native adapter, `num_rings` is the (32-bit) sum of
its ring counts, the registration counter is 0 and the native adapter has no active file
descriptor. -/
theorem attach_ok_state (K : Hdr) (H : Host) (E : Env) (tr : List Ev) (w : World)
    (h : ptnet_attach K H E tr = .ok (w, 0)) :
    w.attached ∧ (∀ i, i < w.sc.num_rings → (w.Q i).ptring = i) ∧
    w.sc.rxqueues = w.sc.ptna_nm.num_tx_rings ∧
    w.sc.num_rings = (w.sc.ptna_nm.num_tx_rings + w.sc.ptna_nm.num_rx_rings) % 2 ^ 32 ∧
    w.sc.backend_regifs = 0 ∧ w.sc.ptna_nm.active_fds = 0 := by
  unfold ptnet_attach at h
  simp only at h
  split at h
  · injection h with h
    injection h with _ h2
    cases h2
  · split at h
    · have := attach_err_path_ret K H _ _ _ h
      cases this
    · split at h
      · have := attach_err_path_ret K H _ _ _ h
        cases this
      · rename_i p hp
        unfold attach_after_csb at h
        simp only at h
        split at h
        · have := attach_err_path_ret K H _ _ _ h
          cases this
        · simp only [bind, Except.bind] at h
          split at h
          · cases h
          · rename_i r hr
            have hl := ptnet_irqs_init_layout K H E _ r hr
            split at h
            · rename_i hne
              have := attach_err_path_ret K H _ _ _ h
              exact absurd this.symm hne
            · split at h
              · have := attach_err_path_ret K H _ _ _ h
                cases this
              · injection h with h
                injection h with hw _
                subst hw
                obtain ⟨hq, hc, hpt, hn, hrx⟩ := hl
                refine ⟨⟨?_, ?_⟩, ?_, ?_, ?_, rfl, rfl⟩
                · show r.1.sc.queues.isSome = true
                  rw [hq]; rfl
                · show r.1.sc.csb.isSome = true
                  rw [hc]
                  simp [attach_queues, bus_read_4, bus_write_4]
                · intro i hi
                  show (r.1.Q i).ptring = i
                  rw [hpt]
                  have hi' : i < r.1.sc.num_rings := hi
                  rw [hn] at hi'
                  exact init_queues_ptring _ _ _ i hi'
                · show r.1.sc.rxqueues = _
                  rw [hrx]; rfl
                · show r.1.sc.num_rings = _
                  rw [hn]; rfl

/-- After a run of `ptnet_attach` that returns 0, when the two ring counts do not overflow
32 bits, the native adapter satisfies the bounds the register protocol relies on: its TX
queues end where `rxqueues` starts and its RX queues end at `num_rings`. -/
theorem attach_ok_native_bounds (K : Hdr) (H : Host) (E : Env) (tr : List Ev) (w : World)
    (h : ptnet_attach K H E tr = .ok (w, 0))
    (hsum : w.sc.ptna_nm.num_tx_rings + w.sc.ptna_nm.num_rx_rings < 2 ^ 32) :
    (na_get w.sc na_ptr.ptna_nm).num_tx_rings + (na_get w.sc na_ptr.ptna_nm).num_rx_rings
      = w.sc.num_rings ∧
    (na_get w.sc na_ptr.ptna_nm).num_tx_rings ≤ w.sc.rxqueues ∧
    w.sc.rxqueues + (na_get w.sc na_ptr.ptna_nm).num_rx_rings ≤ w.sc.num_rings ∧
    (na_get w.sc na_ptr.ptna_nm).active_fds = 0 := by
  obtain ⟨_, _, hrx, hn, _, hfd⟩ := attach_ok_state K H E tr w h
  rw [Nat.mod_eq_of_lt hsum] at hn
  simp only [na_get]
  omega

/-! ## C9 and C10: attach and detach at the failure points -/

/-- C9 at the failing input: the host reports one TX and one RX ring and the allocation
of the queue array fails.  `ptnet_attach` has installed the CSB (CSBBAH, then CSBBAL) and
calls `ptnet_detach`, whose `ptnet_irqs_fini` writes IRQFINI to CTRL and then reads
`sc->queues[0]` through the NULL pointer: the run ends there, with no write of 0 to
CSBBAH or CSBBAL and the CSB not released. -/
theorem C9_detach_faults_before_csb_clear :
    outcome (ptnet_attach K0 (host_sample 1 1 0) { env_ok with queues_alloc_ok := false } [])
      = (none,
         [Ev.alloc_iomem, Ev.bus_write_4 Reg.PTFEAT 1, Ev.bus_read_4 Reg.PTFEAT 1,
          Ev.alloc_csb, Ev.bus_write_4 Reg.CSBBAH 1, Ev.bus_write_4 Reg.CSBBAL 0x23456000,
          Ev.bus_read_4 Reg.NUM_TX_RINGS 1, Ev.bus_read_4 Reg.NUM_RX_RINGS 1,
          Ev.bus_write_4 Reg.CTRL K0.PTNET_CTRL_IRQFINI]) ∧
    fault_of (ptnet_attach K0 (host_sample 1 1 0) { env_ok with queues_alloc_ok := false } [])
      = some Fault.null_queues := by
  decide

/-- C10 at the failing inputs.  (1) The allocation of the queue array fails with one TX
and one RX ring: the teardown reads `sc->queues[0]` through the NULL pointer and faults.
(2) The allocation of the interrupt of queue 0 fails: `ptnet_irqs_init` returns the stale
`err = 0` and `ptnet_attach` returns 0.  (3) The base feature is not acknowledged, or
(4) the allocation of the CSB fails: `ptnet_attach` returns the error and releases what
it holds, but the teardown destroys the core lock, which was never initialised. -/
theorem C10_attach_unwind_failures :
    fault_of (ptnet_attach K0 (host_sample 1 1 0) { env_ok with queues_alloc_ok := false } [])
      = some Fault.null_queues ∧
    (outcome (ptnet_attach K0 (host_sample 1 1 0)
      { env_ok with irq_alloc_ok := fun _ => false } [])).1 = some 0 ∧
    outcome (ptnet_attach K0 host_nofeat env_ok [])
      = (some ENXIO,
         [Ev.alloc_iomem, Ev.bus_write_4 Reg.PTFEAT 1, Ev.bus_read_4 Reg.PTFEAT 0,
          Ev.bus_write_4 Reg.CTRL K0.PTNET_CTRL_IRQFINI, Ev.release_iomem,
          Ev.mtx_destroy false]) ∧
    outcome (ptnet_attach K0 (host_sample 1 1 0) { env_ok with csb_alloc := none } [])
      = (some ENOMEM,
         [Ev.alloc_iomem, Ev.bus_write_4 Reg.PTFEAT 1, Ev.bus_read_4 Reg.PTFEAT 1,
          Ev.bus_write_4 Reg.CTRL K0.PTNET_CTRL_IRQFINI, Ev.release_iomem,
          Ev.mtx_destroy false]) := by
  decide

/-! ## C11: what the driver writes into the CSB -/

theorem enable_pure_cursors (w : World) (na : na_ptr) (t : txrx) (f : csb_fld) (v : Nat)
    (c : Nat → ptnet_ring) (j : Nat) :
    (enable_pure w na t f v c j).hwcur = (c j).hwcur ∧
    (enable_pure w na t f v c j).hwtail = (c j).hwtail := by
  unfold enable_pure
  exact (csb_store_pure_cursors w.Q _ f v c j _).2.2

/-- The loop of `csb_notification_enable_all` for the field `guest_need_kick` changes
`host_need_kick` in no CSB entry. -/
theorem csb_store_pure_guest_flag (q : Nat → ptnet_queue) (base : Nat) (v : Nat)
    (c : Nat → ptnet_ring) (j : Nat) :
    ∀ n, (csb_store_pure q base csb_fld.guest_need_kick v n c j).host_need_kick
      = (c j).host_need_kick := by
  intro n
  induction n with
  | zero => rfl
  | succ n ih =>
    simp only [csb_store_pure]
    by_cases hj : j = (q (base + n)).ptring
    · subst hj
      rw [Function.update_same]
      exact ih
    · rw [Function.update_noteq hj]
      exact ih

theorem enable_pure_guest_flag (w : World) (na : na_ptr) (t : txrx) (v : Nat)
    (c : Nat → ptnet_ring) (j : Nat) :
    (enable_pure w na t csb_fld.guest_need_kick v c j).host_need_kick
      = (c j).host_need_kick := by
  unfold enable_pure
  exact csb_store_pure_guest_flag w.Q _ v c j _

theorem init_flags_host_cursors (w : World) (na : na_ptr) (j : Nat) :
    (init_flags w na j).hwcur = (w.C j).hwcur ∧ (init_flags w na j).hwtail = (w.C j).hwtail := by
  unfold init_flags
  obtain ⟨a1, a2⟩ := enable_pure_cursors w na txrx.NR_RX csb_fld.guest_need_kick 1
    (enable_pure w na txrx.NR_RX csb_fld.host_need_kick 1
      (enable_pure w na txrx.NR_TX csb_fld.guest_need_kick 0
        (enable_pure w na txrx.NR_TX csb_fld.host_need_kick 1 w.C))) j
  obtain ⟨b1, b2⟩ := enable_pure_cursors w na txrx.NR_RX csb_fld.host_need_kick 1
    (enable_pure w na txrx.NR_TX csb_fld.guest_need_kick 0
      (enable_pure w na txrx.NR_TX csb_fld.host_need_kick 1 w.C)) j
  obtain ⟨c1, c2⟩ := enable_pure_cursors w na txrx.NR_TX csb_fld.guest_need_kick 0
    (enable_pure w na txrx.NR_TX csb_fld.host_need_kick 1 w.C) j
  obtain ⟨d1, d2⟩ := enable_pure_cursors w na txrx.NR_TX csb_fld.host_need_kick 1 w.C j
  exact ⟨a1.trans (b1.trans (c1.trans d1)), a2.trans (b2.trans (c2.trans d2))⟩

theorem exit_flags_host_fields (w : World) (na : na_ptr) (j : Nat) :
    (exit_flags w na j).hwcur = (w.C j).hwcur ∧ (exit_flags w na j).hwtail = (w.C j).hwtail ∧
    (exit_flags w na j).host_need_kick = (w.C j).host_need_kick := by
  obtain ⟨_, _, h3, h4⟩ := exit_flags_cursors w na j
  refine ⟨h3, h4, ?_⟩
  unfold exit_flags
  rw [enable_pure_guest_flag, enable_pure_guest_flag]

/-- The `!onoff` path of `ptnet_nm_register` up to the UNREGIF test changes `hwcur`,
`hwtail` and `host_need_kick` in no CSB entry. -/
theorem off_head_host_fields (K : Hdr) (w : World) (na : na_ptr) (j : Nat) :
    ((off_head K w na).C j).hwcur = (w.C j).hwcur ∧
    ((off_head K w na).C j).hwtail = (w.C j).hwtail ∧
    ((off_head K w na).C j).host_need_kick = (w.C j).host_need_kick := by
  by_cases hn : na = na_ptr.ptna_nm ∧ (na_get w.sc na).active_fds = 0
  · obtain ⟨hna, hfd⟩ := hn
    subst hna
    rw [off_head_native_last K w hfd, sync_pure_C, native_off_C, with_csb_C]
    exact exit_flags_host_fields (w.with_regifs (w.sc.backend_regifs - 1)) na_ptr.ptna_nm j
  · rw [off_head_other K w na hn]
    split
    · rw [native_off_C, with_regifs_C]
      exact ⟨rfl, rfl, rfl⟩
    · rw [with_regifs_C]
      exact ⟨rfl, rfl, rfl⟩

/-- The stores of one `ptnet_nm_register` call change `hwcur` and `hwtail` in no CSB
entry. -/
theorem guest_csb_host_cursors (K : Hdr) (w : World) (na : na_ptr) (onoff : Bool) (j : Nat) :
    (guest_csb K w na onoff j).hwcur = (w.C j).hwcur ∧
    (guest_csb K w na onoff j).hwtail = (w.C j).hwtail := by
  unfold guest_csb
  cases onoff
  · simp only [Bool.false_eq_true, if_false]
    exact ⟨(off_head_host_fields K w na j).1, (off_head_host_fields K w na j).2.1⟩
  · simp only [if_true]
    split
    · exact init_flags_host_cursors w na j
    · exact ⟨rfl, rfl⟩

/-- The stores of one `ptnet_nm_register` call change `host_need_kick` in no CSB entry,
unless the call is a register(on) entered with the counter at 0. -/
theorem guest_csb_host_flag (K : Hdr) (w : World) (na : na_ptr) (onoff : Bool) (j : Nat)
    (h : ¬ (onoff = true ∧ w.sc.backend_regifs = 0)) :
    (guest_csb K w na onoff j).host_need_kick = (w.C j).host_need_kick := by
  unfold guest_csb
  cases onoff
  · simp only [Bool.false_eq_true, if_false]
    exact (off_head_host_fields K w na j).2.2
  · simp only [if_true]
    have h0 : ¬ w.sc.backend_regifs = 0 := fun h0 => h ⟨rfl, h0⟩
    rw [if_neg h0]

/-- The CSB a `ptnet_nm_register` call leaves on an attached driver: the one its own
stores produce, handed to the host when the call issues a control call. -/
theorem register_C (K : Hdr) (H : Host) (w : World) (na : na_ptr) (onoff : Bool)
    (hatt : w.attached) :
    (register_pure K H w na onoff).1.C =
      match register_cmd K w onoff with
      | some cmd => H.on_write (w.trace ++ [Ev.bus_write_4 Reg.PTCTL cmd]) (guest_csb K w na onoff)
      | none => guest_csb K w na onoff := by
  unfold guest_csb register_cmd
  cases onoff
  · simp only [Bool.false_eq_true, if_false]
    rw [register_pure_off]
    by_cases h : w.sc.backend_regifs - 1 = 0
    · have h1 : (off_head K w na).sc.backend_regifs = 0 := by rw [off_head_regifs]; exact h
      rw [if_pos h1, if_pos h]
      show (ptnet_nm_ptctl H (off_head K w na) K.NET_PARAVIRT_PTCTL_UNREGIF).1.C = _
      rw [ptctl_C_attached H _ _ (off_head_attached K w na hatt), off_head_trace]
    · have h1 : ¬ (off_head K w na).sc.backend_regifs = 0 := by rw [off_head_regifs]; exact h
      rw [if_neg h1, if_neg h]
  · simp only [if_true]
    by_cases h0 : w.sc.backend_regifs = 0
    · rw [register_pure_on_first K H w na h0, if_pos h0, if_pos h0]
      split
      · show (on_tail K _ na).C = _
        rw [on_tail_C, ptctl_C]
      · show (ptnet_nm_ptctl H (w.with_csb (init_flags w na)) K.NET_PARAVIRT_PTCTL_REGIF).1.C = _
        rw [ptctl_C]
    · rw [register_pure_on_next K H w na h0, if_neg h0, if_neg h0]
      show (on_tail K w na).C = _
      rw [on_tail_C]

/-- C11 fails as stated: on the sample driver, just attached (`backend_regifs = 0`, every
CSB entry zero), with a host that accepts REGIF and never touches the CSB, a register(on)
call of the native adapter returns 0 and leaves `host_need_kick = 1` in CSB entry 0, where
it was 0 before the call. -/
theorem C11_counterexample :
    ∃ w', ptnet_nm_register K0 host_idle (attached_sample 0) na_ptr.ptna_nm true
        = .ok (w', 0) ∧
      (attached_sample 0).sc.backend_regifs = 0 ∧
      ((attached_sample 0).C 0).host_need_kick = 0 ∧
      (w'.C 0).host_need_kick = 1 :=
  ⟨_, register_eq K0 host_idle (attached_sample 0) na_ptr.ptna_nm true (by decide),
    by decide, by decide, by decide⟩

/-- On an attached driver with a host that never touches the CSB, the CSB a
`ptnet_nm_register` call leaves is the one its own stores produce. -/
theorem register_C_idle (K : Hdr) (H : Host) (w : World) (na : na_ptr) (onoff : Bool)
    (hatt : w.attached) (hidle : ∀ tr c, H.on_write tr c = c) :
    (register_pure K H w na onoff).1.C = guest_csb K w na onoff := by
  rw [register_C K H w na onoff hatt]
  split
  · exact hidle _ _
  · rfl

/-- C11, amended: on an attached driver every call of `ptnet_nm_register` returns, and the
CSB it leaves is the one its own stores produce (`guest_csb`), handed to the host when the
call issues REGIF or UNREGIF.  Those stores change `hwcur` and `hwtail` in no CSB entry,
and they change `host_need_kick` in no CSB entry unless the call is a register(on) entered
with `backend_regifs = 0` (which sets the flag, see C7).  So with a host that leaves the
CSB alone during the call, `hwcur` and `hwtail` of every entry are the same after the call
as before it, and so is `host_need_kick` outside that one case.  `ptnet_sync_from_csb`
returns and leaves the whole CSB as it was. -/
theorem C11_host_owned_fields (K : Hdr) (H : Host) (w : World) (na : na_ptr) (onoff : Bool)
    (hatt : w.attached) :
    (∃ w' r, ptnet_nm_register K H w na onoff = .ok (w', r) ∧
      (w'.C = match register_cmd K w onoff with
        | some cmd =>
          H.on_write (w.trace ++ [Ev.bus_write_4 Reg.PTCTL cmd]) (guest_csb K w na onoff)
        | none => guest_csb K w na onoff) ∧
      (∀ j, (guest_csb K w na onoff j).hwcur = (w.C j).hwcur ∧
            (guest_csb K w na onoff j).hwtail = (w.C j).hwtail) ∧
      (¬ (onoff = true ∧ w.sc.backend_regifs = 0) →
        ∀ j, (guest_csb K w na onoff j).host_need_kick = (w.C j).host_need_kick) ∧
      ((∀ tr c, H.on_write tr c = c) →
        ∀ j, (w'.C j).hwcur = (w.C j).hwcur ∧ (w'.C j).hwtail = (w.C j).hwtail ∧
          (¬ (onoff = true ∧ w.sc.backend_regifs = 0) →
            (w'.C j).host_need_kick = (w.C j).host_need_kick))) ∧
    (∃ ws, ptnet_sync_from_csb w na = .ok ws ∧ ws.sc.csb = w.sc.csb) :=
  ⟨⟨(register_pure K H w na onoff).1, (register_pure K H w na onoff).2,
      register_eq K H w na onoff hatt, register_C K H w na onoff hatt,
      fun j => guest_csb_host_cursors K w na onoff j,
      fun h j => guest_csb_host_flag K w na onoff j h,
      fun hidle j => by
        rw [register_C_idle K H w na onoff hatt hidle]
        exact ⟨(guest_csb_host_cursors K w na onoff j).1,
          (guest_csb_host_cursors K w na onoff j).2,
          fun h => guest_csb_host_flag K w na onoff j h⟩⟩,
    ⟨sync_pure w na, sync_eq_attached w na hatt, rfl⟩⟩

/-- C11 on the sample driver with one client registered and a host that never touches the
CSB: the last client unregisters, the call issues UNREGIF and stores `guest_need_kick`,
and `hwcur`, `hwtail` and `host_need_kick` of every CSB entry are after the call what they
were before it. -/
theorem C11_witness :
    registered_sample.attached ∧
    (∃ w' r, ptnet_nm_register K0 host_idle registered_sample na_ptr.ptna_nm false
        = .ok (w', r) ∧
      (∀ j, (w'.C j).hwcur = 5 ∧ (w'.C j).hwtail = 12 ∧ (w'.C j).host_need_kick = 0) ∧
      (guest_csb K0 registered_sample na_ptr.ptna_nm false 0).guest_need_kick = 1) ∧
    (∃ ws, ptnet_sync_from_csb registered_sample na_ptr.ptna_nm = .ok ws ∧
      ws.sc.csb = registered_sample.sc.csb) :=
  ⟨by decide,
    match C11_host_owned_fields K0 host_idle registered_sample na_ptr.ptna_nm false
      (by decide) with
    | ⟨⟨w', r, hcall, _, _, _, hidle⟩, hsync⟩ =>
      ⟨⟨w', r, hcall,
        fun j => ⟨(hidle (fun _ _ => rfl) j).1, (hidle (fun _ _ => rfl) j).2.1,
          (hidle (fun _ _ => rfl) j).2.2 (by decide)⟩, by decide⟩, hsync⟩⟩

/-! ## C12: the sync callers and the kick registers -/

theorem same_kicks_refl (w : World) : same_kicks w w := fun _ => rfl

theorem same_kicks_trans {a b c : World} (h1 : same_kicks a b) (h2 : same_kicks b c) :
    same_kicks a c := fun j => (h2 j).trans (h1 j)

theorem same_kicks_queues (w : World) (q q' : Nat → ptnet_queue) (tr : List Ev)
    (hq : w.sc.queues = some q) (hp : ∀ j, (q' j).kick = (q j).kick) :
    same_kicks w { sc := { w.sc with queues := some q' }, trace := tr } := by
  intro j
  simp only [World.Q, hq]
  exact hp j

theorem update_kick (q : Nat → ptnet_queue) (i : Nat) (v : ptnet_queue) (j : Nat)
    (hv : v.kick = (q i).kick) :
    (Function.update q i v j).kick = (q j).kick := by
  by_cases h : j = i
  · subst h; rw [Function.update_same, hv]
  · rw [Function.update_noteq h]

theorem update_update_kick (q : Nat → ptnet_queue) (i : Nat) (v v' : ptnet_queue) (j : Nat)
    (hv : v.kick = (q i).kick) (hv' : v'.kick = (q i).kick) :
    (Function.update (Function.update q i v) i v' j).kick = (q j).kick := by
  rw [update_kick (Function.update q i v) i v' j (by rw [Function.update_same, hv', hv]),
    update_kick q i v j hv]

theorem irqs_fini_one_kicks (w w1 : World) (i : Nat) (h : irqs_fini_one w i = .ok w1) :
    same_kicks w w1 := by
  unfold irqs_fini_one at h
  cases hq : w.sc.queues with
  | none => rw [hq] at h; cases h
  | some q =>
    rw [hq] at h
    simp only at h
    by_cases hc : (q i).cookie = true <;>
      simp only [hc, if_true, if_false, Bool.false_eq_true] at h
    · split at h
      · injection h with h
        subst h
        exact same_kicks_queues w q _ _ hq (fun j => by
          rw [Function.update_same]
          exact update_update_kick q i _ _ j rfl rfl)
      · injection h with h
        subst h
        exact same_kicks_queues w q _ _ hq (fun j => update_kick q i _ j rfl)
    · split at h
      · injection h with h
        subst h
        exact same_kicks_queues w q _ _ hq (fun j => update_kick q i _ j rfl)
      · injection h with h
        subst h
        exact same_kicks_refl w

theorem irqs_fini_loop_kicks (n : Nat) :
    ∀ w w1 : World, irqs_fini_loop n w = .ok w1 → same_kicks w w1 := by
  induction n with
  | zero =>
    intro w w1 h
    injection h with h
    subst h
    exact same_kicks_refl w
  | succ n ih =>
    intro w w1 h
    simp only [irqs_fini_loop, bind, Except.bind] at h
    cases hr : irqs_fini_loop n w with
    | error c => rw [hr] at h; cases h
    | ok w0 =>
      rw [hr] at h
      exact same_kicks_trans (ih w w0 hr) (irqs_fini_one_kicks w0 w1 n h)

theorem ptnet_irqs_fini_kicks (K : Hdr) (H : Host) (w w1 : World)
    (h : ptnet_irqs_fini K H w = .ok w1) : same_kicks w w1 := by
  simp only [ptnet_irqs_fini, bind, Except.bind] at h
  cases hr : irqs_fini_loop w.sc.num_rings (bus_write_4 H w Reg.CTRL K.PTNET_CTRL_IRQFINI) with
  | error c => rw [hr] at h; cases h
  | ok w0 =>
    rw [hr] at h
    have hb : same_kicks w (bus_write_4 H w Reg.CTRL K.PTNET_CTRL_IRQFINI) := fun _ => rfl
    have h0 := same_kicks_trans hb (irqs_fini_loop_kicks _ _ _ hr)
    simp only at h
    split at h
    · injection h with h
      subst h
      exact same_kicks_trans h0 (fun _ => rfl)
    · injection h with h
      subst h
      exact h0

theorem irqs_init_one_kicks (E : Env) (ntx : Nat) (err : Int) (w : World) (i : Nat)
    (r : World × Option Int) (h : irqs_init_one E ntx err w i = .ok r) :
    same_kicks w r.1 := by
  unfold irqs_init_one at h
  cases hq : w.sc.queues with
  | none => rw [hq] at h; cases h
  | some q =>
    rw [hq] at h
    simp only at h
    split at h
    · split at h
      · injection h with h
        subst h
        exact same_kicks_queues w q _ _ hq (fun j => update_kick q i _ j rfl)
      · injection h with h
        subst h
        exact same_kicks_queues w q _ _ hq (fun j => by
          rw [Function.update_same]
          exact update_update_kick q i _ _ j rfl rfl)
    · injection h with h
      subst h
      exact same_kicks_queues w q _ _ hq (fun j => update_kick q i _ j rfl)

theorem irqs_init_loop_kicks (E : Env) (ntx : Nat) (n : Nat) :
    ∀ (w : World) (r : World × Option Int), irqs_init_loop E ntx n w = .ok r →
      same_kicks w r.1 := by
  induction n with
  | zero =>
    intro w r h
    injection h with h
    subst h
    exact same_kicks_refl w
  | succ n ih =>
    intro w r h
    simp only [irqs_init_loop, bind, Except.bind] at h
    cases hr : irqs_init_loop E ntx n w with
    | error c => rw [hr] at h; cases h
    | ok r0 =>
      rw [hr] at h
      simp only at h
      cases h2 : r0.2 with
      | some e =>
        rw [h2] at h
        injection h with h
        subst h
        exact ih w r0 hr
      | none =>
        rw [h2] at h
        exact same_kicks_trans (ih w r0 hr) (irqs_init_one_kicks E ntx 0 r0.1 n r h)

theorem fini_then_return_kicks (K : Hdr) (H : Host) (w : World) (err : Int)
    (r : World × Int)
    (h : (ptnet_irqs_fini K H w >>= fun w1 => Except.ok (w1, err)) = .ok r) :
    same_kicks w r.1 := by
  obtain ⟨w1, h1, hr⟩ := bind_ok_inv _ _ _ h
  subst hr
  exact ptnet_irqs_fini_kicks K H w w1 h1

theorem ptnet_irqs_init_kicks (K : Hdr) (H : Host) (E : Env) (w : World) (r : World × Int)
    (h : ptnet_irqs_init K H E w = .ok r) : same_kicks w r.1 := by
  unfold ptnet_irqs_init at h
  simp only at h
  have hrd : same_kicks w (bus_read_4 H w Reg.NUM_TX_RINGS).1 := fun _ => rfl
  have hm : same_kicks w
      ({ sc := { (bus_read_4 H w Reg.NUM_TX_RINGS).1.sc with msix_mem := true },
         trace := (bus_read_4 H w Reg.NUM_TX_RINGS).1.trace ++ [Ev.alloc_msix_mem] } : World) :=
    fun _ => rfl
  split at h
  · injection h with h
    subst h
    exact hrd
  · split at h
    · exact same_kicks_trans hm (fini_then_return_kicks K H _ _ r h)
    · split at h
      · exact same_kicks_trans hm (fini_then_return_kicks K H _ _ r h)
      · simp only [bind, Except.bind] at h
        split at h
        · cases h
        · rename_i l hl
          have h1 := irqs_init_loop_kicks E _ _ _ l hl
          have h0 : same_kicks w l.1 := same_kicks_trans hm h1
          split at h
          · exact same_kicks_trans h0 (fini_then_return_kicks K H l.1 _ r h)
          · injection h with h
            subst h
            exact same_kicks_trans h0 (fun _ => rfl)

theorem init_queues_kick (ntx : Nat) (q : Nat → ptnet_queue) (n i : Nat) (hi : i < n) :
    (init_queues ntx n q i).kick = Reg.KICK (4 * i) := by
  induction n with
  | zero => omega
  | succ n ih =>
    simp only [init_queues]
    by_cases h : i = n
    · subst h; rw [Function.update_same]
    · rw [Function.update_noteq h]
      exact ih (by omega)

/-- The kick registers a run of `ptnet_attach` that returns 0 leaves: queue `i` kicks
through the register at offset `4 * i` of the kick area, for every `i < num_rings`. -/
theorem attach_ok_kicks (K : Hdr) (H : Host) (E : Env) (tr : List Ev) (w : World)
    (h : ptnet_attach K H E tr = .ok (w, 0)) :
    ∀ i, i < w.sc.num_rings → (w.Q i).kick = Reg.KICK (4 * i) := by
  have hn := (attach_ok_state K H E tr w h).2.2.2.1
  unfold ptnet_attach at h
  simp only at h
  split at h
  · injection h with h
    injection h with _ h2
    cases h2
  · split at h
    · have := attach_err_path_ret K H _ _ _ h
      cases this
    · split at h
      · have := attach_err_path_ret K H _ _ _ h
        cases this
      · rename_i p hp
        unfold attach_after_csb at h
        simp only at h
        split at h
        · have := attach_err_path_ret K H _ _ _ h
          cases this
        · simp only [bind, Except.bind] at h
          split at h
          · cases h
          · rename_i r hr
            have hk := ptnet_irqs_init_kicks K H E _ r hr
            have hl := (ptnet_irqs_init_layout K H E _ r hr).2.2.2.1
            split at h
            · rename_i hne
              have := attach_err_path_ret K H _ _ _ h
              exact absurd this.symm hne
            · split at h
              · have := attach_err_path_ret K H _ _ _ h
                cases this
              · injection h with h
                injection h with hw _
                subst hw
                intro i hi
                show (r.1.Q i).kick = _
                rw [hk]
                have hi' : i < r.1.sc.num_rings := hi
                rw [hl] at hi'
                exact init_queues_kick _ _ _ i hi'

/-- The function `ptnet_nm_txsync` on an attached driver. -/
theorem txsync_eq (G : Engine) (H : Host) (w : World) (r : Nat) (flags : Int)
    (hatt : w.attached) :
    ptnet_nm_txsync G H w r flags = .ok
      (if (G.netmap_pt_guest_txsync (w.Q r).ptring w.C (w.sc.tx_rings r) flags).2.2 then
        bus_write_4 H ((w.with_csb
          (G.netmap_pt_guest_txsync (w.Q r).ptring w.C (w.sc.tx_rings r) flags).1).with_krings
          (Function.update w.sc.tx_rings r
            (G.netmap_pt_guest_txsync (w.Q r).ptring w.C (w.sc.tx_rings r) flags).2.1)
          w.sc.rx_rings) (w.Q r).kick 0
       else (w.with_csb
          (G.netmap_pt_guest_txsync (w.Q r).ptring w.C (w.sc.tx_rings r) flags).1).with_krings
          (Function.update w.sc.tx_rings r
            (G.netmap_pt_guest_txsync (w.Q r).ptring w.C (w.sc.tx_rings r) flags).2.1)
          w.sc.rx_rings, 0) := by
  unfold ptnet_nm_txsync
  rw [attached_queues hatt, attached_csb hatt]
  rfl

/-- The function `ptnet_nm_rxsync` on an attached driver. -/
theorem rxsync_eq (G : Engine) (H : Host) (w : World) (r : Nat) (flags : Int)
    (hatt : w.attached) :
    ptnet_nm_rxsync G H w r flags = .ok
      (if (G.netmap_pt_guest_rxsync (w.Q (w.sc.rxqueues + r)).ptring w.C
            (w.sc.rx_rings r) flags).2.2 then
        bus_write_4 H ((w.with_csb
          (G.netmap_pt_guest_rxsync (w.Q (w.sc.rxqueues + r)).ptring w.C
            (w.sc.rx_rings r) flags).1).with_krings w.sc.tx_rings
          (Function.update w.sc.rx_rings r
            (G.netmap_pt_guest_rxsync (w.Q (w.sc.rxqueues + r)).ptring w.C
              (w.sc.rx_rings r) flags).2.1)) (w.Q (w.sc.rxqueues + r)).kick 0
       else (w.with_csb
          (G.netmap_pt_guest_rxsync (w.Q (w.sc.rxqueues + r)).ptring w.C
            (w.sc.rx_rings r) flags).1).with_krings w.sc.tx_rings
          (Function.update w.sc.rx_rings r
            (G.netmap_pt_guest_rxsync (w.Q (w.sc.rxqueues + r)).ptring w.C
              (w.sc.rx_rings r) flags).2.1), 0) := by
  unfold ptnet_nm_rxsync
  rw [attached_queues hatt, attached_csb hatt]
  rfl

/-- What a sync caller leaves, given the queue `pq` it used and the result `e` of the
library function: the events, the CSB and the two kring arrays. -/
theorem sync_caller_state (H : Host) (w : World) (pq : ptnet_queue)
    (e : (Nat → ptnet_ring) × netmap_kring × Bool) (tx rx : Nat → netmap_kring) :
    (if e.2.2 then bus_write_4 H ((w.with_csb e.1).with_krings tx rx) pq.kick 0
      else (w.with_csb e.1).with_krings tx rx).trace = w.trace ++ kick_events pq.kick e.2.2 ∧
    (if e.2.2 then bus_write_4 H ((w.with_csb e.1).with_krings tx rx) pq.kick 0
      else (w.with_csb e.1).with_krings tx rx).C =
      (if e.2.2 then H.on_write (w.trace ++ [Ev.bus_write_4 pq.kick 0]) e.1 else e.1) ∧
    (if e.2.2 then bus_write_4 H ((w.with_csb e.1).with_krings tx rx) pq.kick 0
      else (w.with_csb e.1).with_krings tx rx).sc.tx_rings = tx ∧
    (if e.2.2 then bus_write_4 H ((w.with_csb e.1).with_krings tx rx) pq.kick 0
      else (w.with_csb e.1).with_krings tx rx).sc.rx_rings = rx := by
  cases hn : e.2.2
  · simp only [Bool.false_eq_true, if_false, kick_events, List.append_nil]
    exact ⟨rfl, rfl, rfl, rfl⟩
  · simp only [if_true, kick_events]
    exact ⟨rfl, rfl, rfl, rfl⟩

/-- C12: on an attached driver whose queue `i` has `kick = KICK_BASE + 4*i` and points to
CSB entry `i` for every `i < ntx + nrx`, with `rxqueues` at offset `ntx`:
`ptnet_nm_txsync` on TX ring `r < ntx` hands CSB entry `r` and TX kring `r` to
`netmap_pt_guest_txsync`, returns 0, and appends one write of 0 to the register
`KICK_BASE + 4*r` when the library returned `notify`, no event otherwise;
`ptnet_nm_rxsync` on RX ring `r < nrx` does the same with CSB entry `ntx + r`, RX kring `r`,
`netmap_pt_guest_rxsync` and the register `KICK_BASE + 4*(ntx + r)`.  The kring and the CSB
are those the library produced, the CSB having been served by the host when the kick was
written. -/
theorem C12_kick_mediation (G : Engine) (H : Host) (w : World) (ntx nrx r : Nat) (flags : Int)
    (hatt : w.attached)
    (hq : ∀ i, i < ntx + nrx → (w.Q i).kick = Reg.KICK (4 * i) ∧ (w.Q i).ptring = i)
    (hrxq : w.sc.rxqueues = ntx) :
    (r < ntx → ∃ w', ptnet_nm_txsync G H w r flags = .ok (w', 0) ∧
      w'.trace = w.trace ++ kick_events (Reg.KICK (4 * r))
        (G.netmap_pt_guest_txsync r w.C (w.sc.tx_rings r) flags).2.2 ∧
      w'.C = (if (G.netmap_pt_guest_txsync r w.C (w.sc.tx_rings r) flags).2.2 then
          H.on_write (w.trace ++ [Ev.bus_write_4 (Reg.KICK (4 * r)) 0])
            (G.netmap_pt_guest_txsync r w.C (w.sc.tx_rings r) flags).1
        else (G.netmap_pt_guest_txsync r w.C (w.sc.tx_rings r) flags).1) ∧
      w'.sc.tx_rings = Function.update w.sc.tx_rings r
        (G.netmap_pt_guest_txsync r w.C (w.sc.tx_rings r) flags).2.1 ∧
      w'.sc.rx_rings = w.sc.rx_rings) ∧
    (r < nrx → ∃ w', ptnet_nm_rxsync G H w r flags = .ok (w', 0) ∧
      w'.trace = w.trace ++ kick_events (Reg.KICK (4 * (ntx + r)))
        (G.netmap_pt_guest_rxsync (ntx + r) w.C (w.sc.rx_rings r) flags).2.2 ∧
      w'.C = (if (G.netmap_pt_guest_rxsync (ntx + r) w.C (w.sc.rx_rings r) flags).2.2 then
          H.on_write (w.trace ++ [Ev.bus_write_4 (Reg.KICK (4 * (ntx + r))) 0])
            (G.netmap_pt_guest_rxsync (ntx + r) w.C (w.sc.rx_rings r) flags).1
        else (G.netmap_pt_guest_rxsync (ntx + r) w.C (w.sc.rx_rings r) flags).1) ∧
      w'.sc.rx_rings = Function.update w.sc.rx_rings r
        (G.netmap_pt_guest_rxsync (ntx + r) w.C (w.sc.rx_rings r) flags).2.1 ∧
      w'.sc.tx_rings = w.sc.tx_rings) := by
  constructor
  · intro hr
    obtain ⟨hk, hp⟩ := hq r (by omega)
    have hcall := txsync_eq G H w r flags hatt
    obtain ⟨h1, h2, h3, h4⟩ := sync_caller_state H w (w.Q r)
      (G.netmap_pt_guest_txsync (w.Q r).ptring w.C (w.sc.tx_rings r) flags)
      (Function.update w.sc.tx_rings r
        (G.netmap_pt_guest_txsync (w.Q r).ptring w.C (w.sc.tx_rings r) flags).2.1)
      w.sc.rx_rings
    rw [hk, hp] at h1 h2 h3 h4 hcall
    exact ⟨_, hcall, h1, h2, h3, h4⟩
  · intro hr
    obtain ⟨hk, hp⟩ := hq (ntx + r) (by omega)
    have hcall := rxsync_eq G H w r flags hatt
    obtain ⟨h1, h2, h3, h4⟩ := sync_caller_state H w (w.Q (w.sc.rxqueues + r))
      (G.netmap_pt_guest_rxsync (w.Q (w.sc.rxqueues + r)).ptring w.C (w.sc.rx_rings r) flags)
      w.sc.tx_rings
      (Function.update w.sc.rx_rings r
        (G.netmap_pt_guest_rxsync (w.Q (w.sc.rxqueues + r)).ptring w.C
          (w.sc.rx_rings r) flags).2.1)
    rw [hrxq] at h1 h2 h3 h4 hcall
    rw [hk, hp] at h1 h2 h3 h4 hcall
    exact ⟨_, hcall, h1, h2, h4, h3⟩

/-- C12 on the sample driver (two TX and two RX rings) with `host_need_kick = 1` in every
CSB entry: the TX sync of ring 1 kicks through register `KICK_BASE + 4` and publishes the
ring in CSB entry 1; the RX sync of ring 1 called with `flags = 1` kicks through
`KICK_BASE + 12`; called with `flags = 0` it writes no register. -/
theorem C12_witness :
    ((attached_sample 0).with_csb (fun _ => ⟨0, 0, 0, 0, 1, 0⟩)).attached ∧
    (∃ w', ptnet_nm_txsync engine_sample (host_sample 2 2 0)
        ((attached_sample 0).with_csb (fun _ => ⟨0, 0, 0, 0, 1, 0⟩)) 1 1 = .ok (w', 0) ∧
      w'.trace = [Ev.bus_write_4 (Reg.KICK 4) 0]) ∧
    (∃ w', ptnet_nm_rxsync engine_sample (host_sample 2 2 0)
        ((attached_sample 0).with_csb (fun _ => ⟨0, 0, 0, 0, 1, 0⟩)) 1 1 = .ok (w', 0) ∧
      w'.trace = [Ev.bus_write_4 (Reg.KICK 12) 0]) :=
  ⟨by decide,
    match C12_kick_mediation engine_sample (host_sample 2 2 0)
      ((attached_sample 0).with_csb (fun _ => ⟨0, 0, 0, 0, 1, 0⟩)) 2 2 1 1
      (by decide) (by decide) (by decide) with
    | ⟨htx, hrx⟩ =>
      ⟨match htx (by decide) with
        | ⟨w', hcall, htr, _⟩ => ⟨w', hcall, htr⟩,
       match hrx (by decide) with
        | ⟨w', hcall, htr, _⟩ => ⟨w', hcall, htr⟩⟩⟩

/-! ## C13: the handler of each queue -/

/-- One iteration of the loop of `ptnet_irqs_init` that acquires the interrupt and
registers the handler: the handler is the RX one exactly when `i > num_tx_rings`. -/
theorem irqs_init_one_handler (E : Env) (ntx : Nat) (err : Int) (w : World) (i : Nat)
    (hq : w.sc.queues.isSome = true) (hirq : E.irq_alloc_ok i = true)
    (hs : E.setup_intr_err i = 0) :
    ∃ w1, irqs_init_one E ntx err w i = .ok (w1, none) ∧
      w1.trace = w.trace ++ [Ev.alloc_irq i,
        Ev.setup_intr i (if i > ntx then Handler.ptnet_rx_intr else Handler.ptnet_tx_intr)] := by
  unfold irqs_init_one
  cases hq' : w.sc.queues with
  | none => rw [hq'] at hq; cases hq
  | some q =>
    simp only [hirq, hs, if_true, ne_eq, not_true_eq_false, if_false]
    exact ⟨_, rfl, by simp⟩

/-- The iteration of the loop of `ptnet_irqs_init` for the first RX queue registers the TX
handler, whatever the number of TX rings. -/
theorem irqs_init_one_first_rx (E : Env) (ntx : Nat) (err : Int) (w : World)
    (hq : w.sc.queues.isSome = true) (hirq : E.irq_alloc_ok ntx = true)
    (hs : E.setup_intr_err ntx = 0) :
    ∃ w1, irqs_init_one E ntx err w ntx = .ok (w1, none) ∧
      w1.trace = w.trace ++ [Ev.alloc_irq ntx, Ev.setup_intr ntx Handler.ptnet_tx_intr] := by
  obtain ⟨w1, h1, h2⟩ := irqs_init_one_handler E ntx err w ntx hq hirq hs
  rw [if_neg (Nat.lt_irrefl ntx)] at h2
  exact ⟨w1, h1, h2⟩

/-- C13 at the failing input: the host reports two TX and two RX rings and every kernel
service succeeds.  `ptnet_attach` returns 0; queue 2, the first RX queue (`rxqueues` is at
offset 2 and the queue has `kring_id = 0`, the RX numbering), is registered with
`ptnet_tx_intr`; only queue 3 gets `ptnet_rx_intr`. -/
theorem C13_first_rx_queue_gets_tx_handler :
    (outcome (ptnet_attach K0 (host_sample 2 2 0) env_ok [])).1 = some 0 ∧
    setup_intr_events (outcome (ptnet_attach K0 (host_sample 2 2 0) env_ok [])).2
      = [(0, Handler.ptnet_tx_intr), (1, Handler.ptnet_tx_intr),
         (2, Handler.ptnet_tx_intr), (3, Handler.ptnet_rx_intr)] ∧
    (world_of (ptnet_attach K0 (host_sample 2 2 0) env_ok [])).sc.rxqueues = 2 ∧
    ((world_of (ptnet_attach K0 (host_sample 2 2 0) env_ok [])).Q 2).kring_id = 0 ∧
    ((world_of (ptnet_attach K0 (host_sample 2 2 0) env_ok [])).Q 3).kring_id = 1 := by
  decide

end Ptnet
